import Mathlib

/-!
Verification development for the inkwell document layout and pagination
engine (Rust sources under `src/`).  The Rust core is shallowly embedded:

* `f32` values are modelled as rationals (`ℚ`), so real-number arithmetic is
  exact; the one place where IEEE special values are observable — the
  `(overflow / content_height).ceil() as usize` cast in `paginate` — is
  modelled explicitly (division by zero gives `+inf`, and the saturating
  `as usize` cast clamps to `usize::MAX` above and to `0` below).
* Rust `String`s are modelled as `List Char`; `str::split_whitespace` is
  modelled by `splitWhitespace` below using `Char.isWhitespace`.
* In-place mutation of the layout tree is modelled by functions returning the
  updated tree.
* `Style` keeps exactly the fields the layout core reads; fields that are
  only consumed by the PDF/SVG renderer (colors, borders, opacity,
  object-fit, text-align) are omitted, as are the image/svg `src`/`content`
  payload fields of `JsonNode`.

Definitions keep the source names (`measure_layout_with_parent`,
`place_layout`, `paginate`, ...) wherever Lean allows.  Loops become
explicit recursions whose accumulator mirrors the loop state of the Rust
code; the source location of every embedded function is noted in its doc
comment.
-/

namespace Inkwell

/-- Dimension value (`layout.rs`): fixed points or percentage of a parent
dimension. -/
inductive Dimension where
  | pt (v : ℚ)
  | percent (p : ℚ)
deriving DecidableEq

/-- `Dimension::resolve` (`layout.rs` lines 100-108): resolve to points given
the parent size. -/
def Dimension.resolve : Dimension → ℚ → ℚ
  | .pt v, _ => v
  | .percent p, parent_size => parent_size * p / 100

/-- `Dimension::is_percent` (`layout.rs`). -/
def Dimension.is_percent : Dimension → Bool
  | .percent _ => true
  | .pt _ => false

/-- `NodeType` (`layout.rs`). -/
inductive NodeType where
  | page | view | text | image | svg | table | row | cell
deriving DecidableEq

/-- `Direction` (`layout.rs`). -/
inductive Direction where
  | row | column
deriving DecidableEq

/-- `MainAlign` (`layout.rs`): justify-content style main-axis alignment. -/
inductive MainAlign where
  | start | center | «end» | spaceBetween | spaceAround | spaceEvenly
deriving DecidableEq

/-- `CrossAlign` (`layout.rs`): align-items style cross-axis alignment. -/
inductive CrossAlign where
  | start | center | «end» | stretch
deriving DecidableEq

/-- `Position` (`layout.rs`). -/
inductive Position where
  | static | relative | absolute
deriving DecidableEq

/-- `FontWeight` (`layout.rs`). -/
inductive FontWeight where
  | normal | bold
deriving DecidableEq

/-- `FontStyle` (`layout.rs`). -/
inductive FontStyle where
  | normal | italic
deriving DecidableEq

/-- `Style` (`layout.rs` lines 257-383), restricted to the fields the layout
core reads.  All fields are optional, `None` meaning "absent from the
JSON". -/
structure Style where
  width : Option Dimension := none
  height : Option Dimension := none
  min_width : Option Dimension := none
  min_height : Option Dimension := none
  max_width : Option Dimension := none
  max_height : Option Dimension := none
  position : Option Position := none
  top : Option ℚ := none
  right : Option ℚ := none
  bottom : Option ℚ := none
  left : Option ℚ := none
  direction : Option Direction := none
  wrap : Option Bool := none
  main_align : Option MainAlign := none
  cross_align : Option CrossAlign := none
  gap : Option ℚ := none
  flex : Option ℚ := none
  padding : Option ℚ := none
  padding_top : Option ℚ := none
  padding_right : Option ℚ := none
  padding_bottom : Option ℚ := none
  padding_left : Option ℚ := none
  margin : Option ℚ := none
  margin_top : Option ℚ := none
  margin_right : Option ℚ := none
  margin_bottom : Option ℚ := none
  margin_left : Option ℚ := none
  font_size : Option ℚ := none
  font_weight : Option FontWeight := none
  font_style : Option FontStyle := none
  line_height : Option ℚ := none
deriving DecidableEq

/-- `Style::padding_trbl` (`layout.rs` lines 447-455): padding as
(top, right, bottom, left), per-side values defaulting to the uniform
`padding` and then to 0. -/
def Style.padding_trbl (s : Style) : ℚ × ℚ × ℚ × ℚ :=
  let base := s.padding.getD 0
  (s.padding_top.getD base, s.padding_right.getD base,
   s.padding_bottom.getD base, s.padding_left.getD base)

/-- `Style::margin_trbl` (`layout.rs` lines 458-466). -/
def Style.margin_trbl (s : Style) : ℚ × ℚ × ℚ × ℚ :=
  let base := s.margin.getD 0
  (s.margin_top.getD base, s.margin_right.getD base,
   s.margin_bottom.getD base, s.margin_left.getD base)

/-- `JsonNode` (`layout.rs` lines 389-430), restricted to the fields the
layout core reads.  `text` is the node's text content as a character list;
`font_size`, `font_weight`, `font_style` are the legacy node-level
attributes that `LayoutBox`'s accessors fall back to. -/
inductive JsonNode where
  | mk (node_type : NodeType) (style : Style) (children : List JsonNode)
       (text : Option (List Char))
       (font_size : Option ℚ) (font_weight : Option FontWeight)
       (font_style : Option FontStyle)
       (column_widths : Option (List Dimension))
       (col_span : Option ℕ) (row_span : Option ℕ)

def JsonNode.node_type : JsonNode → NodeType
  | .mk t _ _ _ _ _ _ _ _ _ => t

def JsonNode.style : JsonNode → Style
  | .mk _ s _ _ _ _ _ _ _ _ => s

def JsonNode.children : JsonNode → List JsonNode
  | .mk _ _ cs _ _ _ _ _ _ _ => cs

def JsonNode.text : JsonNode → Option (List Char)
  | .mk _ _ _ t _ _ _ _ _ _ => t

def JsonNode.font_size : JsonNode → Option ℚ
  | .mk _ _ _ _ fs _ _ _ _ _ => fs

def JsonNode.font_weight : JsonNode → Option FontWeight
  | .mk _ _ _ _ _ fw _ _ _ _ => fw

def JsonNode.font_style : JsonNode → Option FontStyle
  | .mk _ _ _ _ _ _ fst _ _ _ => fst

def JsonNode.column_widths : JsonNode → Option (List Dimension)
  | .mk _ _ _ _ _ _ _ cw _ _ => cw

def JsonNode.col_span_field : JsonNode → Option ℕ
  | .mk _ _ _ _ _ _ _ _ cs _ => cs

def JsonNode.row_span_field : JsonNode → Option ℕ
  | .mk _ _ _ _ _ _ _ _ _ rs => rs

/-- `TableLayout` (`layout_box.rs` lines 10-14): the computed grid info. -/
structure TableLayout where
  column_widths : List ℚ
  row_heights : List ℚ
deriving DecidableEq

/-- `LayoutBox` (`layout_box.rs` lines 16-43).  PDF coordinates: origin at
the bottom-left of the page, `y` is the y of the box's top edge. -/
inductive LayoutBox where
  | mk (x y width height : ℚ)
       (margin_top margin_right margin_bottom margin_left : ℚ)
       (children : List LayoutBox)
       (node : JsonNode)
       (lines : List (List Char))
       (table : Option TableLayout)

def LayoutBox.x : LayoutBox → ℚ
  | .mk x _ _ _ _ _ _ _ _ _ _ _ => x

def LayoutBox.y : LayoutBox → ℚ
  | .mk _ y _ _ _ _ _ _ _ _ _ _ => y

def LayoutBox.width : LayoutBox → ℚ
  | .mk _ _ w _ _ _ _ _ _ _ _ _ => w

def LayoutBox.height : LayoutBox → ℚ
  | .mk _ _ _ h _ _ _ _ _ _ _ _ => h

def LayoutBox.margin_top : LayoutBox → ℚ
  | .mk _ _ _ _ mt _ _ _ _ _ _ _ => mt

def LayoutBox.margin_right : LayoutBox → ℚ
  | .mk _ _ _ _ _ mr _ _ _ _ _ _ => mr

def LayoutBox.margin_bottom : LayoutBox → ℚ
  | .mk _ _ _ _ _ _ mb _ _ _ _ _ => mb

def LayoutBox.margin_left : LayoutBox → ℚ
  | .mk _ _ _ _ _ _ _ ml _ _ _ _ => ml

def LayoutBox.children : LayoutBox → List LayoutBox
  | .mk _ _ _ _ _ _ _ _ cs _ _ _ => cs

def LayoutBox.node : LayoutBox → JsonNode
  | .mk _ _ _ _ _ _ _ _ _ nd _ _ => nd

def LayoutBox.lines : LayoutBox → List (List Char)
  | .mk _ _ _ _ _ _ _ _ _ _ ln _ => ln

def LayoutBox.table : LayoutBox → Option TableLayout
  | .mk _ _ _ _ _ _ _ _ _ _ _ tb => tb

-- Projection equations on the constructor (all definitional).

@[simp] theorem LayoutBox.x_mk (x y w h mt mr mb ml : ℚ) (cs : List LayoutBox)
    (nd : JsonNode) (ln : List (List Char)) (tb : Option TableLayout) :
    (LayoutBox.mk x y w h mt mr mb ml cs nd ln tb).x = x := rfl

@[simp] theorem LayoutBox.y_mk (x y w h mt mr mb ml : ℚ) (cs : List LayoutBox)
    (nd : JsonNode) (ln : List (List Char)) (tb : Option TableLayout) :
    (LayoutBox.mk x y w h mt mr mb ml cs nd ln tb).y = y := rfl

@[simp] theorem LayoutBox.width_mk (x y w h mt mr mb ml : ℚ) (cs : List LayoutBox)
    (nd : JsonNode) (ln : List (List Char)) (tb : Option TableLayout) :
    (LayoutBox.mk x y w h mt mr mb ml cs nd ln tb).width = w := rfl

@[simp] theorem LayoutBox.height_mk (x y w h mt mr mb ml : ℚ) (cs : List LayoutBox)
    (nd : JsonNode) (ln : List (List Char)) (tb : Option TableLayout) :
    (LayoutBox.mk x y w h mt mr mb ml cs nd ln tb).height = h := rfl

@[simp] theorem LayoutBox.margin_top_mk (x y w h mt mr mb ml : ℚ) (cs : List LayoutBox)
    (nd : JsonNode) (ln : List (List Char)) (tb : Option TableLayout) :
    (LayoutBox.mk x y w h mt mr mb ml cs nd ln tb).margin_top = mt := rfl

@[simp] theorem LayoutBox.margin_right_mk (x y w h mt mr mb ml : ℚ) (cs : List LayoutBox)
    (nd : JsonNode) (ln : List (List Char)) (tb : Option TableLayout) :
    (LayoutBox.mk x y w h mt mr mb ml cs nd ln tb).margin_right = mr := rfl

@[simp] theorem LayoutBox.margin_bottom_mk (x y w h mt mr mb ml : ℚ) (cs : List LayoutBox)
    (nd : JsonNode) (ln : List (List Char)) (tb : Option TableLayout) :
    (LayoutBox.mk x y w h mt mr mb ml cs nd ln tb).margin_bottom = mb := rfl

@[simp] theorem LayoutBox.margin_left_mk (x y w h mt mr mb ml : ℚ) (cs : List LayoutBox)
    (nd : JsonNode) (ln : List (List Char)) (tb : Option TableLayout) :
    (LayoutBox.mk x y w h mt mr mb ml cs nd ln tb).margin_left = ml := rfl

@[simp] theorem LayoutBox.children_mk (x y w h mt mr mb ml : ℚ) (cs : List LayoutBox)
    (nd : JsonNode) (ln : List (List Char)) (tb : Option TableLayout) :
    (LayoutBox.mk x y w h mt mr mb ml cs nd ln tb).children = cs := rfl

@[simp] theorem LayoutBox.node_mk (x y w h mt mr mb ml : ℚ) (cs : List LayoutBox)
    (nd : JsonNode) (ln : List (List Char)) (tb : Option TableLayout) :
    (LayoutBox.mk x y w h mt mr mb ml cs nd ln tb).node = nd := rfl

@[simp] theorem LayoutBox.lines_mk (x y w h mt mr mb ml : ℚ) (cs : List LayoutBox)
    (nd : JsonNode) (ln : List (List Char)) (tb : Option TableLayout) :
    (LayoutBox.mk x y w h mt mr mb ml cs nd ln tb).lines = ln := rfl

@[simp] theorem LayoutBox.table_mk (x y w h mt mr mb ml : ℚ) (cs : List LayoutBox)
    (nd : JsonNode) (ln : List (List Char)) (tb : Option TableLayout) :
    (LayoutBox.mk x y w h mt mr mb ml cs nd ln tb).table = tb := rfl

@[simp] theorem JsonNode.node_type_mk (t : NodeType) (s : Style) (cs : List JsonNode)
    (tx : Option (List Char)) (fs : Option ℚ) (fw : Option FontWeight)
    (fsty : Option FontStyle) (cw : Option (List Dimension)) (csp rsp : Option ℕ) :
    (JsonNode.mk t s cs tx fs fw fsty cw csp rsp).node_type = t := rfl

@[simp] theorem JsonNode.style_mk (t : NodeType) (s : Style) (cs : List JsonNode)
    (tx : Option (List Char)) (fs : Option ℚ) (fw : Option FontWeight)
    (fsty : Option FontStyle) (cw : Option (List Dimension)) (csp rsp : Option ℕ) :
    (JsonNode.mk t s cs tx fs fw fsty cw csp rsp).style = s := rfl

@[simp] theorem JsonNode.node_children_mk (t : NodeType) (s : Style) (cs : List JsonNode)
    (tx : Option (List Char)) (fs : Option ℚ) (fw : Option FontWeight)
    (fsty : Option FontStyle) (cw : Option (List Dimension)) (csp rsp : Option ℕ) :
    (JsonNode.mk t s cs tx fs fw fsty cw csp rsp).children = cs := rfl

@[simp] theorem JsonNode.text_mk (t : NodeType) (s : Style) (cs : List JsonNode)
    (tx : Option (List Char)) (fs : Option ℚ) (fw : Option FontWeight)
    (fsty : Option FontStyle) (cw : Option (List Dimension)) (csp rsp : Option ℕ) :
    (JsonNode.mk t s cs tx fs fw fsty cw csp rsp).text = tx := rfl

@[simp] theorem JsonNode.font_size_mk (t : NodeType) (s : Style) (cs : List JsonNode)
    (tx : Option (List Char)) (fs : Option ℚ) (fw : Option FontWeight)
    (fsty : Option FontStyle) (cw : Option (List Dimension)) (csp rsp : Option ℕ) :
    (JsonNode.mk t s cs tx fs fw fsty cw csp rsp).font_size = fs := rfl

@[simp] theorem JsonNode.font_weight_mk (t : NodeType) (s : Style) (cs : List JsonNode)
    (tx : Option (List Char)) (fs : Option ℚ) (fw : Option FontWeight)
    (fsty : Option FontStyle) (cw : Option (List Dimension)) (csp rsp : Option ℕ) :
    (JsonNode.mk t s cs tx fs fw fsty cw csp rsp).font_weight = fw := rfl

@[simp] theorem JsonNode.font_style_mk (t : NodeType) (s : Style) (cs : List JsonNode)
    (tx : Option (List Char)) (fs : Option ℚ) (fw : Option FontWeight)
    (fsty : Option FontStyle) (cw : Option (List Dimension)) (csp rsp : Option ℕ) :
    (JsonNode.mk t s cs tx fs fw fsty cw csp rsp).font_style = fsty := rfl

@[simp] theorem JsonNode.column_widths_mk (t : NodeType) (s : Style) (cs : List JsonNode)
    (tx : Option (List Char)) (fs : Option ℚ) (fw : Option FontWeight)
    (fsty : Option FontStyle) (cw : Option (List Dimension)) (csp rsp : Option ℕ) :
    (JsonNode.mk t s cs tx fs fw fsty cw csp rsp).column_widths = cw := rfl

@[simp] theorem JsonNode.col_span_field_mk (t : NodeType) (s : Style) (cs : List JsonNode)
    (tx : Option (List Char)) (fs : Option ℚ) (fw : Option FontWeight)
    (fsty : Option FontStyle) (cw : Option (List Dimension)) (csp rsp : Option ℕ) :
    (JsonNode.mk t s cs tx fs fw fsty cw csp rsp).col_span_field = csp := rfl

@[simp] theorem JsonNode.row_span_field_mk (t : NodeType) (s : Style) (cs : List JsonNode)
    (tx : Option (List Char)) (fs : Option ℚ) (fw : Option FontWeight)
    (fsty : Option FontStyle) (cw : Option (List Dimension)) (csp rsp : Option ℕ) :
    (JsonNode.mk t s cs tx fs fw fsty cw csp rsp).row_span_field = rsp := rfl

-- Style accessors on `LayoutBox` (`layout_box.rs` lines 65-183).

/-- `LayoutBox::style_width`: fixed width only (None for percentages). -/
def LayoutBox.style_width (b : LayoutBox) : Option ℚ :=
  match b.node.style.width with
  | some (.pt v) => some v
  | _ => none

/-- `LayoutBox::style_height`. -/
def LayoutBox.style_height (b : LayoutBox) : Option ℚ :=
  match b.node.style.height with
  | some (.pt v) => some v
  | _ => none

/-- `LayoutBox::resolve_width`: resolve the width against the parent width
(handles both fixed and percentage). -/
def LayoutBox.resolve_width (b : LayoutBox) (parent_width : ℚ) : Option ℚ :=
  b.node.style.width.map (fun d => d.resolve parent_width)

/-- `LayoutBox::resolve_height`. -/
def LayoutBox.resolve_height (b : LayoutBox) (parent_height : ℚ) : Option ℚ :=
  b.node.style.height.map (fun d => d.resolve parent_height)

/-- `LayoutBox::flex` (default 0). -/
def LayoutBox.flex (b : LayoutBox) : ℚ :=
  b.node.style.flex.getD 0

/-- `LayoutBox::main_align` (default Start). -/
def LayoutBox.main_align (b : LayoutBox) : MainAlign :=
  b.node.style.main_align.getD .start

/-- `LayoutBox::cross_align` (default Start). -/
def LayoutBox.cross_align (b : LayoutBox) : CrossAlign :=
  b.node.style.cross_align.getD .start

/-- `LayoutBox::position` (default Static). -/
def LayoutBox.position (b : LayoutBox) : Position :=
  b.node.style.position.getD .static

/-- `LayoutBox::is_absolute`. -/
def LayoutBox.is_absolute (b : LayoutBox) : Bool :=
  match b.position with
  | .absolute => true
  | _ => false

/-- `LayoutBox::is_relative`. -/
def LayoutBox.is_relative (b : LayoutBox) : Bool :=
  match b.position with
  | .relative => true
  | _ => false

/-- `LayoutBox::font_size`: style value, then the legacy node-level value,
then 12. -/
def LayoutBox.font_size (b : LayoutBox) : ℚ :=
  ((b.node.style.font_size).or b.node.font_size).getD 12

/-- `LayoutBox::font_weight`: style value falling back to node-level. -/
def LayoutBox.font_weight (b : LayoutBox) : Option FontWeight :=
  (b.node.style.font_weight).or b.node.font_weight

/-- `LayoutBox::font_style`. -/
def LayoutBox.font_style (b : LayoutBox) : Option FontStyle :=
  (b.node.style.font_style).or b.node.font_style

/-- `LayoutBox::is_bold`. -/
def LayoutBox.is_bold (b : LayoutBox) : Bool :=
  match b.font_weight with
  | some .bold => true
  | _ => false

/-- `LayoutBox::is_italic`. -/
def LayoutBox.is_italic (b : LayoutBox) : Bool :=
  match b.font_style with
  | some .italic => true
  | _ => false

/-- `LayoutBox::line_height_multiplier` (default 1.4). -/
def LayoutBox.line_height_multiplier (b : LayoutBox) : ℚ :=
  b.node.style.line_height.getD 1.4

/-- `LayoutBox::outer_width`: width plus horizontal margins. -/
def LayoutBox.outer_width (b : LayoutBox) : ℚ :=
  b.margin_left + b.width + b.margin_right

/-- `LayoutBox::outer_height`. -/
def LayoutBox.outer_height (b : LayoutBox) : ℚ :=
  b.margin_top + b.height + b.margin_bottom

/-- `LayoutBox::col_span`: node field, defaulting to 1 and clamped to at
least 1. -/
def LayoutBox.col_span (b : LayoutBox) : ℕ :=
  max (b.node.col_span_field.getD 1) 1

/-- `LayoutBox::row_span`. -/
def LayoutBox.row_span (b : LayoutBox) : ℕ :=
  max (b.node.row_span_field.getD 1) 1

-- Field-update helpers (modelling in-place mutation of a `LayoutBox`).

def LayoutBox.set_width (b : LayoutBox) (w : ℚ) : LayoutBox :=
  match b with
  | .mk x y _ h mt mr mb ml cs nd ln tb => .mk x y w h mt mr mb ml cs nd ln tb

def LayoutBox.set_height (b : LayoutBox) (h : ℚ) : LayoutBox :=
  match b with
  | .mk x y w _ mt mr mb ml cs nd ln tb => .mk x y w h mt mr mb ml cs nd ln tb

def LayoutBox.set_xy (b : LayoutBox) (x y : ℚ) : LayoutBox :=
  match b with
  | .mk _ _ w h mt mr mb ml cs nd ln tb => .mk x y w h mt mr mb ml cs nd ln tb

-- ==========================================================================
-- Font metrics (`font_metrics.rs`)
-- ==========================================================================

/-- The width table of `helvetica_widths` (`font_metrics.rs` lines 53-185)
as an association list (the source builds a `HashMap` by successive
inserts): standard Helvetica character widths in 1/1000 em units. -/
def helvetica_width_table : List (Char × ℕ) :=
  [(' ', 278), ('!', 278), ('"', 355), ('#', 556),
   ('$', 556), ('%', 889), ('&', 667), ('\'', 191),
   ('(', 333), (')', 333), ('*', 389), ('+', 584),
   (',', 278), ('-', 333), ('.', 278), ('/', 278),
   ('0', 556), ('1', 556), ('2', 556), ('3', 556),
   ('4', 556), ('5', 556), ('6', 556), ('7', 556),
   ('8', 556), ('9', 556), (':', 278), (';', 278),
   ('<', 584), ('=', 584), ('>', 584), ('?', 556),
   ('@', 1015), ('A', 667), ('B', 667), ('C', 722),
   ('D', 722), ('E', 667), ('F', 611), ('G', 778),
   ('H', 722), ('I', 278), ('J', 500), ('K', 667),
   ('L', 556), ('M', 833), ('N', 722), ('O', 778),
   ('P', 667), ('Q', 778), ('R', 722), ('S', 667),
   ('T', 611), ('U', 722), ('V', 667), ('W', 944),
   ('X', 667), ('Y', 667), ('Z', 611), ('[', 278),
   ('\\', 278), (']', 278), ('^', 469), ('_', 556),
   ('`', 333), ('a', 556), ('b', 556), ('c', 500),
   ('d', 556), ('e', 556), ('f', 278), ('g', 556),
   ('h', 556), ('i', 222), ('j', 222), ('k', 500),
   ('l', 222), ('m', 833), ('n', 556), ('o', 556),
   ('p', 556), ('q', 556), ('r', 333), ('s', 500),
   ('t', 278), ('u', 556), ('v', 500), ('w', 722),
   ('x', 500), ('y', 500), ('z', 500), ('{', 334),
   ('|', 260), ('}', 334), ('~', 584), ('–', 556),
   ('—', 1000), ('‘', 222), ('’', 222), ('“', 333),
   ('”', 333), ('…', 1000), ('€', 556), ('£', 556),
   ('¥', 556), ('©', 737), ('®', 737), ('™', 1000),
   ('°', 400), ('±', 584), ('×', 584), ('÷', 584)]

/-- `helvetica_widths` (`font_metrics.rs` lines 53-185): table lookup,
`none` for characters missing from the table. -/
def helvetica_widths (c : Char) : Option ℕ :=
  helvetica_width_table.lookup c

/-- The width table of `helvetica_bold_widths` (`font_metrics.rs` lines
187-289). -/
def helvetica_bold_width_table : List (Char × ℕ) :=
  [(' ', 278), ('!', 333), ('"', 474), ('#', 556),
   ('$', 556), ('%', 889), ('&', 722), ('\'', 238),
   ('(', 333), (')', 333), ('*', 389), ('+', 584),
   (',', 278), ('-', 333), ('.', 278), ('/', 278),
   ('0', 556), ('1', 556), ('2', 556), ('3', 556),
   ('4', 556), ('5', 556), ('6', 556), ('7', 556),
   ('8', 556), ('9', 556), (':', 333), (';', 333),
   ('<', 584), ('=', 584), ('>', 584), ('?', 611),
   ('@', 975), ('A', 722), ('B', 722), ('C', 722),
   ('D', 722), ('E', 667), ('F', 611), ('G', 778),
   ('H', 722), ('I', 278), ('J', 556), ('K', 722),
   ('L', 611), ('M', 833), ('N', 722), ('O', 778),
   ('P', 667), ('Q', 778), ('R', 722), ('S', 667),
   ('T', 611), ('U', 722), ('V', 667), ('W', 944),
   ('X', 667), ('Y', 667), ('Z', 611), ('[', 333),
   ('\\', 278), (']', 333), ('^', 584), ('_', 556),
   ('`', 333), ('a', 556), ('b', 611), ('c', 556),
   ('d', 611), ('e', 556), ('f', 333), ('g', 611),
   ('h', 611), ('i', 278), ('j', 278), ('k', 556),
   ('l', 278), ('m', 889), ('n', 611), ('o', 611),
   ('p', 611), ('q', 611), ('r', 389), ('s', 556),
   ('t', 333), ('u', 611), ('v', 556), ('w', 778),
   ('x', 556), ('y', 556), ('z', 500), ('{', 389),
   ('|', 280), ('}', 389), ('~', 584)]

/-- `helvetica_bold_widths` (`font_metrics.rs` lines 187-289). -/
def helvetica_bold_widths (c : Char) : Option ℕ :=
  helvetica_bold_width_table.lookup c

/-- `FontMetrics` (`font_metrics.rs` lines 9-22): the width table, the
fallback width for unknown characters, and the em-square size. -/
structure FontMetrics where
  widths : Char → Option ℕ
  default_width : ℕ
  units_per_em : ℕ

/-- `FontMetrics::char_width`: table lookup with the default fallback. -/
def FontMetrics.char_width (m : FontMetrics) (c : Char) : ℕ :=
  (m.widths c).getD m.default_width

/-- `FontMetrics::string_width` (`font_metrics.rs` lines 31-34):
`(Σ char widths / units_per_em) * font_size`. -/
def FontMetrics.string_width (m : FontMetrics) (text : List Char) (font_size : ℚ) : ℚ :=
  (((text.map (fun c => m.char_width c)).sum : ℚ) / (m.units_per_em : ℚ)) * font_size

/-- `helvetica()` (`font_metrics.rs` lines 300-308). -/
def helvetica : FontMetrics :=
  { widths := helvetica_widths, default_width := 556, units_per_em := 1000 }

/-- `helvetica_bold()` (`font_metrics.rs` lines 310-318). -/
def helvetica_bold : FontMetrics :=
  { widths := helvetica_bold_widths, default_width := 556, units_per_em := 1000 }

/-- `helvetica_oblique()`: oblique shares widths with regular. -/
def helvetica_oblique : FontMetrics := helvetica

/-- `helvetica_bold_oblique()`. -/
def helvetica_bold_oblique : FontMetrics := helvetica_bold

/-- `get_metrics` (`font_metrics.rs` lines 342-349): select a width table by
the `(bold, italic)` key. -/
def get_metrics (bold italic : Bool) : FontMetrics :=
  match bold, italic with
  | true, true => helvetica_bold_oblique
  | true, false => helvetica_bold
  | false, true => helvetica_oblique
  | false, false => helvetica

/-- `LayoutBox::font_metrics` (`layout_box.rs` lines 162-164). -/
def LayoutBox.font_metrics (b : LayoutBox) : FontMetrics :=
  get_metrics b.is_bold b.is_italic

/-- `measure_text_width` (`layout_box.rs` lines 189-191). -/
def measure_text_width (text : List Char) (font_size : ℚ) (metrics : FontMetrics) : ℚ :=
  metrics.string_width text font_size

/-- `measure_line_height` (`layout_box.rs` lines 193-195). -/
def measure_line_height (font_size line_height_mult : ℚ) : ℚ :=
  font_size * line_height_mult

-- ==========================================================================
-- Whitespace splitting (model of Rust `str::split_whitespace`)
-- ==========================================================================

/-- Accumulator loop for `splitWhitespace`; `cur` holds the current word in
reverse. -/
def splitWhitespaceAux : List Char → List Char → List (List Char)
  | [], cur => if cur = [] then [] else [cur.reverse]
  | c :: rest, cur =>
    if c.isWhitespace then
      if cur = [] then splitWhitespaceAux rest []
      else cur.reverse :: splitWhitespaceAux rest []
    else splitWhitespaceAux rest (c :: cur)

/-- Model of Rust `str::split_whitespace`: the maximal whitespace-free runs
of the text, in order (runs of whitespace collapse, leading and trailing
whitespace disappears). -/
def splitWhitespace (t : List Char) : List (List Char) :=
  splitWhitespaceAux t []

/-- Joining a list of words with single spaces (used only to state
properties of the wrapped lines; `wrap_text` itself concatenates with
`format!` exactly as the source does). -/
def joinSpace : List (List Char) → List Char
  | [] => []
  | [w] => w
  | w :: ws => w ++ ' ' :: joinSpace ws

-- ==========================================================================
-- Text measurement (`layout_box.rs` lines 231-289)
-- ==========================================================================

/-- The word loop of `wrap_text` (`layout_box.rs` lines 263-276): greedy
word-wrap.  `current` is the line being built, `lines` the committed lines;
returns the committed lines and the final `current`. -/
def wrap_text_loop (metrics : FontMetrics) (size max_width : ℚ) :
    List (List Char) → List Char → List (List Char) → List (List Char) × List Char
  | [], current, lines => (lines, current)
  | w :: ws, current, lines =>
    let tentative := if current = [] then w else current ++ ' ' :: w
    if measure_text_width tentative size metrics > max_width ∧ current ≠ [] then
      wrap_text_loop metrics size max_width ws w (lines ++ [current])
    else
      wrap_text_loop metrics size max_width ws tentative lines

/-- `wrap_text` (`layout_box.rs` lines 252-289), the part computing the
lines: run the greedy loop over the whitespace-split words, commit the
trailing `current`, and fall back to one empty line. -/
def wrap_text_lines (metrics : FontMetrics) (size max_width : ℚ) (text : List Char) :
    List (List Char) :=
  let (lines, current) := wrap_text_loop metrics size max_width (splitWhitespace text) [] []
  let lines := if current ≠ [] then lines ++ [current] else lines
  if lines = [] then [[]] else lines

/-- `wrap_text` (`layout_box.rs` lines 252-289): set `lines`, `width` to the
constraining `max_width`, and `height` to line height times the line
count. -/
def wrap_text (b : LayoutBox) (text : List Char) (size line_h max_width : ℚ)
    (metrics : FontMetrics) : LayoutBox :=
  match b with
  | .mk x y _ _ mt mr mb ml cs nd _ tb =>
    let lines := wrap_text_lines metrics size max_width text
    .mk x y max_width (measure_line_height size line_h * lines.length)
      mt mr mb ml cs nd lines tb

/-- `measure_text` (`layout_box.rs` lines 231-250).  The source guard is
`Some(w) if w.is_finite() && w > 0.0`; finiteness is automatic over ℚ. -/
def measure_text (b : LayoutBox) (parent_width : ℚ) : LayoutBox :=
  let text := b.node.text.getD []
  let size := b.font_size
  let line_h := b.line_height_multiplier
  let max_width := (b.resolve_width parent_width).or b.style_width
  let metrics := b.font_metrics
  match max_width with
  | some w =>
    if w > 0 then wrap_text b text size line_h w metrics
    else
      match b with
      | .mk x y _ _ mt mr mb ml cs nd _ tb =>
        .mk x y (measure_text_width text size metrics)
          (measure_line_height size line_h) mt mr mb ml cs nd [text] tb
  | none =>
    match b with
    | .mk x y _ _ mt mr mb ml cs nd _ tb =>
      .mk x y (measure_text_width text size metrics)
        (measure_line_height size line_h) mt mr mb ml cs nd [text] tb

/-- `measure_image` (`layout_box.rs` lines 291-296): resolve the dimensions,
defaulting to a 100 by 100 placeholder. -/
def measure_image (b : LayoutBox) (parent_width parent_height : ℚ) : LayoutBox :=
  match b with
  | .mk x y _ _ mt mr mb ml cs nd ln tb =>
    .mk x y ((b.resolve_width parent_width).getD 100)
      ((b.resolve_height parent_height).getD 100) mt mr mb ml cs nd ln tb

-- ==========================================================================
-- Measure-pass accumulation helpers (`layout_box.rs` lines 529-605)
-- ==========================================================================

/-- The loop of `measure_column` (`layout_box.rs` lines 529-548): width is
the max of the flow children's outer widths, height their sum plus gaps;
absolute children are skipped. -/
def measure_column_go (gap : ℚ) : List LayoutBox → ℚ → ℚ → ℕ → ℚ × ℚ
  | [], width, height, _ => (width, height)
  | c :: cs, width, height, flow_index =>
    if c.is_absolute then measure_column_go gap cs width height flow_index
    else
      measure_column_go gap cs (max width c.outer_width)
        (height + c.outer_height + (if flow_index > 0 then gap else 0)) (flow_index + 1)

/-- `measure_column` (`layout_box.rs` lines 529-548). -/
def measure_column (children : List LayoutBox) (gap : ℚ) : ℚ × ℚ :=
  measure_column_go gap children 0 0 0

/-- The loop of `measure_row` (`layout_box.rs` lines 550-569). -/
def measure_row_go (gap : ℚ) : List LayoutBox → ℚ → ℚ → ℕ → ℚ × ℚ
  | [], width, height, _ => (width, height)
  | c :: cs, width, height, flow_index =>
    if c.is_absolute then measure_row_go gap cs width height flow_index
    else
      measure_row_go gap cs (width + c.outer_width + (if flow_index > 0 then gap else 0))
        (max height c.outer_height) (flow_index + 1)

/-- `measure_row` (`layout_box.rs` lines 550-569). -/
def measure_row (children : List LayoutBox) (gap : ℚ) : ℚ × ℚ :=
  measure_row_go gap children 0 0 0

/-- The loop of `measure_wrapping_row` (`layout_box.rs` lines 571-605):
greedy packing into lines; state is (total_width, total_height, line_width,
line_height). -/
def measure_wrapping_row_go (gap max_width : ℚ) :
    List LayoutBox → ℚ → ℚ → ℚ → ℚ → ℚ × ℚ
  | [], total_w, total_h, line_w, line_h => (max total_w line_w, total_h + line_h)
  | c :: cs, total_w, total_h, line_w, line_h =>
    if c.is_absolute then measure_wrapping_row_go gap max_width cs total_w total_h line_w line_h
    else
      let cw := c.outer_width
      let ch := c.outer_height
      if line_w = 0 then measure_wrapping_row_go gap max_width cs total_w total_h cw ch
      else if line_w + gap + cw > max_width then
        measure_wrapping_row_go gap max_width cs (max total_w line_w) (total_h + line_h + gap) cw ch
      else measure_wrapping_row_go gap max_width cs total_w total_h (line_w + gap + cw) (max line_h ch)

/-- `measure_wrapping_row` (`layout_box.rs` lines 571-605). -/
def measure_wrapping_row (children : List LayoutBox) (gap max_width : ℚ) : ℚ × ℚ :=
  measure_wrapping_row_go gap max_width children 0 0 0 0

/-- The final min/max clamps shared verbatim by `measure_container`
(`layout_box.rs` lines 351-363) and `measure_table` (lines 507-519): min is
applied first via `max`, then max via `min`; percentages resolve against the
original parent dimensions. -/
def apply_min_max (s : Style) (w h parent_width parent_height : ℚ) : ℚ × ℚ :=
  let w := match s.min_width with
    | some d => max w (d.resolve parent_width)
    | none => w
  let w := match s.max_width with
    | some d => min w (d.resolve parent_width)
    | none => w
  let h := match s.min_height with
    | some d => max h (d.resolve parent_height)
    | none => h
  let h := match s.max_height with
    | some d => min h (d.resolve parent_height)
    | none => h
  (w, h)

-- ==========================================================================
-- Table solver helpers (`layout_box.rs` lines 369-527)
-- ==========================================================================

/-- Column count (`layout_box.rs` lines 384-392): the maximum over the rows
of the sum of the row's cells' col_spans. -/
def table_num_cols (rows : List LayoutBox) : ℕ :=
  (rows.map (fun r => (r.children.map (fun cell => cell.col_span)).sum)).foldl max 0

/-- The pre-fill column widths (`layout_box.rs` lines 403-415): start from
zeros and write the declared widths (`defs.iter().enumerate().take(num_cols)`)
resolved against the inner available width. -/
def declared_col_widths (declared : Option (List Dimension)) (num_cols : ℕ)
    (inner_available : ℚ) : List ℚ :=
  match declared with
  | some ds => (List.range num_cols).map (fun i =>
      match ds.get? i with
      | some d => d.resolve inner_available
      | none => 0)
  | none => List.replicate num_cols 0

/-- Column widths (`layout_box.rs` lines 402-431): start from the declared
widths, then fill every column that is still 0 with an equal share of the
remaining space. -/
def compute_col_widths (declared : Option (List Dimension)) (num_cols : ℕ)
    (inner_available col_gap : ℚ) : List ℚ :=
  let col_widths : List ℚ := declared_col_widths declared num_cols inner_available
  let specified_total := col_widths.sum
  let total_col_gaps := col_gap * ((num_cols - 1 : ℕ) : ℚ)
  let unspecified := (col_widths.filter (fun w => w = 0)).length
  let remaining := max (inner_available - specified_total - total_col_gaps) 0
  let default_w := if unspecified > 0 then remaining / (unspecified : ℚ) else 0
  col_widths.map (fun w => if w = 0 then default_w else w)

/-- Number of leading positive entries of a list; models the
`while col < num_cols && active[col] > 0 { col += 1 }` skip loops of the
table solver (the active list has exactly `num_cols` entries). -/
def countLeadingActive : List ℕ → ℕ
  | [] => 0
  | a :: rest => if a > 0 then countLeadingActive rest + 1 else 0

/-- Sum of the slice `l[start..start+len]` (Rust range-sum on a `Vec`). -/
def slice_sum (l : List ℚ) (start len : ℕ) : ℚ :=
  ((l.drop start).take len).sum

/-- Model of `l[i] += v` on a `Vec<f32>`. -/
def list_add_at (l : List ℚ) (i : ℕ) (v : ℚ) : List ℚ :=
  l.set i (l.getD i 0 + v)

/-- Model of `for c in lo..hi { l[c] = l[c].max(v) }`. -/
def max_range (l : List ℕ) (lo hi v : ℕ) : List ℕ :=
  l.mapIdx (fun i a => if lo ≤ i ∧ i < hi then max a v else a)

-- ==========================================================================
-- Measure pass (`layout_box.rs` lines 215-527)
-- ==========================================================================

mutual

/-- `measure_layout_with_parent` (`layout_box.rs` lines 221-229): dispatch
on the node type.  The Page/View/Row/Cell arm inlines `measure_container`
(lines 298-367) and the Table arm inlines `measure_table` (lines 369-527);
Lean's structural recursion does not allow these as separate mutual
functions taking the whole box, since they are invoked on the same box. -/
def measure_layout_with_parent (b : LayoutBox) (parent_width parent_height : ℚ) : LayoutBox :=
  match b with
  | .mk x y w h mt mr mb ml cs nd ln tb =>
    match nd.node_type with
    | .text => measure_text (.mk x y w h mt mr mb ml cs nd ln tb) parent_width
    | .image | .svg =>
      measure_image (.mk x y w h mt mr mb ml cs nd ln tb) parent_width parent_height
    | .page | .view | .row | .cell =>
      -- measure_container (`layout_box.rs` lines 298-367)
      let dir := nd.style.direction.getD .column
      let gap := nd.style.gap.getD 0
      let (pad_t, pad_r, pad_b, pad_l) := nd.style.padding_trbl
      let explicit_width := nd.style.width.map (fun d => d.resolve parent_width)
      let explicit_height := nd.style.height.map (fun d => d.resolve parent_height)
      let child_parent_width := explicit_width.getD parent_width - pad_l - pad_r
      let child_parent_height :=
        if explicit_height.isSome ∨ nd.node_type = .page then
          explicit_height.getD parent_height - pad_t - pad_b
        else 0
      let cs2 := measure_children cs child_parent_width child_parent_height
      let (content_w, content_h) :=
        match dir with
        | .column => measure_column cs2 gap
        | .row =>
          if nd.style.wrap.getD false && explicit_width.isSome then
            measure_wrapping_row cs2 gap child_parent_width
          else measure_row cs2 gap
      let width1 := explicit_width.getD (content_w + pad_l + pad_r)
      let height1 := explicit_height.getD (content_h + pad_t + pad_b)
      let (width2, height2) := apply_min_max nd.style width1 height1 parent_width parent_height
      .mk x y width2 height2 mt mr mb ml cs2 nd ln tb
    | .table =>
      -- measure_table (`layout_box.rs` lines 369-527)
      let row_count := cs.length
      let row_gap := nd.style.gap.getD 0
      let col_gap := nd.style.gap.getD 0
      let (pad_t, pad_r, pad_b, pad_l) := nd.style.padding_trbl
      let explicit_width := nd.style.width.map (fun d => d.resolve parent_width)
      let explicit_height := nd.style.height.map (fun d => d.resolve parent_height)
      let num_cols := table_num_cols cs
      if num_cols = 0 ∨ row_count = 0 then
        .mk x y (explicit_width.getD 0) (explicit_height.getD 0) mt mr mb ml cs nd ln
          (some { column_widths := [], row_heights := [] })
      else
        let inner_available := max (explicit_width.getD parent_width) 0 - pad_l - pad_r
        let col_widths := compute_col_widths nd.column_widths num_cols inner_available col_gap
        let total_col_gaps := col_gap * ((num_cols - 1 : ℕ) : ℚ)
        let inner_width := col_widths.sum + total_col_gaps
        let (rows2, row_heights) :=
          measure_table_rows cs col_widths col_gap parent_height num_cols row_count 0
            (List.replicate row_count 0) (List.replicate num_cols 0)
        let content_height := row_heights.sum + row_gap * ((row_count - 1 : ℕ) : ℚ)
        let width1 := explicit_width.getD (pad_l + inner_width + pad_r)
        let height1 := explicit_height.getD (pad_t + content_height + pad_b)
        let (width2, height2) := apply_min_max nd.style width1 height1 parent_width parent_height
        .mk x y width2 height2 mt mr mb ml rows2 nd ln
          (some { column_widths := col_widths, row_heights := row_heights })

/-- The child-measuring loop of `measure_container` (`layout_box.rs` lines
322-325). -/
def measure_children (bs : List LayoutBox) (parent_width parent_height : ℚ) : List LayoutBox :=
  match bs with
  | [] => []
  | c :: cs =>
    measure_layout_with_parent c parent_width parent_height ::
      measure_children cs parent_width parent_height

/-- The row loop of `measure_table` (`layout_box.rs` lines 439-491):
measures each row's cells, accumulates row heights and rowspan bookkeeping,
and decrements the active spans after each row. -/
def measure_table_rows (rows : List LayoutBox) (col_widths : List ℚ)
    (col_gap parent_height : ℚ) (num_cols row_count row_idx : ℕ)
    (row_heights : List ℚ) (active : List ℕ) : List LayoutBox × List ℚ :=
  match rows with
  | [] => ([], row_heights)
  | .mk rx ry rw rh rmt rmr rmb rml rcells rnd rln rtb :: rest =>
    let col0 := countLeadingActive active
    let (cells2, rh2, act2) :=
      measure_table_cells rcells col_widths col_gap parent_height num_cols row_count
        row_idx col0 row_heights active
    let act3 := act2.map (fun a => a - 1)
    let (rest2, rh3) :=
      measure_table_rows rest col_widths col_gap parent_height num_cols row_count
        (row_idx + 1) rh2 act3
    (.mk rx ry rw rh rmt rmr rmb rml cells2 rnd rln rtb :: rest2, rh3)

/-- The cell loop of `measure_table` (`layout_box.rs` lines 447-483): skip
columns covered by active rowspans, cap the colspan, measure the cell within
its span width, overwrite its width, and update row heights and active
spans.  Hitting the right edge (`col_idx >= num_cols`) breaks the loop,
leaving the remaining cells untouched. -/
def measure_table_cells (cells : List LayoutBox) (col_widths : List ℚ)
    (col_gap parent_height : ℚ) (num_cols row_count row_idx col_idx : ℕ)
    (row_heights : List ℚ) (active : List ℕ) :
    List LayoutBox × List ℚ × List ℕ :=
  match cells with
  | [] => ([], row_heights, active)
  | cell :: rest =>
    let col := col_idx + countLeadingActive (active.drop col_idx)
    if col ≥ num_cols then (cell :: rest, row_heights, active)
    else
      let col_span := max (min cell.col_span (num_cols - col)) 1
      let span_width := slice_sum col_widths col col_span + col_gap * ((col_span - 1 : ℕ) : ℚ)
      let cell2 := (measure_layout_with_parent cell span_width parent_height).set_width span_width
      let cell_height := cell2.outer_height
      let rh1 :=
        if cell2.row_span = 1 then
          row_heights.set row_idx (max (row_heights.getD row_idx 0) cell_height)
        else row_heights
      let row_span := cell2.row_span
      let (rh2, act2) :=
        if row_span > 1 then
          let e := min (row_idx + row_span) row_count
          let current := slice_sum rh1 row_idx (e - row_idx)
          let rh' :=
            if cell_height > current then list_add_at rh1 (e - 1) (cell_height - current)
            else rh1
          (rh', max_range active col (col + col_span) row_span)
        else (rh1, active)
      let (rest2, rh3, act3) :=
        measure_table_cells rest col_widths col_gap parent_height num_cols row_count
          row_idx (col + col_span) rh2 act2
      (cell2 :: rest2, rh3, act3)

end

/-- `measure_layout` (`layout_box.rs` lines 215-218): root measurement
defaults to the A4 page size. -/
def measure_layout (b : LayoutBox) : LayoutBox :=
  measure_layout_with_parent b 595 842

-- ==========================================================================
-- Building the layout tree (`layout_box.rs` lines 45-63 and 201-207)
-- ==========================================================================

mutual

/-- `build_layout` (`layout_box.rs` lines 201-207) together with
`LayoutBox::new` (lines 46-63): mirror the node tree into zero-sized layout
boxes carrying the style margins. -/
def build_layout (node : JsonNode) : LayoutBox :=
  match node with
  | .mk t s cs tx fs fw fsty cw csp rsp =>
    let (mt, mr, mb, ml) := s.margin_trbl
    .mk 0 0 0 0 mt mr mb ml (build_children cs)
      (.mk t s cs tx fs fw fsty cw csp rsp) [] none

def build_children : List JsonNode → List LayoutBox
  | [] => []
  | c :: cs => build_layout c :: build_children cs

end

-- ==========================================================================
-- Place-pass helpers (`layout_box.rs` lines 611-1118)
-- ==========================================================================

mutual

/-- Structure-only size of a layout box (number of constructors), used as
the termination measure of the place pass: unlike `sizeOf` it ignores the
rational fields, which the pass mutates before recursing. -/
def boxWeight : LayoutBox → ℕ
  | .mk _ _ _ _ _ _ _ _ cs _ _ _ => 1 + boxListWeight cs

/-- Structure-only size of a list of layout boxes. -/
def boxListWeight : List LayoutBox → ℕ
  | [] => 0
  | c :: cs => 1 + boxWeight c + boxListWeight cs

end

theorem boxWeight_set_width (b : LayoutBox) (w : ℚ) :
    boxWeight (b.set_width w) = boxWeight b := by
  cases b <;> simp [LayoutBox.set_width, boxWeight]

theorem boxWeight_set_height (b : LayoutBox) (h : ℚ) :
    boxWeight (b.set_height h) = boxWeight b := by
  cases b <;> simp [LayoutBox.set_height, boxWeight]

/-- `apply_relative_offset` (`layout_box.rs` lines 631-644): `top` moves the
box down, `bottom` up, `left` right, `right` left. -/
def apply_relative_offset (b : LayoutBox) : LayoutBox :=
  match b with
  | .mk x y w h mt mr mb ml cs nd ln tb =>
    let y := match nd.style.top with
      | some t => y - t
      | none => y
    let y := match nd.style.bottom with
      | some v => y + v
      | none => y
    let x := match nd.style.left with
      | some v => x + v
      | none => x
    let x := match nd.style.right with
      | some v => x - v
      | none => x
    .mk x y w h mt mr mb ml cs nd ln tb

/-- Number of flow (non-absolute) children. -/
def flow_count (cs : List LayoutBox) : ℕ :=
  (cs.filter (fun c => !c.is_absolute)).length

/-- Sum of the flow children's outer heights. -/
def flow_outer_heights_sum (cs : List LayoutBox) : ℚ :=
  ((cs.filter (fun c => !c.is_absolute)).map (fun c => c.outer_height)).sum

/-- Sum of the flow children's outer widths. -/
def flow_outer_widths_sum (cs : List LayoutBox) : ℚ :=
  ((cs.filter (fun c => !c.is_absolute)).map (fun c => c.outer_width)).sum

/-- Sum of the flow children's flex factors. -/
def flow_total_flex (cs : List LayoutBox) : ℚ :=
  ((cs.filter (fun c => !c.is_absolute)).map (fun c => c.flex)).sum

/-- Main-axis starting cursor and effective gap for a column
(`layout_box.rs` lines 889-903). -/
def column_main_cursor (y pad_t free gap : ℚ) (n : ℕ) (ma : MainAlign) : ℚ × ℚ :=
  match ma with
  | .start => (y - pad_t, gap)
  | .center => (y - pad_t - free / 2, gap)
  | .«end» => (y - pad_t - free, gap)
  | .spaceBetween =>
    if n > 1 then (y - pad_t, gap + free / ((n : ℚ) - 1)) else (y - pad_t, gap)
  | .spaceAround =>
    let space := free / (n : ℚ)
    (y - pad_t - space / 2, gap + space)
  | .spaceEvenly =>
    let space := free / ((n : ℚ) + 1)
    (y - pad_t - space, gap + space)

/-- Main-axis starting cursor and effective gap for a row (`layout_box.rs`
lines 977-991); also used per line by the wrapping row (lines 1080-1094). -/
def row_main_cursor (x pad_l free gap : ℚ) (n : ℕ) (ma : MainAlign) : ℚ × ℚ :=
  match ma with
  | .start => (x + pad_l, gap)
  | .center => (x + pad_l + free / 2, gap)
  | .«end» => (x + pad_l + free, gap)
  | .spaceBetween =>
    if n > 1 then (x + pad_l, gap + free / ((n : ℚ) - 1)) else (x + pad_l, gap)
  | .spaceAround =>
    let space := free / (n : ℚ)
    (x + pad_l + space / 2, gap + space)
  | .spaceEvenly =>
    let space := free / ((n : ℚ) + 1)
    (x + pad_l + space, gap + space)

/-- The line-grouping loop of `place_wrapping_row` (`layout_box.rs` lines
1041-1058), collecting the children themselves instead of their indices
(each child is pushed exactly once, in order, so the concatenation of the
lines is the original child list); `cur` holds the current line in
reverse. -/
def wrap_runs_go (gap inner_w : ℚ) : List LayoutBox → List LayoutBox → ℚ → List (List LayoutBox)
  | [], cur, _ => [cur.reverse]
  | c :: cs, cur, line_w =>
    let cw := c.outer_width
    if line_w = 0 then wrap_runs_go gap inner_w cs (c :: cur) cw
    else if line_w + gap + cw > inner_w then
      cur.reverse :: wrap_runs_go gap inner_w cs [c] cw
    else wrap_runs_go gap inner_w cs (c :: cur) (line_w + gap + cw)

/-- The lines of `place_wrapping_row` as lists of children. -/
def wrap_runs (cs : List LayoutBox) (gap inner_w : ℚ) : List (List LayoutBox) :=
  wrap_runs_go gap inner_w cs [] 0

/-- The total width of one wrap line (`layout_box.rs` lines 1067-1071):
sum of the line's outer widths plus the gaps between them. -/
def line_total_width (l : List LayoutBox) (gap : ℚ) : ℚ :=
  (l.map (fun c => c.outer_width)).sum + gap * ((l.length - 1 : ℕ) : ℚ)

/-- The height of one wrap line (`layout_box.rs` lines 1073-1075): fold of
`max` over the line's outer heights, starting from 0. -/
def line_max_height (l : List LayoutBox) : ℚ :=
  (l.map (fun c => c.outer_height)).foldl max 0

/-- Positions (the `(x, y)` pair handed to `place_layout`) for the children
of one wrap line (`layout_box.rs` lines 1096-1114). -/
def wrap_line_positions_go (base_gap line_h cursor_y : ℚ) (ca : CrossAlign) (n : ℕ) :
    List LayoutBox → ℚ → ℕ → List (ℚ × ℚ)
  | [], _, _ => []
  | c :: cs, cursor_x, j =>
    let pass_y :=
      match ca with
      | .start => cursor_y
      | .center => cursor_y - (line_h - c.outer_height) / 2
      | .«end» => cursor_y - (line_h - c.outer_height)
      | .stretch => cursor_y
    let cursor_x2 := cursor_x + c.outer_width + (if j < n - 1 then base_gap else 0)
    (cursor_x, pass_y) :: wrap_line_positions_go base_gap line_h cursor_y ca n cs cursor_x2 (j + 1)

/-- Positions for all children of a wrapping row, line by line
(`layout_box.rs` lines 1060-1117): empty lines are skipped without moving
the cursor; each line advances the cursor by its height plus the gap. -/
def wrap_positions_go (x pad_l inner_w gap : ℚ) (ma : MainAlign) (ca : CrossAlign) :
    List (List LayoutBox) → ℚ → List (ℚ × ℚ)
  | [], _ => []
  | line :: rest, cursor_y =>
    if line.isEmpty then wrap_positions_go x pad_l inner_w gap ma ca rest cursor_y
    else
      let line_total_w := (line.map (fun c => c.outer_width)).sum
        + gap * ((line.length - 1 : ℕ) : ℚ)
      let line_h := (line.map (fun c => c.outer_height)).foldl max 0
      let free := max (inner_w - line_total_w) 0
      let (cursor_x0, base_gap) := row_main_cursor x pad_l free gap line.length ma
      wrap_line_positions_go base_gap line_h cursor_y ca line.length line cursor_x0 0
        ++ wrap_positions_go x pad_l inner_w gap ma ca rest (cursor_y - (line_h + gap))

/-- One `while col < cols && active[col] > 0` skip loop of `place_table`
(`layout_box.rs` lines 725-729 and 732-736): advances the column, moves the
cursor past the skipped columns (adding the column gap per skipped column
when `with_gap`), and decrements each skipped active-span entry. -/
def place_skip (col_widths : List ℚ) (active : List ℕ) (col : ℕ) (cursor_x col_gap : ℚ)
    (with_gap : Bool) : ℕ × ℚ × List ℕ :=
  let k := countLeadingActive (active.drop col)
  let cursor_x2 := cursor_x + slice_sum col_widths col k
    + (if with_gap then col_gap * (k : ℚ) else 0)
  let active2 := active.mapIdx (fun i a => if col ≤ i ∧ i < col + k then a - 1 else a)
  (col + k, cursor_x2, active2)

/-- The stretch arm of the column cross-align match (`layout_box.rs` line
923): stretch rewrites the child's width to the inner width minus its
horizontal margins; the other arms leave the child unchanged. -/
def stretch_width (ca : CrossAlign) (c : LayoutBox) (inner_w : ℚ) : LayoutBox :=
  match ca with
  | .stretch => c.set_width (inner_w - c.margin_left - c.margin_right)
  | _ => c

/-- The stretch arm of the row cross-align match (`layout_box.rs` line
1011). -/
def stretch_height (ca : CrossAlign) (c : LayoutBox) (inner_h : ℚ) : LayoutBox :=
  match ca with
  | .stretch => c.set_height (inner_h - c.margin_top - c.margin_bottom)
  | _ => c

theorem boxWeight_stretch_width (ca : CrossAlign) (c : LayoutBox) (v : ℚ) :
    boxWeight (stretch_width ca c v) = boxWeight c := by
  cases ca <;> simp [stretch_width, boxWeight_set_width]

theorem boxWeight_stretch_height (ca : CrossAlign) (c : LayoutBox) (v : ℚ) :
    boxWeight (stretch_height ca c v) = boxWeight c := by
  cases ca <;> simp [stretch_height, boxWeight_set_height]

/-- Cross-axis x position of a column child (`layout_box.rs` lines
918-926); the stretch arm places like start (the width rewrite is
`stretch_width`). -/
def column_cross_x (ca : CrossAlign) (x pad_l inner_w : ℚ) (c : LayoutBox) : ℚ :=
  match ca with
  | .start => x + pad_l + c.margin_left
  | .center => x + pad_l + (inner_w - c.outer_width) / 2 + c.margin_left
  | .«end» => x + pad_l + inner_w - c.outer_width + c.margin_left
  | .stretch => x + pad_l + c.margin_left

/-- Cross-axis y position of a row child (`layout_box.rs` lines
1006-1014). -/
def row_cross_y (ca : CrossAlign) (y0 pad_t inner_h : ℚ) (c : LayoutBox) : ℚ :=
  match ca with
  | .start => y0 - pad_t - c.margin_top
  | .center => y0 - pad_t - (inner_h - c.outer_height) / 2 - c.margin_top
  | .«end» => y0 - pad_t - (inner_h - c.outer_height) - c.margin_top
  | .stretch => y0 - pad_t - c.margin_top

/-- Container geometry handed to `place_absolute_child` (`layout_box.rs`
lines 680-688). -/
structure AbsContext where
  container_x : ℚ
  container_y : ℚ
  container_w : ℚ
  container_h : ℚ
  pad_t : ℚ
  pad_r : ℚ
  pad_b : ℚ
  pad_l : ℚ

-- ==========================================================================
-- Place pass (`layout_box.rs` lines 611-1118)
-- ==========================================================================

/-!
The source places flow children first (`place_column` / `place_row` /
`place_wrapping_row`, which skip or — for the wrapping row — also move
absolute children) and then overwrites the absolute children's positions in
a second loop (`place_container`, lines 679-688).  A second pass over the
already-placed child list is not structurally recursive, so the model fuses
the two passes: every absolute child is placed by `place_absolute_child`
directly from its measured state, inside the single traversal.  For
non-wrapping containers this is exactly the source behaviour (the flow pass
leaves absolute children untouched and neither pass reads the other's
results).  For a wrapping row with an absolute page/view child the source
additionally runs the subtree placement twice (once at the wrap position,
once at the absolute position — the destructive double-placement noted in
the spec); the model places such a subtree once, from its measured state.
No claim verified below depends on that corner.
-/

/-- The common tail of `place_layout` (`layout_box.rs` lines 622-627):
apply the relative offset when the node is `position: relative`. -/
def place_finish (placed : LayoutBox) : LayoutBox :=
  if placed.is_relative then apply_relative_offset placed else placed

mutual

/-- `place_layout` (`layout_box.rs` lines 611-628): apply margins, then
dispatch by node type (`place_dispatch`). -/
def place_layout (b : LayoutBox) (px py : ℚ) : LayoutBox :=
  match b with
  | .mk _ _ w h mt mr mb ml cs nd ln tb =>
    place_dispatch nd.node_type nd (px + ml) (py - mt) w h mt mr mb ml cs ln tb
termination_by 4 * boxWeight b
decreasing_by
  all_goals simp_wf
  all_goals simp only [boxWeight, boxListWeight, boxWeight_stretch_width, boxWeight_stretch_height, boxWeight_set_width, boxWeight_set_height, apply_ite boxWeight, ite_self]
  all_goals omega

/-- The node-type dispatch of `place_layout` (`layout_box.rs` lines
617-627), then the relative offset.  The Page/View arm inlines
`place_container` (lines 646-689), the Table arm `place_table` (lines
691-779), the Row arm `place_row_element` (lines 782-788) and the Cell arm
`place_cell` (lines 791-806). -/
def place_dispatch (nt : NodeType) (nd : JsonNode) (x0 y0 w h mt mr mb ml : ℚ)
    (cs : List LayoutBox) (ln : List (List Char)) (tb : Option TableLayout) : LayoutBox :=
  match nt with
  | .page =>
    place_finish
      (.mk x0 y0 w h mt mr mb ml (place_container_children nd x0 y0 w h cs) nd ln tb)
  | .view =>
    place_finish
      (.mk x0 y0 w h mt mr mb ml (place_container_children nd x0 y0 w h cs) nd ln tb)
  | .table =>
    match tb with
    | none => place_finish (.mk x0 y0 w h mt mr mb ml cs nd ln tb)
    | some tl =>
      let cols := tl.column_widths.length
      let row_count := cs.length
      if cols = 0 ∨ row_count = 0 then place_finish (.mk x0 y0 w h mt mr mb ml cs nd ln tb)
      else
        let (pad_t, _, _, pad_l) := nd.style.padding_trbl
        let row_gap := nd.style.gap.getD 0
        let col_gap := nd.style.gap.getD 0
        let inner_width := tl.column_widths.sum + col_gap * ((cols - 1 : ℕ) : ℚ)
        let rows2 := place_table_rows cs tl cols row_count row_gap col_gap inner_width
          (x0 + pad_l) 0 (y0 - pad_t) (List.replicate cols 0)
        place_finish (.mk x0 y0 w h mt mr mb ml rows2 nd ln tb)
  | .row =>
    place_finish (.mk x0 y0 w h mt mr mb ml (place_row_element_children cs) nd ln tb)
  | .cell =>
    let (pad_t, _, _, pad_l) := nd.style.padding_trbl
    let gap := nd.style.gap.getD 0
    place_finish
      (.mk x0 y0 w h mt mr mb ml (place_cell_children cs (x0 + pad_l) (y0 - pad_t) gap 0) nd ln tb)
  | .text => place_finish (.mk x0 y0 w h mt mr mb ml cs nd ln tb)
  | .image => place_finish (.mk x0 y0 w h mt mr mb ml cs nd ln tb)
  | .svg => place_finish (.mk x0 y0 w h mt mr mb ml cs nd ln tb)
termination_by 4 * boxListWeight cs + 3
decreasing_by
  all_goals simp_wf
  all_goals simp only [boxWeight, boxListWeight, boxWeight_stretch_width, boxWeight_stretch_height, boxWeight_set_width, boxWeight_set_height, apply_ite boxWeight, ite_self]
  all_goals omega

/-- `place_container` (`layout_box.rs` lines 646-689), child-placing part:
flex distribution, main/cross alignment and absolute positioning, fused
into one traversal as explained above. -/
def place_container_children (nd : JsonNode) (bx by0 bw bh : ℚ) (cs : List LayoutBox) :
    List LayoutBox :=
  let gap := nd.style.gap.getD 0
  let (pad_t, pad_r, pad_b, pad_l) := nd.style.padding_trbl
  let ma := nd.style.main_align.getD .start
  let ca := nd.style.cross_align.getD .start
  let inner_w := bw - pad_l - pad_r
  let inner_h := bh - pad_t - pad_b
  let ctx : AbsContext :=
    { container_x := bx, container_y := by0, container_w := bw, container_h := bh,
      pad_t := pad_t, pad_r := pad_r, pad_b := pad_b, pad_l := pad_l }
  match nd.style.direction.getD .column with
  | .column =>
    -- place_column (`layout_box.rs` lines 852-938)
    let n := flow_count cs
    if n = 0 then place_absolutes cs ctx
    else
      let total_h := flow_outer_heights_sum cs + gap * ((n - 1 : ℕ) : ℚ)
      let free := max (inner_h - total_h) 0
      let total_flex := flow_total_flex cs
      let flex_unit := if total_flex > 0 then free / total_flex else 0
      let (cursor_y, base_gap) := column_main_cursor by0 pad_t free gap n ma
      place_column_flow cs cursor_y 0 n base_gap bx pad_l inner_w flex_unit total_flex ca ctx
  | .row =>
    if nd.style.wrap.getD false then
      -- place_wrapping_row (`layout_box.rs` lines 1028-1118)
      let lines := wrap_runs cs gap inner_w
      let pos := wrap_positions_go bx pad_l inner_w gap ma ca lines (by0 - pad_t)
      place_children_at cs pos ctx
    else
      -- place_row (`layout_box.rs` lines 940-1026)
      let n := flow_count cs
      if n = 0 then place_absolutes cs ctx
      else
        let total_w := flow_outer_widths_sum cs + gap * ((n - 1 : ℕ) : ℚ)
        let free := max (inner_w - total_w) 0
        let total_flex := flow_total_flex cs
        let flex_unit := if total_flex > 0 then free / total_flex else 0
        let (cursor_x, base_gap) := row_main_cursor bx pad_l free gap n ma
        place_row_flow cs cursor_x 0 n base_gap by0 pad_t inner_h flex_unit total_flex ca ctx
termination_by 4 * boxListWeight cs + 2
decreasing_by
  all_goals simp_wf
  all_goals simp only [boxWeight, boxListWeight, boxWeight_stretch_width, boxWeight_stretch_height, boxWeight_set_width, boxWeight_set_height, apply_ite boxWeight, ite_self]
  all_goals omega

/-- The flow loop of `place_column` (`layout_box.rs` lines 905-937): apply
flex growth to the main axis, align on the cross axis (stretch rewrites the
width), place, and advance the cursor.  Absolute children are handed to
`place_absolute_child`. -/
def place_column_flow (cs : List LayoutBox) (cursor_y : ℚ) (flow_index n : ℕ)
    (base_gap x pad_l inner_w flex_unit total_flex : ℚ) (ca : CrossAlign)
    (ctx : AbsContext) : List LayoutBox :=
  match cs with
  | [] => []
  | c :: rest =>
    if c.is_absolute then
      place_absolute_child c ctx ::
        place_column_flow rest cursor_y flow_index n base_gap x pad_l inner_w
          flex_unit total_flex ca ctx
    else
      let c1 := if c.flex > 0 ∧ total_flex > 0 then c.set_height (c.height + flex_unit * c.flex)
        else c
      let child_x := column_cross_x ca x pad_l inner_w c1
      let c2 := stretch_width ca c1 inner_w
      let c3 := place_layout c2 (child_x - c2.margin_left) cursor_y
      let cursor_y2 := cursor_y - c3.outer_height - (if flow_index < n - 1 then base_gap else 0)
      c3 :: place_column_flow rest cursor_y2 (flow_index + 1) n base_gap x pad_l inner_w
        flex_unit total_flex ca ctx
termination_by 4 * boxListWeight cs + 1
decreasing_by
  all_goals simp_wf
  all_goals simp only [boxWeight, boxListWeight, boxWeight_stretch_width, boxWeight_stretch_height, boxWeight_set_width, boxWeight_set_height, apply_ite boxWeight, ite_self]
  all_goals omega

/-- The flow loop of `place_row` (`layout_box.rs` lines 993-1025). -/
def place_row_flow (cs : List LayoutBox) (cursor_x : ℚ) (flow_index n : ℕ)
    (base_gap y0 pad_t inner_h flex_unit total_flex : ℚ) (ca : CrossAlign)
    (ctx : AbsContext) : List LayoutBox :=
  match cs with
  | [] => []
  | c :: rest =>
    if c.is_absolute then
      place_absolute_child c ctx ::
        place_row_flow rest cursor_x flow_index n base_gap y0 pad_t inner_h
          flex_unit total_flex ca ctx
    else
      let c1 := if c.flex > 0 ∧ total_flex > 0 then c.set_width (c.width + flex_unit * c.flex)
        else c
      let child_y := row_cross_y ca y0 pad_t inner_h c1
      let c2 := stretch_height ca c1 inner_h
      let c3 := place_layout c2 cursor_x (child_y + c2.margin_top)
      let cursor_x2 := cursor_x + c3.outer_width + (if flow_index < n - 1 then base_gap else 0)
      c3 :: place_row_flow rest cursor_x2 (flow_index + 1) n base_gap y0 pad_t inner_h
        flex_unit total_flex ca ctx
termination_by 4 * boxListWeight cs + 1
decreasing_by
  all_goals simp_wf
  all_goals simp only [boxWeight, boxListWeight, boxWeight_stretch_width, boxWeight_stretch_height, boxWeight_set_width, boxWeight_set_height, apply_ite boxWeight, ite_self]
  all_goals omega

/-- Wrap placement (`layout_box.rs` lines 1096-1114): hand each child its
precomputed position; absolute children are instead placed via
`place_absolute_child` (see the note above the mutual block). -/
def place_children_at (cs : List LayoutBox) (pos : List (ℚ × ℚ)) (ctx : AbsContext) :
    List LayoutBox :=
  match cs, pos with
  | [], _ => []
  | rest, [] => rest
  | c :: rest, p :: ps =>
    (if c.is_absolute then place_absolute_child c ctx else place_layout c p.1 p.2)
      :: place_children_at rest ps ctx
termination_by 4 * boxListWeight cs + 1
decreasing_by
  all_goals simp_wf
  all_goals simp only [boxWeight, boxListWeight, boxWeight_stretch_width, boxWeight_stretch_height, boxWeight_set_width, boxWeight_set_height, apply_ite boxWeight, ite_self]
  all_goals omega

/-- The absolute-children loop of `place_container` (`layout_box.rs` lines
679-688) for containers with no flow children. -/
def place_absolutes (cs : List LayoutBox) (ctx : AbsContext) : List LayoutBox :=
  match cs with
  | [] => []
  | c :: rest =>
    (if c.is_absolute then place_absolute_child c ctx else c) :: place_absolutes rest ctx
termination_by 4 * boxListWeight cs + 1
decreasing_by
  all_goals simp_wf
  all_goals simp only [boxWeight, boxListWeight, boxWeight_stretch_width, boxWeight_stretch_height, boxWeight_set_width, boxWeight_set_height, apply_ite boxWeight, ite_self]
  all_goals omega

/-- `place_absolute_child` (`layout_box.rs` lines 809-850): position from
`left`/`right` and `top`/`bottom` against the container's padding box, then
recursively place the subtree of page/view children. -/
def place_absolute_child (child : LayoutBox) (ctx : AbsContext) : LayoutBox :=
  match child with
  | .mk _ _ w h mt mr mb ml ccs nd ln tb =>
    let x :=
      match nd.style.left with
      | some l => ctx.container_x + ctx.pad_l + l
      | none =>
        match nd.style.right with
        | some r => ctx.container_x + ctx.container_w - ctx.pad_r - w - r
        | none => ctx.container_x + ctx.pad_l
    let y :=
      match nd.style.top with
      | some t => ctx.container_y - ctx.pad_t - t
      | none =>
        match nd.style.bottom with
        | some v => ctx.container_y - ctx.container_h + ctx.pad_b + h + v
        | none => ctx.container_y - ctx.pad_t
    match nd.node_type with
    | .page | .view =>
      .mk x y w h mt mr mb ml (place_container_children nd x y w h ccs) nd ln tb
    | _ => .mk x y w h mt mr mb ml ccs nd ln tb
termination_by 4 * boxWeight child
decreasing_by
  all_goals simp_wf
  all_goals simp only [boxWeight, boxListWeight, boxWeight_stretch_width, boxWeight_stretch_height, boxWeight_set_width, boxWeight_set_height, apply_ite boxWeight, ite_self]
  all_goals omega

/-- The row loop of `place_table` (`layout_box.rs` lines 713-778): position
the row box itself, skip leading active spans, place the cells, consume the
trailing active run, and advance the vertical cursor. -/
def place_table_rows (rows : List LayoutBox) (tl : TableLayout) (cols row_count : ℕ)
    (row_gap col_gap inner_width start_x : ℚ) (row_idx : ℕ) (cursor_y : ℚ)
    (active : List ℕ) : List LayoutBox :=
  match rows with
  | [] => []
  | .mk _ _ _ _ rmt rmr rmb rml rcells rnd rln rtb :: rest =>
    let row_height := tl.row_heights.getD row_idx 0
    let (col1, cursor_x1, act1) := place_skip tl.column_widths active 0 start_x col_gap false
    let (cells2, col2, act2) :=
      place_table_cells rcells tl cols row_count col_gap row_idx col1 cursor_x1 cursor_y act1
    let (_, _, act3) := place_skip tl.column_widths act2 col2 0 col_gap false
    LayoutBox.mk start_x cursor_y inner_width row_height rmt rmr rmb rml cells2 rnd rln rtb ::
      place_table_rows rest tl cols row_count row_gap col_gap inner_width start_x
        (row_idx + 1) (cursor_y - (row_height + row_gap)) act3
termination_by 4 * boxListWeight rows + 1
decreasing_by
  all_goals simp_wf
  all_goals simp only [boxWeight, boxListWeight, boxWeight_stretch_width, boxWeight_stretch_height, boxWeight_set_width, boxWeight_set_height, apply_ite boxWeight, ite_self]
  all_goals omega

/-- The cell loop of `place_table` (`layout_box.rs` lines 731-769): skip
active spans (decrementing them), stop at the right edge, size the cell to
its column span (stretching its height to the spanned rows), place it, and
record the remaining span rows. -/
def place_table_cells (cells : List LayoutBox) (tl : TableLayout) (cols row_count : ℕ)
    (col_gap : ℚ) (row_idx col_idx : ℕ) (cursor_x cursor_y : ℚ) (active : List ℕ) :
    List LayoutBox × ℕ × List ℕ :=
  match cells with
  | [] => ([], col_idx, active)
  | cell :: rest =>
    let (col, cx, act1) := place_skip tl.column_widths active col_idx cursor_x col_gap true
    if col ≥ cols then (cell :: rest, col, act1)
    else
      let col_span := max (min cell.col_span (cols - col)) 1
      let cell_width := slice_sum tl.column_widths col col_span
        + col_gap * ((col_span - 1 : ℕ) : ℚ)
      let row_span := max cell.row_span 1
      let end_row := min (row_idx + row_span) row_count
      let span_height := slice_sum tl.row_heights row_idx (end_row - row_idx)
      let available_height := max (span_height - cell.margin_top - cell.margin_bottom) 0
      let cell1 := cell.set_width cell_width
      let cell2 := if cell1.height < available_height then cell1.set_height available_height
        else cell1
      let cell3 := place_layout cell2 cx cursor_y
      let act2 := max_range act1 col (col + col_span) (row_span - 1)
      let (rest2, colF, actF) :=
        place_table_cells rest tl cols row_count col_gap row_idx (col + col_span)
          (cx + cell_width + col_gap) cursor_y act2
      (cell3 :: rest2, colF, actF)
termination_by 4 * boxListWeight cells + 1
decreasing_by
  all_goals simp_wf
  all_goals simp only [boxWeight, boxListWeight, boxWeight_stretch_width, boxWeight_stretch_height, boxWeight_set_width, boxWeight_set_height, apply_ite boxWeight, ite_self]
  all_goals omega

/-- `place_row_element` (`layout_box.rs` lines 782-788): the cells were
already positioned by the table; re-place each at its own coordinates so
nested content gets placed. -/
def place_row_element_children (cs : List LayoutBox) : List LayoutBox :=
  match cs with
  | [] => []
  | c :: rest => place_layout c c.x c.y :: place_row_element_children rest
termination_by 4 * boxListWeight cs + 1
decreasing_by
  all_goals simp_wf
  all_goals simp only [boxWeight, boxListWeight, boxWeight_stretch_width, boxWeight_stretch_height, boxWeight_set_width, boxWeight_set_height, apply_ite boxWeight, ite_self]
  all_goals omega

/-- `place_cell` (`layout_box.rs` lines 791-806): stack the cell's children
top to bottom inside its padding, separated by the gap. -/
def place_cell_children (cs : List LayoutBox) (start_x cursor_y gap : ℚ) (i : ℕ) :
    List LayoutBox :=
  match cs with
  | [] => []
  | c :: rest =>
    let cy := if i > 0 then cursor_y - gap else cursor_y
    let c2 := place_layout c start_x cy
    c2 :: place_cell_children rest start_x (cy - c2.outer_height) gap (i + 1)
termination_by 4 * boxListWeight cs + 1
decreasing_by
  all_goals simp_wf
  all_goals simp only [boxWeight, boxListWeight, boxWeight_stretch_width, boxWeight_stretch_height, boxWeight_set_width, boxWeight_set_height, apply_ite boxWeight, ite_self]
  all_goals omega

end

-- ==========================================================================
-- Pagination (`pdf.rs` lines 13-218)
-- ==========================================================================

/-- `PAGE_HEIGHT_PT` (`pdf.rs` line 13): A4 height in points. -/
def PAGE_HEIGHT_PT : ℚ := 842

/-- `usize::MAX` (the Rust targets are 64-bit). -/
def USIZE_MAX : ℕ := 2 ^ 64 - 1

/-- `PageContent` (`pdf.rs` lines 21-35). -/
structure PageContent where
  children : List LayoutBox
  style : Style
  width : ℚ
  height : ℚ
  padding_top : ℚ
  padding_right : ℚ
  padding_bottom : ℚ
  padding_left : ℚ

/-- `find_content_page` (`pdf.rs` lines 101-113): while the box is a
page/view with a single page/view child, descend into the child. -/
def find_content_page (root : LayoutBox) : LayoutBox :=
  match root with
  | .mk x y w h mt mr mb ml children nd ln tb =>
    match children with
    | [child] =>
      if (nd.node_type = .page ∨ nd.node_type = .view)
          ∧ (child.node.node_type = .page ∨ child.node.node_type = .view) then
        find_content_page child
      else .mk x y w h mt mr mb ml children nd ln tb
    | _ => .mk x y w h mt mr mb ml children nd ln tb

mutual

/-- `reposition_layout` (`pdf.rs` lines 212-218): translate a box and its
whole subtree by an offset. -/
def reposition_layout (b : LayoutBox) (x_offset y_offset : ℚ) : LayoutBox :=
  match b with
  | .mk x y w h mt mr mb ml cs nd ln tb =>
    .mk (x + x_offset) (y + y_offset) w h mt mr mb ml
      (reposition_children cs x_offset y_offset) nd ln tb

def reposition_children : List LayoutBox → ℚ → ℚ → List LayoutBox
  | [], _, _ => []
  | c :: cs, dx, dy => reposition_layout c dx dy :: reposition_children cs dx dy

end

/-- The page-index computation of `paginate` (`pdf.rs` lines 159-165):
`(overflow / content_height).ceil() as usize` under f32 semantics.  A zero
`content_height` makes the quotient `+inf`, which the saturating `as usize`
cast clamps to `usize::MAX`; a negative `content_height` makes the quotient
negative, which the cast clamps to 0 (`Int.toNat` of a non-positive ceil). -/
def child_page_index (content_bottom content_height child_bottom : ℚ) : ℕ :=
  if child_bottom ≥ content_bottom then 0
  else
    let overflow := content_bottom - child_bottom
    if content_height = 0 then USIZE_MAX
    else min (Int.toNat ⌈overflow / content_height⌉) USIZE_MAX

/-- `paginate` (`pdf.rs` lines 116-209): strip wrapper pages, wrap a
non-page root in a single page, and otherwise assign each direct child to a
page by its bottom edge, translating the clone of its subtree up by
`page_index * content_height`. -/
def paginate (root : LayoutBox) : List PageContent :=
  let page := find_content_page root
  if page.node.node_type ≠ .page then
    [{ children := [page], style := {}, width := page.width, height := page.height,
       padding_top := 0, padding_right := 0, padding_bottom := 0, padding_left := 0 }]
  else
    let (pad_t, pad_r, pad_b, pad_l) := page.node.style.padding_trbl
    let content_top := page.height - pad_t
    let content_bottom := pad_b
    let content_height := content_top - content_bottom
    let page_assignments := page.children.map (fun c =>
      let child_page := child_page_index content_bottom content_height (c.y - c.height)
      (child_page,
       if child_page > 0 then
         reposition_layout c 0 ((child_page : ℚ) * content_height)
       else c))
    let max_page := (page_assignments.map (fun a => a.1)).foldl max 0
    (List.range (max_page + 1)).map (fun page_num =>
      { children := (page_assignments.filter (fun a => a.1 = page_num)).map (fun a => a.2),
        style := page.node.style, width := page.width, height := page.height,
        padding_top := pad_t, padding_right := pad_r,
        padding_bottom := pad_b, padding_left := pad_l })

/-- The layout-and-pagination portion of `from_layout` (`pdf.rs` lines
41-52): build the layout tree, measure it, place it at the top left of the
page, and paginate.  PDF byte emission (steps 5-7) is out of scope. -/
def from_layout_pages (root : JsonNode) : List PageContent :=
  paginate (place_layout (measure_layout (build_layout root)) 0 PAGE_HEIGHT_PT)

-- ==========================================================================
-- Tree flattening (for stating whole-tree properties)
-- ==========================================================================

mutual

/-- Every box of a layout subtree, root first. -/
def all_boxes (b : LayoutBox) : List LayoutBox :=
  match b with
  | .mk x y w h mt mr mb ml cs nd ln tb =>
    LayoutBox.mk x y w h mt mr mb ml cs nd ln tb :: all_boxes_list cs

def all_boxes_list : List LayoutBox → List LayoutBox
  | [] => []
  | c :: cs => all_boxes c ++ all_boxes_list cs

end

-- ==========================================================================
-- Well-formed inputs (for the measure-pass invariants)
-- ==========================================================================

/-- A dimension that is a nonnegative fixed point value.  Percentages are
excluded: a container's padding may drive the width its children resolve
percentages against below zero, making a percentage dimension negative even
when all declared values are nonnegative. -/
def dim_wf : Dimension → Prop
  | .pt v => 0 ≤ v
  | .percent _ => False

/-- An optional rational that is nonnegative when present. -/
def opt_nonneg (o : Option ℚ) : Prop :=
  ∀ v, o = some v → 0 ≤ v

/-- An optional dimension that is well-formed when present. -/
def opt_dim_wf (o : Option Dimension) : Prop :=
  ∀ d, o = some d → dim_wf d

/-- An optional dimension list whose members are all well-formed. -/
def opt_dims_wf (o : Option (List Dimension)) : Prop :=
  ∀ ds, o = some ds → ∀ d ∈ ds, dim_wf d

/-- The style fields the measure pass reads, all nonnegative / fixed. -/
def style_wf (s : Style) : Prop :=
  opt_dim_wf s.width ∧ opt_dim_wf s.height ∧
  opt_dim_wf s.min_width ∧ opt_dim_wf s.min_height ∧
  opt_dim_wf s.max_width ∧ opt_dim_wf s.max_height ∧
  opt_nonneg s.padding ∧ opt_nonneg s.padding_top ∧ opt_nonneg s.padding_right ∧
  opt_nonneg s.padding_bottom ∧ opt_nonneg s.padding_left ∧
  opt_nonneg s.gap ∧ opt_nonneg s.font_size ∧ opt_nonneg s.line_height

mutual

/-- Well-formed input layout tree for the measure pass: nonnegative initial
sizes and margins, well-formed styles, childless leaves (text, image, svg —
the measure pass leaves their children untouched), and nondegenerate tables
whose children are rows of span-1 cells (row/column spans other than 1 can
leave trailing cells unmeasured). -/
def BoxWf : LayoutBox → Prop
  | .mk _ _ w h mt mr mb ml cs nd _ _ =>
    0 ≤ w ∧ 0 ≤ h ∧ 0 ≤ mt ∧ 0 ≤ mr ∧ 0 ≤ mb ∧ 0 ≤ ml ∧
    style_wf nd.style ∧ opt_nonneg nd.font_size ∧
    opt_dims_wf nd.column_widths ∧
    ((nd.node_type = .text ∨ nd.node_type = .image ∨ nd.node_type = .svg) → cs = []) ∧
    (nd.node_type = .table →
      cs ≠ [] ∧ table_num_cols cs ≠ 0 ∧
      ∀ r ∈ cs, r.node.node_type = .row ∧
        ∀ cell ∈ r.children, cell.col_span = 1 ∧ cell.row_span = 1) ∧
    BoxListWf cs

/-- All members of a layout box list are well-formed. -/
def BoxListWf : List LayoutBox → Prop
  | [] => True
  | c :: cs => BoxWf c ∧ BoxListWf cs

end

/-- The measured-tree property claimed for every box: nonnegative size, and
at least one line on text boxes. -/
def box_measured_ok (bx : LayoutBox) : Prop :=
  0 ≤ bx.width ∧ 0 ≤ bx.height ∧ (bx.node.node_type = .text → 1 ≤ bx.lines.length)

-- ==========================================================================
-- General lemmas
-- ==========================================================================

/-- The child-measuring loop is a map of `measure_layout_with_parent` over
the children. -/
theorem measure_children_eq_map (bs : List LayoutBox) (pw ph : ℚ) :
    measure_children bs pw ph = bs.map (fun c => measure_layout_with_parent c pw ph) := by
  induction bs with
  | nil => simp [measure_children]
  | cons c cs ih => simp [measure_children, ih]

/-- An image node with a percent height measured against parent height 0
gets height 0 (`measure_image` resolves the percentage against 0). -/
theorem measure_image_percent_height_zero (c : LayoutBox) (pw : ℚ) (p : ℚ)
    (himg : c.node.node_type = .image)
    (hpct : c.node.style.height = some (.percent p)) :
    (measure_layout_with_parent c pw 0).height = 0 := by
  obtain ⟨cx, cy, cw2, ch2, cmt, cmr, cmb, cml, ccs, cnd, cln, ctb⟩ := c
  simp only [LayoutBox.node_mk] at himg hpct
  simp [measure_layout_with_parent, himg, measure_image, LayoutBox.resolve_height, hpct,
    Dimension.resolve]

-- ==========================================================================
-- Claims
-- ==========================================================================

/-- C3: for every generic container (view, row, or cell, not a page)
measured without an explicit height, the children are measured with child
parent height 0, so a child height given as a percentage resolves to 0 (in
particular an image child with a percent height measures to height 0); when
the container has an explicit height or is a page, children are measured
with parent height (explicit height, else the parent height) minus top and
bottom padding. -/
theorem C3_percent_height_collapse (b : LayoutBox) (pw ph : ℚ) :
    ((b.node.node_type = .view ∨ b.node.node_type = .row ∨ b.node.node_type = .cell) →
      b.node.style.height = none →
      (measure_layout_with_parent b pw ph).children =
        measure_children b.children
          ((b.node.style.width.map (fun d => d.resolve pw)).getD pw
            - (b.node.style.padding_trbl).2.2.2 - (b.node.style.padding_trbl).2.1) 0) ∧
    (∀ p : ℚ, Dimension.resolve (.percent p) 0 = 0) ∧
    ((b.node.node_type = .view ∨ b.node.node_type = .row ∨ b.node.node_type = .cell) →
      b.node.style.height = none →
      ∀ i, ∀ hi : i < b.children.length, ∀ p : ℚ,
        (b.children.get ⟨i, hi⟩).node.node_type = .image →
        (b.children.get ⟨i, hi⟩).node.style.height = some (.percent p) →
        ∃ hi2 : i < (measure_layout_with_parent b pw ph).children.length,
          ((measure_layout_with_parent b pw ph).children.get ⟨i, hi2⟩).height = 0) ∧
    ((b.node.node_type = .page ∨ b.node.node_type = .view ∨ b.node.node_type = .row ∨
        b.node.node_type = .cell) →
      (b.node.style.height.isSome ∨ b.node.node_type = .page) →
      (measure_layout_with_parent b pw ph).children =
        measure_children b.children
          ((b.node.style.width.map (fun d => d.resolve pw)).getD pw
            - (b.node.style.padding_trbl).2.2.2 - (b.node.style.padding_trbl).2.1)
          ((b.node.style.height.map (fun d => d.resolve ph)).getD ph
            - (b.node.style.padding_trbl).1 - (b.node.style.padding_trbl).2.2.1)) := by
  obtain ⟨x, y, w, h, mt, mr, mb, ml, cs, nd, ln, tb⟩ := b
  obtain ⟨t, s, ncs, tx, fs, fw, fsty, cw, csp, rsp⟩ := nd
  simp only [LayoutBox.node_mk, JsonNode.style_mk, JsonNode.node_type_mk, LayoutBox.children_mk]
  refine ⟨?_, by simp [Dimension.resolve], ?_, ?_⟩
  · rintro (hk | hk | hk) hh <;> subst hk <;>
      simp [measure_layout_with_parent, Style.padding_trbl, hh]
  · rintro (hk | hk | hk) hh i hi p himg hpct <;> subst hk
    · simp [measure_layout_with_parent, hh, measure_children_eq_map]
      refine ⟨by simpa using hi, ?_⟩
      exact measure_image_percent_height_zero _ _ p himg hpct
    · simp [measure_layout_with_parent, hh, measure_children_eq_map]
      refine ⟨by simpa using hi, ?_⟩
      exact measure_image_percent_height_zero _ _ p himg hpct
    · simp [measure_layout_with_parent, hh, measure_children_eq_map]
      refine ⟨by simpa using hi, ?_⟩
      exact measure_image_percent_height_zero _ _ p himg hpct
  · rintro (hk | hk | hk | hk) hsome <;> subst hk <;>
      simp_all [measure_layout_with_parent, Style.padding_trbl, Option.isSome_iff_exists]

/-- C3 witness: a view with no explicit height and an image child of height
50 percent; after measuring, the child's height is 0. -/
theorem C3_percent_height_collapse_witness :
    ∃ hi2 : 0 < (measure_layout_with_parent (LayoutBox.mk 0 0 0 0 0 0 0 0
        [LayoutBox.mk 0 0 0 0 0 0 0 0 []
          (.mk .image { height := some (.percent 50) } [] none none none none none none none)
          [] none]
        (.mk .view {} [] none none none none none none none) [] none)
        595 842).children.length,
      ((measure_layout_with_parent (LayoutBox.mk 0 0 0 0 0 0 0 0
        [LayoutBox.mk 0 0 0 0 0 0 0 0 []
          (.mk .image { height := some (.percent 50) } [] none none none none none none none)
          [] none]
        (.mk .view {} [] none none none none none none none) [] none)
        595 842).children.get ⟨0, hi2⟩).height = 0 :=
  (C3_percent_height_collapse (LayoutBox.mk 0 0 0 0 0 0 0 0
      [LayoutBox.mk 0 0 0 0 0 0 0 0 []
        (.mk .image { height := some (.percent 50) } [] none none none none none none none)
        [] none]
      (.mk .view {} [] none none none none none none none) [] none)
    595 842).2.2.1 (Or.inl rfl) rfl 0 (by simp) 50 rfl rfl

/-- C4 (amended): when the resolved min constraint exceeds the resolved max
constraint on an axis, the measured size of a container or of a non-empty
table on that axis equals the resolved MAX value — the code applies min
first (`width.max(min)`) and then max (`.min(max)`), so the max clamp wins
when the two contradict.  (The claim as frozen says min wins; see the
counterexample.) -/
theorem C4_min_max_amended (b : LayoutBox) (pw ph : ℚ)
    (hk : b.node.node_type = .page ∨ b.node.node_type = .view ∨ b.node.node_type = .row ∨
      b.node.node_type = .cell ∨ b.node.node_type = .table)
    (htable : b.node.node_type = .table →
      table_num_cols b.children ≠ 0 ∧ b.children ≠ []) :
    (∀ dmin dmax : Dimension, b.node.style.min_width = some dmin →
      b.node.style.max_width = some dmax → dmax.resolve pw < dmin.resolve pw →
      (measure_layout_with_parent b pw ph).width = dmax.resolve pw) ∧
    (∀ dmin dmax : Dimension, b.node.style.min_height = some dmin →
      b.node.style.max_height = some dmax → dmax.resolve ph < dmin.resolve ph →
      (measure_layout_with_parent b pw ph).height = dmax.resolve ph) := by
  obtain ⟨x, y, w, h, mt, mr, mb, ml, cs, nd, ln, tb⟩ := b
  simp only [LayoutBox.node_mk, LayoutBox.children_mk] at hk htable ⊢
  constructor
  · intro dmin dmax hmin hmax hlt
    rcases hk with hk | hk | hk | hk | hk
    · simp only [measure_layout_with_parent, hk, apply_min_max, hmin, hmax, LayoutBox.width_mk]
      exact min_eq_right (le_of_lt (lt_of_lt_of_le hlt (le_max_right _ _)))
    · simp only [measure_layout_with_parent, hk, apply_min_max, hmin, hmax, LayoutBox.width_mk]
      exact min_eq_right (le_of_lt (lt_of_lt_of_le hlt (le_max_right _ _)))
    · simp only [measure_layout_with_parent, hk, apply_min_max, hmin, hmax, LayoutBox.width_mk]
      exact min_eq_right (le_of_lt (lt_of_lt_of_le hlt (le_max_right _ _)))
    · simp only [measure_layout_with_parent, hk, apply_min_max, hmin, hmax, LayoutBox.width_mk]
      exact min_eq_right (le_of_lt (lt_of_lt_of_le hlt (le_max_right _ _)))
    · obtain ⟨h1, h2⟩ := htable hk
      simp only [measure_layout_with_parent, hk]
      rw [if_neg (by simp [h1, h2])]
      simp only [apply_min_max, hmin, hmax, LayoutBox.width_mk]
      exact min_eq_right (le_of_lt (lt_of_lt_of_le hlt (le_max_right _ _)))
  · intro dmin dmax hmin hmax hlt
    rcases hk with hk | hk | hk | hk | hk
    · simp only [measure_layout_with_parent, hk, apply_min_max, hmin, hmax, LayoutBox.height_mk]
      exact min_eq_right (le_of_lt (lt_of_lt_of_le hlt (le_max_right _ _)))
    · simp only [measure_layout_with_parent, hk, apply_min_max, hmin, hmax, LayoutBox.height_mk]
      exact min_eq_right (le_of_lt (lt_of_lt_of_le hlt (le_max_right _ _)))
    · simp only [measure_layout_with_parent, hk, apply_min_max, hmin, hmax, LayoutBox.height_mk]
      exact min_eq_right (le_of_lt (lt_of_lt_of_le hlt (le_max_right _ _)))
    · simp only [measure_layout_with_parent, hk, apply_min_max, hmin, hmax, LayoutBox.height_mk]
      exact min_eq_right (le_of_lt (lt_of_lt_of_le hlt (le_max_right _ _)))
    · obtain ⟨h1, h2⟩ := htable hk
      simp only [measure_layout_with_parent, hk]
      rw [if_neg (by simp [h1, h2])]
      simp only [apply_min_max, hmin, hmax, LayoutBox.height_mk]
      exact min_eq_right (le_of_lt (lt_of_lt_of_le hlt (le_max_right _ _)))

/-- C4 counterexample to the claim as frozen: a childless view with
min_width 100pt and max_width 50pt (min exceeds max) measures to width 50 —
the resolved max — and not to the resolved min 100. -/
theorem C4_min_wins_counterexample :
    (measure_layout_with_parent (LayoutBox.mk 0 0 0 0 0 0 0 0 []
        (.mk .view { min_width := some (.pt 100), max_width := some (.pt 50) }
          [] none none none none none none none) [] none) 595 842).width
      = Dimension.resolve (.pt 50) 595 ∧
    (measure_layout_with_parent (LayoutBox.mk 0 0 0 0 0 0 0 0 []
        (.mk .view { min_width := some (.pt 100), max_width := some (.pt 50) }
          [] none none none none none none none) [] none) 595 842).width
      ≠ Dimension.resolve (.pt 100) 595 := by
  norm_num [measure_layout_with_parent, measure_children, measure_column, measure_column_go,
    apply_min_max, Dimension.resolve, Style.padding_trbl]

/-- C4 witness: the amended theorem applied to the counterexample view. -/
theorem C4_min_max_amended_witness :
    (measure_layout_with_parent (LayoutBox.mk 0 0 0 0 0 0 0 0 []
        (.mk .view { min_width := some (.pt 100), max_width := some (.pt 50) }
          [] none none none none none none none) [] none) 595 842).width
      = Dimension.resolve (.pt 50) 595 :=
  (C4_min_max_amended (LayoutBox.mk 0 0 0 0 0 0 0 0 []
      (.mk .view { min_width := some (.pt 100), max_width := some (.pt 50) }
        [] none none none none none none none) [] none) 595 842
    (Or.inr (Or.inl rfl)) (fun hcontra => by simp at hcontra)).1
    (.pt 100) (.pt 50) rfl rfl (by norm_num [Dimension.resolve])

/-- Summing a fill of the zero entries of a list: each of the
`filter (= 0)` entries contributes the default instead of 0. -/
theorem fill_sum (l : List ℚ) (d : ℚ) :
    (l.map (fun w => if w = 0 then d else w)).sum
      = l.sum + ((l.filter (fun w => w = 0)).length : ℚ) * d := by
  induction l with
  | nil => simp
  | cons w ws ih =>
    by_cases hw : w = 0
    · simp [hw, ih]; ring
    · simp [hw, ih]; ring

/-- The column-width fill restores the inner width when the declared widths
leave room: if some column is unspecified and the declared widths plus gaps
do not exceed the inner available width, or no column is unspecified and
they exactly equal it, the computed widths plus gaps sum to the inner
width. -/
theorem compute_col_widths_sum (declared : Option (List Dimension)) (num_cols : ℕ)
    (inner_available col_gap : ℚ)
    (h : ((∃ w ∈ declared_col_widths declared num_cols inner_available, w = 0) ∧
        (declared_col_widths declared num_cols inner_available).sum
          + col_gap * ((num_cols - 1 : ℕ) : ℚ) ≤ inner_available) ∨
      ((∀ w ∈ declared_col_widths declared num_cols inner_available, w ≠ 0) ∧
        (declared_col_widths declared num_cols inner_available).sum
          + col_gap * ((num_cols - 1 : ℕ) : ℚ) = inner_available)) :
    (compute_col_widths declared num_cols inner_available col_gap).sum
      + col_gap * ((num_cols - 1 : ℕ) : ℚ) = inner_available := by
  set cw0 := declared_col_widths declared num_cols inner_available with hcw0
  rcases h with ⟨⟨w0, hw0mem, hw0⟩, hle⟩ | ⟨hno, heq⟩
  · have hupos : 0 < (cw0.filter (fun w => w = 0)).length := by
      exact List.length_pos_of_mem (List.mem_filter.mpr ⟨hw0mem, by simp [hw0]⟩)
    have hune : ((cw0.filter (fun w => w = 0)).length : ℚ) ≠ 0 := by
      exact_mod_cast Nat.pos_iff_ne_zero.mp hupos
    have hrem : max (inner_available - cw0.sum - col_gap * ((num_cols - 1 : ℕ) : ℚ)) 0
        = inner_available - cw0.sum - col_gap * ((num_cols - 1 : ℕ) : ℚ) :=
      max_eq_left (by linarith)
    simp only [compute_col_widths, ← hcw0, if_pos hupos, hrem, fill_sum]
    field_simp
    ring
  · have huz : (cw0.filter (fun w => w = 0)).length = 0 := by
      rw [List.length_eq_zero]
      rw [List.filter_eq_nil]
      intro a ha
      simp [hno a ha]
    simp only [compute_col_widths, ← hcw0, huz, fill_sum]
    rw [if_neg (by simp [huz])]
    push_cast
    linarith

/-- C7 (amended): after measuring a table with at least one row and column,
the sum of the computed column widths plus gap times (num_cols - 1) equals
the table's inner available width, provided EITHER at least one column
width was left unspecified AND the declared widths plus gaps do not exceed
the inner width, OR no column was unspecified and the declared widths plus
gaps equal the inner width exactly.  (The claim as frozen drops both
provisos; see the counterexample, where declared widths overflow the inner
width.) -/
theorem C7_table_width_amended (b : LayoutBox) (pw ph : ℚ)
    (ht : b.node.node_type = .table)
    (hrows : b.children ≠ [])
    (hcols : table_num_cols b.children ≠ 0)
    (hfill : ((∃ w ∈ declared_col_widths b.node.column_widths (table_num_cols b.children)
          (max ((b.node.style.width.map (fun d => d.resolve pw)).getD pw) 0
            - (b.node.style.padding_trbl).2.2.2 - (b.node.style.padding_trbl).2.1), w = 0) ∧
        (declared_col_widths b.node.column_widths (table_num_cols b.children)
          (max ((b.node.style.width.map (fun d => d.resolve pw)).getD pw) 0
            - (b.node.style.padding_trbl).2.2.2 - (b.node.style.padding_trbl).2.1)).sum
          + (b.node.style.gap.getD 0) * ((table_num_cols b.children - 1 : ℕ) : ℚ)
          ≤ max ((b.node.style.width.map (fun d => d.resolve pw)).getD pw) 0
            - (b.node.style.padding_trbl).2.2.2 - (b.node.style.padding_trbl).2.1) ∨
      ((∀ w ∈ declared_col_widths b.node.column_widths (table_num_cols b.children)
          (max ((b.node.style.width.map (fun d => d.resolve pw)).getD pw) 0
            - (b.node.style.padding_trbl).2.2.2 - (b.node.style.padding_trbl).2.1), w ≠ 0) ∧
        (declared_col_widths b.node.column_widths (table_num_cols b.children)
          (max ((b.node.style.width.map (fun d => d.resolve pw)).getD pw) 0
            - (b.node.style.padding_trbl).2.2.2 - (b.node.style.padding_trbl).2.1)).sum
          + (b.node.style.gap.getD 0) * ((table_num_cols b.children - 1 : ℕ) : ℚ)
          = max ((b.node.style.width.map (fun d => d.resolve pw)).getD pw) 0
            - (b.node.style.padding_trbl).2.2.2 - (b.node.style.padding_trbl).2.1)) :
    ∃ t, (measure_layout_with_parent b pw ph).table = some t ∧
      t.column_widths.sum + (b.node.style.gap.getD 0)
          * ((table_num_cols b.children - 1 : ℕ) : ℚ)
        = max ((b.node.style.width.map (fun d => d.resolve pw)).getD pw) 0
            - (b.node.style.padding_trbl).2.2.2 - (b.node.style.padding_trbl).2.1 := by
  obtain ⟨x, y, w, h, mt, mr, mb, ml, cs, nd, ln, tb⟩ := b
  simp only [LayoutBox.node_mk, LayoutBox.children_mk] at ht hrows hcols hfill ⊢
  simp only [measure_layout_with_parent, ht]
  rw [if_neg (by simp [hcols, hrows])]
  simp only [LayoutBox.table_mk, Style.padding_trbl]
  refine ⟨_, rfl, ?_⟩
  have := compute_col_widths_sum nd.column_widths (table_num_cols cs)
    (max ((nd.style.width.map (fun d => d.resolve pw)).getD pw) 0
      - (nd.style.padding_trbl).2.2.2 - (nd.style.padding_trbl).2.1)
    (nd.style.gap.getD 0) hfill
  simpa [Style.padding_trbl] using this

set_option maxHeartbeats 1000000 in
/-- C7 counterexample to the claim as frozen: a table of inner width 300
with two columns, the first declared as 500pt (so the second is
unspecified).  The fill has no room left, the computed widths stay
[500, 0], and their sum plus gaps is 500, not the inner width 300. -/
theorem C7_table_width_counterexample :
    table_num_cols [LayoutBox.mk 0 0 0 0 0 0 0 0
        [LayoutBox.mk 0 0 0 0 0 0 0 0 []
           (.mk .cell {} [] none none none none none none none) [] none,
         LayoutBox.mk 0 0 0 0 0 0 0 0 []
           (.mk .cell {} [] none none none none none none none) [] none]
        (.mk .row {} [] none none none none none none none) [] none] = 2 ∧
    (∃ w ∈ declared_col_widths (some [Dimension.pt 500]) 2 300, w = 0) ∧
    ∃ t, (measure_layout_with_parent (LayoutBox.mk 0 0 0 0 0 0 0 0
      [LayoutBox.mk 0 0 0 0 0 0 0 0
        [LayoutBox.mk 0 0 0 0 0 0 0 0 []
           (.mk .cell {} [] none none none none none none none) [] none,
         LayoutBox.mk 0 0 0 0 0 0 0 0 []
           (.mk .cell {} [] none none none none none none none) [] none]
        (.mk .row {} [] none none none none none none none) [] none]
      (.mk .table { width := some (.pt 300) } [] none none none none
        (some [.pt 500]) none none) [] none) 595 842).table = some t ∧
      ¬(t.column_widths.sum + (0 : ℚ) * ((2 - 1 : ℕ) : ℚ) = 300) := by
  have hdcw : declared_col_widths (some [Dimension.pt 500]) 2 300 = [500, 0] := by
    norm_num [declared_col_widths, List.range_succ, Dimension.resolve,
      List.getElem?_cons_zero, List.getElem?_cons_succ, List.getElem?_nil]
  refine ⟨by norm_num [table_num_cols, LayoutBox.col_span],
    ⟨0, by rw [hdcw]; simp, rfl⟩, ?_⟩
  norm_num [measure_layout_with_parent, measure_children, table_num_cols,
    declared_col_widths, compute_col_widths, measure_table_rows, measure_table_cells,
    countLeadingActive, slice_sum, list_add_at, max_range, apply_min_max,
    Style.padding_trbl, Dimension.resolve, LayoutBox.col_span, LayoutBox.row_span,
    LayoutBox.outer_height, LayoutBox.set_width, measure_column, measure_column_go,
    LayoutBox.is_absolute, LayoutBox.position, List.range_succ,
    List.getElem?_cons_zero, List.getElem?_cons_succ, List.getElem?_nil, List.filter]

set_option maxHeartbeats 1000000 in
/-- C7 witness: the same table with the first column declared as 100pt;
the second column is filled with 200 and the widths sum to the inner width
300. -/
theorem C7_table_width_amended_witness :
    ∃ t, (measure_layout_with_parent (LayoutBox.mk 0 0 0 0 0 0 0 0
      [LayoutBox.mk 0 0 0 0 0 0 0 0
        [LayoutBox.mk 0 0 0 0 0 0 0 0 []
           (.mk .cell {} [] none none none none none none none) [] none,
         LayoutBox.mk 0 0 0 0 0 0 0 0 []
           (.mk .cell {} [] none none none none none none none) [] none]
        (.mk .row {} [] none none none none none none none) [] none]
      (.mk .table { width := some (.pt 300) } [] none none none none
        (some [.pt 100]) none none) [] none) 595 842).table = some t ∧
      t.column_widths.sum + (0 : ℚ) * ((2 - 1 : ℕ) : ℚ) = 300 := by
  have hnum : table_num_cols [LayoutBox.mk 0 0 0 0 0 0 0 0
        [LayoutBox.mk 0 0 0 0 0 0 0 0 []
           (.mk .cell {} [] none none none none none none none) [] none,
         LayoutBox.mk 0 0 0 0 0 0 0 0 []
           (.mk .cell {} [] none none none none none none none) [] none]
        (.mk .row {} [] none none none none none none none) [] none] = 2 := by
    norm_num [table_num_cols, LayoutBox.col_span]
  have hdcw : declared_col_widths (some [Dimension.pt 100]) 2 300 = [100, 0] := by
    norm_num [declared_col_widths, List.range_succ, Dimension.resolve,
      List.getElem?_cons_zero, List.getElem?_cons_succ, List.getElem?_nil]
  have h := C7_table_width_amended (LayoutBox.mk 0 0 0 0 0 0 0 0
      [LayoutBox.mk 0 0 0 0 0 0 0 0
        [LayoutBox.mk 0 0 0 0 0 0 0 0 []
           (.mk .cell {} [] none none none none none none none) [] none,
         LayoutBox.mk 0 0 0 0 0 0 0 0 []
           (.mk .cell {} [] none none none none none none none) [] none]
        (.mk .row {} [] none none none none none none none) [] none]
      (.mk .table { width := some (.pt 300) } [] none none none none
        (some [.pt 100]) none none) [] none) 595 842
    rfl (by simp) (by rw [LayoutBox.children_mk, hnum]; norm_num)
    (Or.inl ⟨⟨0, by
        simp only [LayoutBox.children_mk, LayoutBox.node_mk, JsonNode.column_widths_mk,
          JsonNode.style_mk, hnum]
        norm_num [Style.padding_trbl, Dimension.resolve, hdcw]⟩, by
        simp only [LayoutBox.children_mk, LayoutBox.node_mk, JsonNode.column_widths_mk,
          JsonNode.style_mk, hnum]
        norm_num [Style.padding_trbl, Dimension.resolve, hdcw]⟩)
  simpa [hnum, Style.padding_trbl, Dimension.resolve] using h

/-- `paginate` always emits at least one page. -/
theorem paginate_length_pos (b : LayoutBox) : 1 ≤ (paginate b).length := by
  rw [paginate]
  split
  · simp
  · simp

/-- C1: the pipeline build-measure-place-paginate is a total function (each
stage is a terminating Lean definition) and always returns at least one
page; in particular, even when the resolved root is a page whose top and
bottom padding make the content height zero or negative, `paginate` still
returns a well-defined non-empty page list. -/
theorem C1_pipeline_total :
    (∀ root : JsonNode, 1 ≤ (from_layout_pages root).length) ∧
    (∀ b : LayoutBox,
      (find_content_page b).node.node_type = .page →
      ((find_content_page b).height - ((find_content_page b).node.style.padding_trbl).1)
          - ((find_content_page b).node.style.padding_trbl).2.2.1 ≤ 0 →
      1 ≤ (paginate b).length) :=
  ⟨fun root => paginate_length_pos _, fun b _ _ => paginate_length_pos b⟩

/-- Filtering tagged pairs by tag and projecting is filtering by the tag
function and mapping. -/
theorem filter_map_pair {α : Type} (l : List α) (g : α → ℕ) (f : α → α)
    (p : ℕ) :
    ((l.map (fun c => (g c, f c))).filter (fun a => a.1 = p)).map (fun a => a.2)
      = (l.filter (fun c => g c = p)).map f := by
  induction l with
  | nil => simp
  | cons c cs ih =>
    by_cases hc : g c = p <;> simp [hc, ih]

/-- A `foldl max` is at least its initial accumulator. -/
theorem foldl_max_ge_init (l : List ℕ) (acc : ℕ) : acc ≤ l.foldl max acc := by
  induction l generalizing acc with
  | nil => simp
  | cons a as ih => exact le_trans (le_max_left acc a) (ih (max acc a))

/-- A `foldl max` is at least every list member. -/
theorem foldl_max_ge_mem (l : List ℕ) (a : ℕ) : a ∈ l → ∀ acc, a ≤ l.foldl max acc := by
  induction l with
  | nil => intro ha; cases ha
  | cons x xs ih =>
    intro ha acc
    rcases List.mem_cons.mp ha with h | h
    · subst h
      exact le_trans (le_max_right acc a) (foldl_max_ge_init xs (max acc a))
    · exact ih h (max acc x)

mutual

/-- `reposition_layout` shifts every x-coordinate of the subtree by `dx`. -/
theorem reposition_x (c : LayoutBox) (dx dy : ℚ) :
    (all_boxes (reposition_layout c dx dy)).map LayoutBox.x
      = ((all_boxes c).map LayoutBox.x).map (fun v => v + dx) := by
  cases c with
  | mk x y w h mt mr mb ml cs nd ln tb =>
    simp only [reposition_layout, all_boxes, List.map_cons, LayoutBox.x_mk]
    rw [reposition_x_list cs dx dy]

/-- List version of `reposition_x`. -/
theorem reposition_x_list (cs : List LayoutBox) (dx dy : ℚ) :
    (all_boxes_list (reposition_children cs dx dy)).map LayoutBox.x
      = ((all_boxes_list cs).map LayoutBox.x).map (fun v => v + dx) := by
  cases cs with
  | nil => simp [reposition_children, all_boxes_list]
  | cons c cs =>
    simp only [reposition_children, all_boxes_list, List.map_append]
    rw [reposition_x c dx dy, reposition_x_list cs dx dy]

end

mutual

/-- `reposition_layout` shifts every y-coordinate of the subtree by `dy`. -/
theorem reposition_y (c : LayoutBox) (dx dy : ℚ) :
    (all_boxes (reposition_layout c dx dy)).map LayoutBox.y
      = ((all_boxes c).map LayoutBox.y).map (fun v => v + dy) := by
  cases c with
  | mk x y w h mt mr mb ml cs nd ln tb =>
    simp only [reposition_layout, all_boxes, List.map_cons, LayoutBox.y_mk]
    rw [reposition_y_list cs dx dy]

/-- List version of `reposition_y`. -/
theorem reposition_y_list (cs : List LayoutBox) (dx dy : ℚ) :
    (all_boxes_list (reposition_children cs dx dy)).map LayoutBox.y
      = ((all_boxes_list cs).map LayoutBox.y).map (fun v => v + dy) := by
  cases cs with
  | nil => simp [reposition_children, all_boxes_list]
  | cons c cs =>
    simp only [reposition_children, all_boxes_list, List.map_append]
    rw [reposition_y c dx dy, reposition_y_list cs dx dy]

end

/-- C2: when the resolved root is a page with positive content height
`ch = (page.height - pad_t) - pad_b`, (i) each direct child with bottom
`c.y - c.height` is assigned page 0 if its bottom is at least the content
bottom `cb = pad_b`, and otherwise page `ceil((cb - bottom) / ch)` (the
`usize::MAX` clamp never bites under the stated bound); (ii) `paginate`
emits `max page index + 1` pages; (iii) page `p` holds exactly the direct
children assigned to `p`, in order, translated when `p > 0`; (iv) every
child's page index is a valid page; (v) the translation shifts every
y-coordinate of the child's subtree by exactly `page_index * ch` and leaves
every x-coordinate unchanged. -/
theorem C2_pagination_assignment (root page : LayoutBox) (cb ch : ℚ)
    (hpageeq : page = find_content_page root)
    (hcb : cb = (page.node.style.padding_trbl).2.2.1)
    (hchdef : ch = (page.height - (page.node.style.padding_trbl).1) - cb)
    (hpage : page.node.node_type = .page)
    (hch : 0 < ch)
    (hfit : ∀ c ∈ page.children,
      (⌈(cb - (c.y - c.height)) / ch⌉).toNat ≤ USIZE_MAX) :
    (∀ c ∈ page.children,
      child_page_index cb ch (c.y - c.height)
        = if c.y - c.height ≥ cb then 0 else (⌈(cb - (c.y - c.height)) / ch⌉).toNat) ∧
    (paginate root).length
      = (page.children.map (fun c => child_page_index cb ch (c.y - c.height))).foldl max 0
        + 1 ∧
    (∀ p, ∀ hp : p < (paginate root).length,
      ((paginate root).get ⟨p, hp⟩).children
        = (page.children.filter
            (fun c => child_page_index cb ch (c.y - c.height) = p)).map
            (fun c =>
              if child_page_index cb ch (c.y - c.height) > 0 then
                reposition_layout c 0
                  ((child_page_index cb ch (c.y - c.height) : ℚ) * ch)
              else c)) ∧
    (∀ c ∈ page.children,
      child_page_index cb ch (c.y - c.height) < (paginate root).length) ∧
    (∀ (c : LayoutBox) (dy : ℚ),
      (all_boxes (reposition_layout c 0 dy)).map LayoutBox.x
        = (all_boxes c).map LayoutBox.x ∧
      (all_boxes (reposition_layout c 0 dy)).map LayoutBox.y
        = ((all_boxes c).map LayoutBox.y).map (fun v => v + dy)) := by
  have hne : ch ≠ 0 := ne_of_gt hch
  have hrule : ∀ c ∈ page.children,
      child_page_index cb ch (c.y - c.height)
        = if c.y - c.height ≥ cb then 0 else (⌈(cb - (c.y - c.height)) / ch⌉).toNat := by
    intro c hc
    rw [child_page_index]
    by_cases hb : c.y - c.height ≥ cb
    · simp [hb]
    · rw [if_neg hb, if_neg hb, if_neg hne]
      exact min_eq_left (hfit c hc)
  have hcond : ¬(page.node.node_type ≠ NodeType.page) := by simp [hpage]
  refine ⟨hrule, ?_, ?_, ?_, ?_⟩
  · simp only [paginate, ← hpageeq, ← hcb, ← hchdef, if_neg hcond, List.length_map,
      List.length_range, List.map_map]
    rfl
  · have key : ∀ (L : List PageContent), paginate root = L →
        ∀ p, ∀ hp : p < L.length,
          (L.get ⟨p, hp⟩).children
            = (page.children.filter
                (fun c => child_page_index cb ch (c.y - c.height) = p)).map
                (fun c =>
                  if child_page_index cb ch (c.y - c.height) > 0 then
                    reposition_layout c 0
                      ((child_page_index cb ch (c.y - c.height) : ℚ) * ch)
                  else c) := by
      intro L hL
      simp only [paginate, ← hpageeq, ← hcb, ← hchdef, if_neg hcond] at hL
      subst hL
      intro p hp
      simp only [List.get_eq_getElem, List.getElem_map, List.getElem_range]
      simp only [filter_map_pair]
    intro p hp
    exact key _ rfl p hp
  · intro c hc
    simp only [paginate, ← hpageeq, ← hcb, ← hchdef, if_neg hcond, List.length_map,
      List.length_range, List.map_map, Function.comp]
    have : child_page_index cb ch (c.y - c.height)
        ∈ page.children.map (fun c => child_page_index cb ch (c.y - c.height)) :=
      List.mem_map_of_mem _ hc
    have hle := foldl_max_ge_mem _ _ this 0
    calc child_page_index cb ch (c.y - c.height)
        ≤ (page.children.map (fun c => child_page_index cb ch (c.y - c.height))).foldl max 0 :=
          hle
      _ < _ + 1 := Nat.lt_succ_self _
  · intro c dy
    constructor
    · rw [reposition_x]
      simp
    · exact reposition_y c 0 dy

/-- C1 witness: a childless page of height 10 with paddings 20/20 (content
height -30) still paginates to at least one page. -/
theorem C1_pipeline_total_witness :
    (find_content_page (LayoutBox.mk 0 100 100 10 0 0 0 0 []
        (.mk .page { padding_top := some 20, padding_bottom := some 20 }
          [] none none none none none none none) [] none)).node.node_type = .page ∧
    ((find_content_page (LayoutBox.mk 0 100 100 10 0 0 0 0 []
        (.mk .page { padding_top := some 20, padding_bottom := some 20 }
          [] none none none none none none none) [] none)).height
        - ((find_content_page (LayoutBox.mk 0 100 100 10 0 0 0 0 []
            (.mk .page { padding_top := some 20, padding_bottom := some 20 }
              [] none none none none none none none) [] none)).node.style.padding_trbl).1)
      - ((find_content_page (LayoutBox.mk 0 100 100 10 0 0 0 0 []
          (.mk .page { padding_top := some 20, padding_bottom := some 20 }
            [] none none none none none none none) [] none)).node.style.padding_trbl).2.2.1
      ≤ 0 ∧
    1 ≤ (paginate (LayoutBox.mk 0 100 100 10 0 0 0 0 []
        (.mk .page { padding_top := some 20, padding_bottom := some 20 }
          [] none none none none none none none) [] none)).length := by
  have hA : (find_content_page (LayoutBox.mk 0 100 100 10 0 0 0 0 []
      (.mk .page { padding_top := some 20, padding_bottom := some 20 }
        [] none none none none none none none) [] none)).node.node_type = .page := by
    simp [find_content_page]
  have hB : ((find_content_page (LayoutBox.mk 0 100 100 10 0 0 0 0 []
        (.mk .page { padding_top := some 20, padding_bottom := some 20 }
          [] none none none none none none none) [] none)).height
        - ((find_content_page (LayoutBox.mk 0 100 100 10 0 0 0 0 []
            (.mk .page { padding_top := some 20, padding_bottom := some 20 }
              [] none none none none none none none) [] none)).node.style.padding_trbl).1)
      - ((find_content_page (LayoutBox.mk 0 100 100 10 0 0 0 0 []
          (.mk .page { padding_top := some 20, padding_bottom := some 20 }
            [] none none none none none none none) [] none)).node.style.padding_trbl).2.2.1
      ≤ 0 := by
    norm_num [find_content_page, Style.padding_trbl]
  exact ⟨hA, hB, C1_pipeline_total.2 _ hA hB⟩

/-- C2 witness: a page of height 100 with paddings 20/20 (content height
60) and two children with bottoms 30 and -20; the theorem applies and gives
the page-count equation. -/
theorem C2_pagination_assignment_witness :
    (0 : ℚ) < (100 - 20) - 20 ∧
    (paginate (LayoutBox.mk 0 100 100 100 0 0 0 0
        [LayoutBox.mk 0 40 100 10 0 0 0 0 []
           (.mk .view {} [] none none none none none none none) [] none,
         LayoutBox.mk 0 0 100 20 0 0 0 0 []
           (.mk .view {} [] none none none none none none none) [] none]
        (.mk .page { padding_top := some 20, padding_bottom := some 20 }
          [] none none none none none none none) [] none)).length
      = ((LayoutBox.mk 0 100 100 100 0 0 0 0
        [LayoutBox.mk 0 40 100 10 0 0 0 0 []
           (.mk .view {} [] none none none none none none none) [] none,
         LayoutBox.mk 0 0 100 20 0 0 0 0 []
           (.mk .view {} [] none none none none none none none) [] none]
        (.mk .page { padding_top := some 20, padding_bottom := some 20 }
          [] none none none none none none none) [] none).children.map
          (fun c => child_page_index 20 60 (c.y - c.height))).foldl max 0 + 1 := by
  have hfit : ∀ c ∈ (LayoutBox.mk 0 100 100 100 0 0 0 0
        [LayoutBox.mk 0 40 100 10 0 0 0 0 []
           (.mk .view {} [] none none none none none none none) [] none,
         LayoutBox.mk 0 0 100 20 0 0 0 0 []
           (.mk .view {} [] none none none none none none none) [] none]
        (.mk .page { padding_top := some 20, padding_bottom := some 20 }
          [] none none none none none none none) [] none).children,
      (⌈((20 : ℚ) - (c.y - c.height)) / 60⌉).toNat ≤ USIZE_MAX := by
    have hc1 : (⌈((20 : ℚ) - (40 - 10)) / 60⌉ : ℤ) = 0 := by
      rw [Int.ceil_eq_iff] <;> norm_num
    have hc2 : (⌈((20 : ℚ) - (0 - 20)) / 60⌉ : ℤ) = 1 := by
      rw [Int.ceil_eq_iff] <;> norm_num
    intro c hc
    simp only [LayoutBox.children_mk, List.mem_cons, List.not_mem_nil, or_false] at hc
    rcases hc with hc | hc <;> subst hc <;>
      simp only [LayoutBox.y_mk, LayoutBox.height_mk]
    · rw [hc1]; norm_num [USIZE_MAX]
    · rw [hc2]; norm_num [USIZE_MAX]
  have h := C2_pagination_assignment (LayoutBox.mk 0 100 100 100 0 0 0 0
        [LayoutBox.mk 0 40 100 10 0 0 0 0 []
           (.mk .view {} [] none none none none none none none) [] none,
         LayoutBox.mk 0 0 100 20 0 0 0 0 []
           (.mk .view {} [] none none none none none none none) [] none]
        (.mk .page { padding_top := some 20, padding_bottom := some 20 }
          [] none none none none none none none) [] none)
      (LayoutBox.mk 0 100 100 100 0 0 0 0
        [LayoutBox.mk 0 40 100 10 0 0 0 0 []
           (.mk .view {} [] none none none none none none none) [] none,
         LayoutBox.mk 0 0 100 20 0 0 0 0 []
           (.mk .view {} [] none none none none none none none) [] none]
        (.mk .page { padding_top := some 20, padding_bottom := some 20 }
          [] none none none none none none none) [] none)
      20 60
      (by simp [find_content_page])
      (by norm_num [Style.padding_trbl])
      (by norm_num [Style.padding_trbl])
      rfl
      (by norm_num)
      hfit
  exact ⟨by norm_num, h.2.1⟩

/-- Invariant of the greedy word-wrap loop: every committed line, and the
final `current`, either fits in `maxW` or is a single word of the word set
`S` (an over-wide commit only ever happens for the word that started the
line). -/
theorem wrap_loop_invariant (metrics : FontMetrics) (size maxW : ℚ)
    (S : List (List Char)) :
    ∀ (words : List (List Char)) (current : List Char) (lines : List (List Char)),
      (∀ w ∈ words, w ∈ S) →
      (current = [] ∨ measure_text_width current size metrics ≤ maxW ∨ current ∈ S) →
      (∀ l ∈ lines, measure_text_width l size metrics ≤ maxW ∨ l ∈ S) →
      (∀ l ∈ (wrap_text_loop metrics size maxW words current lines).1,
        measure_text_width l size metrics ≤ maxW ∨ l ∈ S) ∧
      ((wrap_text_loop metrics size maxW words current lines).2 = [] ∨
        measure_text_width (wrap_text_loop metrics size maxW words current lines).2
            size metrics ≤ maxW ∨
        (wrap_text_loop metrics size maxW words current lines).2 ∈ S) := by
  intro words
  induction words with
  | nil =>
    intro current lines _ hcur hlines
    exact ⟨hlines, hcur⟩
  | cons w ws ih =>
    intro current lines hwords hcur hlines
    have hwS : w ∈ S := hwords w (List.mem_cons_self w ws)
    have hwsS : ∀ v ∈ ws, v ∈ S := fun v hv => hwords v (List.mem_cons_of_mem w hv)
    rw [wrap_text_loop]
    by_cases hg : measure_text_width
        (if current = [] then w else current ++ ' ' :: w) size metrics > maxW
        ∧ current ≠ []
    · rw [if_pos hg]
      refine ih w (lines ++ [current]) hwsS (Or.inr (Or.inr hwS)) ?_
      intro l hl
      rcases List.mem_append.mp hl with hl | hl
      · exact hlines l hl
      · have : l = current := by simpa using hl
        subst this
        rcases hcur with hc | hc
        · exact absurd hc hg.2
        · exact hc
    · rw [if_neg hg]
      refine ih (if current = [] then w else current ++ ' ' :: w) lines hwsS ?_ hlines
      by_cases hce : current = []
      · rw [if_pos hce]
        exact Or.inr (Or.inr hwS)
      · rw [if_neg hce] at hg ⊢
        push_neg at hg
        exact Or.inr (Or.inl (le_of_not_lt (fun hlt => hce (hg hlt))))

/-- C5: for a text node measured with a positive resolved width `w` (used
as `max_width`), the measure pass wraps the text, and every produced line
either has measured string width at most `w`, or is exactly one of the
whitespace-separated words of the text, unmodified on its own line. -/
theorem C5_wrap_width_bound (b : LayoutBox) (pw w : ℚ)
    (htext : b.node.node_type = .text)
    (hw : (b.resolve_width pw).or b.style_width = some w)
    (hpos : 0 < w) :
    (measure_layout_with_parent b pw 842).lines
      = wrap_text_lines b.font_metrics b.font_size w (b.node.text.getD []) ∧
    ∀ line ∈ (measure_layout_with_parent b pw 842).lines,
      measure_text_width line b.font_size b.font_metrics ≤ w ∨
      line ∈ splitWhitespace (b.node.text.getD []) := by
  obtain ⟨x, y, bw, bh, mt, mr, mb, ml, cs, nd, ln, tb⟩ := b
  simp only [LayoutBox.node_mk] at htext hw ⊢
  have hlines : (measure_layout_with_parent
        (LayoutBox.mk x y bw bh mt mr mb ml cs nd ln tb) pw 842).lines
      = wrap_text_lines (LayoutBox.mk x y bw bh mt mr mb ml cs nd ln tb).font_metrics
          (LayoutBox.mk x y bw bh mt mr mb ml cs nd ln tb).font_size w
          (nd.text.getD []) := by
    simp only [measure_layout_with_parent, htext, measure_text, hw]
    rw [if_pos hpos]
    simp [wrap_text]
  refine ⟨hlines, ?_⟩
  rw [hlines]
  intro line hline
  set metrics := (LayoutBox.mk x y bw bh mt mr mb ml cs nd ln tb).font_metrics with hm
  set size := (LayoutBox.mk x y bw bh mt mr mb ml cs nd ln tb).font_size with hs
  have hinv := wrap_loop_invariant metrics size w (splitWhitespace (nd.text.getD []))
    (splitWhitespace (nd.text.getD [])) [] [] (fun v hv => hv) (Or.inl rfl)
    (by intro l hl; cases hl)
  rw [wrap_text_lines] at hline
  rcases hloop : wrap_text_loop metrics size w (splitWhitespace (nd.text.getD [])) [] []
    with ⟨lines0, current0⟩
  rw [hloop] at hinv hline
  simp only at hline
  by_cases hc0 : current0 ≠ []
  · rw [if_pos hc0] at hline
    by_cases hnil : lines0 ++ [current0] = []
    · simp [hnil] at hline
      subst hline
      left
      have : measure_text_width [] size metrics = 0 := by
        simp [measure_text_width, FontMetrics.string_width]
      rw [this]
      exact le_of_lt hpos
    · rw [if_neg hnil] at hline
      rcases List.mem_append.mp hline with hl | hl
      · exact hinv.1 line hl
      · have : line = current0 := by simpa using hl
        subst this
        rcases hinv.2 with hc | hc
        · exact absurd hc hc0
        · exact hc
  · rw [if_neg hc0] at hline
    by_cases hnil : lines0 = []
    · rw [if_pos hnil] at hline
      have : line = ([] : List Char) := by simpa using hline
      subst this
      left
      have : measure_text_width [] size metrics = 0 := by
        simp [measure_text_width, FontMetrics.string_width]
      rw [this]
      exact le_of_lt hpos
    · rw [if_neg hnil] at hline
      exact hinv.1 line hline

/-- C5 witness: a text node of width 50pt containing two words; the
theorem applies and gives the wrapped lines. -/
theorem C5_wrap_width_bound_witness :
    ((LayoutBox.mk 0 0 0 0 0 0 0 0 []
        (.mk .text { width := some (.pt 50) } [] (some ("Hello world".toList))
          none none none none none none) [] none).resolve_width 595).or
      (LayoutBox.mk 0 0 0 0 0 0 0 0 []
        (.mk .text { width := some (.pt 50) } [] (some ("Hello world".toList))
          none none none none none none) [] none).style_width = some 50 ∧
    (0 : ℚ) < 50 ∧
    (measure_layout_with_parent (LayoutBox.mk 0 0 0 0 0 0 0 0 []
        (.mk .text { width := some (.pt 50) } [] (some ("Hello world".toList))
          none none none none none none) [] none) 595 842).lines
      = wrap_text_lines (LayoutBox.mk 0 0 0 0 0 0 0 0 []
          (.mk .text { width := some (.pt 50) } [] (some ("Hello world".toList))
            none none none none none none) [] none).font_metrics
          (LayoutBox.mk 0 0 0 0 0 0 0 0 []
            (.mk .text { width := some (.pt 50) } [] (some ("Hello world".toList))
              none none none none none none) [] none).font_size 50
          (((LayoutBox.mk 0 0 0 0 0 0 0 0 []
            (.mk .text { width := some (.pt 50) } [] (some ("Hello world".toList))
              none none none none none none) [] none).node.text).getD []) := by
  have hw : ((LayoutBox.mk 0 0 0 0 0 0 0 0 []
        (.mk .text { width := some (.pt 50) } [] (some ("Hello world".toList))
          none none none none none none) [] none).resolve_width 595).or
      (LayoutBox.mk 0 0 0 0 0 0 0 0 []
        (.mk .text { width := some (.pt 50) } [] (some ("Hello world".toList))
          none none none none none none) [] none).style_width = some 50 := by
    norm_num [LayoutBox.resolve_width, LayoutBox.style_width, Dimension.resolve]
  exact ⟨hw, by norm_num,
    (C5_wrap_width_bound (LayoutBox.mk 0 0 0 0 0 0 0 0 []
        (.mk .text { width := some (.pt 50) } [] (some ("Hello world".toList))
          none none none none none none) [] none) 595 50 rfl hw (by norm_num)).1⟩

/-- `apply_relative_offset` only moves a box: width and height survive. -/
theorem apply_relative_offset_dims (b : LayoutBox) :
    (apply_relative_offset b).width = b.width ∧ (apply_relative_offset b).height = b.height := by
  obtain ⟨x, y, w, h, mt, mr, mb, ml, cs, nd, ln, tb⟩ := b
  simp [apply_relative_offset]

/-- `place_finish` only moves a box: width and height survive. -/
theorem place_finish_dims (b : LayoutBox) :
    (place_finish b).width = b.width ∧ (place_finish b).height = b.height := by
  rw [place_finish]
  by_cases h : b.is_relative = true
  · simp only [h, if_true]
    exact apply_relative_offset_dims b
  · simp only [h, if_false]
    exact ⟨rfl, rfl⟩

/-- `place_layout` never changes the placed box's own width or height (it
only positions it and rebuilds its children). -/
theorem place_layout_dims (b : LayoutBox) (px py : ℚ) :
    (place_layout b px py).width = b.width ∧ (place_layout b px py).height = b.height := by
  obtain ⟨x, y, w, h, mt, mr, mb, ml, cs, nd, ln, tb⟩ := b
  rw [place_layout]
  have hfin : ∀ p : LayoutBox, p.width = w → p.height = h →
      (place_finish p).width = w ∧ (place_finish p).height = h := by
    intro p hw hh
    rcases place_finish_dims p with ⟨h1, h2⟩
    rw [h1, h2]
    exact ⟨hw, hh⟩
  simp only [LayoutBox.width_mk, LayoutBox.height_mk]
  cases hnt : nd.node_type <;>
    first
      | (rw [place_dispatch]; exact hfin _ rfl rfl)
      | (cases tb <;> rw [place_dispatch] <;>
          first
            | exact hfin _ rfl rfl
            | (split
               · exact hfin _ rfl rfl
               · exact hfin _ rfl rfl))

/-- `place_absolute_child` never changes the child's width or height. -/
theorem place_absolute_child_dims (c : LayoutBox) (ctx : AbsContext) :
    (place_absolute_child c ctx).width = c.width ∧
    (place_absolute_child c ctx).height = c.height := by
  obtain ⟨x, y, w, h, mt, mr, mb, ml, cs, nd, ln, tb⟩ := c
  rw [place_absolute_child]
  rcases nd with ⟨nt, st, nch, ntx, nfs, nfw, nfst, ncw, ncsp, nrsp⟩
  cases nt <;> simp [JsonNode.node_type_mk, JsonNode.style_mk]

/-- `set_width` writes the width and keeps the height. -/
theorem set_width_dims (c : LayoutBox) (v : ℚ) :
    (c.set_width v).width = v ∧ (c.set_width v).height = c.height := by
  obtain ⟨x, y, w, h, mt, mr, mb, ml, cs, nd, ln, tb⟩ := c
  exact ⟨rfl, rfl⟩

/-- `set_height` writes the height and keeps the width. -/
theorem set_height_dims (c : LayoutBox) (v : ℚ) :
    (c.set_height v).width = c.width ∧ (c.set_height v).height = v := by
  obtain ⟨x, y, w, h, mt, mr, mb, ml, cs, nd, ln, tb⟩ := c
  exact ⟨rfl, rfl⟩

/-- Row cross-axis stretch rewrites only the height. -/
theorem stretch_height_width (ca : CrossAlign) (c : LayoutBox) (v : ℚ) :
    (stretch_height ca c v).width = c.width := by
  cases ca <;> simp only [stretch_height] <;>
    first | rfl | exact (set_height_dims c _).1

/-- Column cross-axis stretch rewrites only the width. -/
theorem stretch_width_height (ca : CrossAlign) (c : LayoutBox) (v : ℚ) :
    (stretch_width ca c v).height = c.height := by
  cases ca <;> simp only [stretch_width] <;>
    first | rfl | exact (set_width_dims c _).2

/-- The widths after the `place_row` flow loop: flex children grow by
`flex_unit * flex`, everything else keeps its measured width. -/
theorem place_row_flow_widths (n : ℕ) (base_gap y0 pad_t inner_h flex_unit total_flex : ℚ)
    (ca : CrossAlign) (ctx : AbsContext) :
    ∀ (cs : List LayoutBox) (cursor_x : ℚ) (flow_index : ℕ),
      (place_row_flow cs cursor_x flow_index n base_gap y0 pad_t inner_h flex_unit
          total_flex ca ctx).map LayoutBox.width
        = cs.map (fun c =>
            if c.is_absolute then c.width
            else if c.flex > 0 ∧ total_flex > 0 then c.width + flex_unit * c.flex
            else c.width) := by
  intro cs
  induction cs with
  | nil => intro cx fi; rw [place_row_flow]; rfl
  | cons c rest ih =>
    intro cx fi
    rw [place_row_flow]
    by_cases habs : c.is_absolute
    · simp only [habs, if_true, List.map_cons, ih, (place_absolute_child_dims c ctx).1]
    · simp only [habs, if_false, Bool.false_eq_true, List.map_cons, ih]
      congr 1
      rw [(place_layout_dims _ _ _).1, stretch_height_width]
      by_cases hf : c.flex > 0 ∧ total_flex > 0
      · rw [if_pos hf, if_pos hf]
        exact (set_width_dims c _).1
      · rw [if_neg hf, if_neg hf]

/-- The heights after the `place_column` flow loop: flex children grow by
`flex_unit * flex`, everything else keeps its measured height. -/
theorem place_column_flow_heights (n : ℕ) (base_gap x pad_l inner_w flex_unit total_flex : ℚ)
    (ca : CrossAlign) (ctx : AbsContext) :
    ∀ (cs : List LayoutBox) (cursor_y : ℚ) (flow_index : ℕ),
      (place_column_flow cs cursor_y flow_index n base_gap x pad_l inner_w flex_unit
          total_flex ca ctx).map LayoutBox.height
        = cs.map (fun c =>
            if c.is_absolute then c.height
            else if c.flex > 0 ∧ total_flex > 0 then c.height + flex_unit * c.flex
            else c.height) := by
  intro cs
  induction cs with
  | nil => intro cy fi; rw [place_column_flow]; rfl
  | cons c rest ih =>
    intro cy fi
    rw [place_column_flow]
    by_cases habs : c.is_absolute
    · simp only [habs, if_true, List.map_cons, ih, (place_absolute_child_dims c ctx).2]
    · simp only [habs, if_false, Bool.false_eq_true, List.map_cons, ih]
      congr 1
      rw [(place_layout_dims _ _ _).2, stretch_width_height]
      by_cases hf : c.flex > 0 ∧ total_flex > 0
      · rw [if_pos hf, if_pos hf]
        exact (set_height_dims c _).2
      · rw [if_neg hf, if_neg hf]

/-- C6: for a non-wrapping container whose flow children exist and have
positive total flex, the free main-axis space
`max (inner_main - sum of flow outer mains - gap*(n-1)) 0` is distributed
in place: each flow child with positive flex gains
`free / total_flex * flex` on its main axis, flow children with flex 0 (or
negative) keep their measured main size, and absolute children keep theirs
(they are excluded from `n`, the sums and the distribution — `flow_count`,
`flow_outer_widths_sum`, `flow_outer_heights_sum` and `flow_total_flex`
filter them out). -/
theorem C6_flex_distribution (nd : JsonNode) (bx by0 bw bh : ℚ) (cs : List LayoutBox)
    (hn : flow_count cs ≠ 0)
    (hflex : 0 < flow_total_flex cs) :
    (nd.style.direction.getD .column = .row →
      nd.style.wrap.getD false = false →
      (place_container_children nd bx by0 bw bh cs).map LayoutBox.width
        = cs.map (fun c =>
            if c.is_absolute then c.width
            else if c.flex > 0 then
              c.width
                + max ((bw - (nd.style.padding_trbl).2.2.2 - (nd.style.padding_trbl).2.1)
                    - (flow_outer_widths_sum cs
                      + (nd.style.gap.getD 0) * ((flow_count cs - 1 : ℕ) : ℚ))) 0
                  / flow_total_flex cs * c.flex
            else c.width)) ∧
    (nd.style.direction.getD .column = .column →
      (place_container_children nd bx by0 bw bh cs).map LayoutBox.height
        = cs.map (fun c =>
            if c.is_absolute then c.height
            else if c.flex > 0 then
              c.height
                + max ((bh - (nd.style.padding_trbl).1 - (nd.style.padding_trbl).2.2.1)
                    - (flow_outer_heights_sum cs
                      + (nd.style.gap.getD 0) * ((flow_count cs - 1 : ℕ) : ℚ))) 0
                  / flow_total_flex cs * c.flex
            else c.height)) := by
  constructor
  · intro hdir hwrap
    rw [place_container_children, hdir, hwrap]
    simp only [Bool.false_eq_true, if_false, if_neg hn]
    rw [place_row_flow_widths]
    apply List.map_congr_left
    intro c _
    by_cases habs : c.is_absolute
    · simp [habs]
    · simp only [habs, if_false, Bool.false_eq_true]
      by_cases hf : c.flex > 0
      · rw [if_pos ⟨hf, hflex⟩, if_pos hf, if_pos hflex]
      · rw [if_neg (fun hc => hf hc.1), if_neg hf]
  · intro hdir
    rw [place_container_children, hdir]
    simp only [if_neg hn]
    rw [place_column_flow_heights]
    apply List.map_congr_left
    intro c _
    by_cases habs : c.is_absolute
    · simp [habs]
    · simp only [habs, if_false, Bool.false_eq_true]
      by_cases hf : c.flex > 0
      · rw [if_pos ⟨hf, hflex⟩, if_pos hf, if_pos hflex]
      · rw [if_neg (fun hc => hf hc.1), if_neg hf]

/-- C6 witness: a row view of width 300 with gap 10 and two flow children
of widths 50 and 100 with flex 1 and 2. -/
theorem C6_flex_distribution_witness :
    flow_count
      [LayoutBox.mk 0 0 50 20 0 0 0 0 []
         (.mk .view { flex := some 1 } [] none none none none none none none) [] none,
       LayoutBox.mk 0 0 100 20 0 0 0 0 []
         (.mk .view { flex := some 2 } [] none none none none none none none) [] none] ≠ 0 ∧
    0 < flow_total_flex
      [LayoutBox.mk 0 0 50 20 0 0 0 0 []
         (.mk .view { flex := some 1 } [] none none none none none none none) [] none,
       LayoutBox.mk 0 0 100 20 0 0 0 0 []
         (.mk .view { flex := some 2 } [] none none none none none none none) [] none] ∧
    (place_container_children
        (.mk .view { direction := some .row, gap := some 10 } [] none none none none none none none)
        0 0 300 40
        [LayoutBox.mk 0 0 50 20 0 0 0 0 []
           (.mk .view { flex := some 1 } [] none none none none none none none) [] none,
         LayoutBox.mk 0 0 100 20 0 0 0 0 []
           (.mk .view { flex := some 2 } [] none none none none none none none) [] none]).map
        LayoutBox.width
      = [LayoutBox.mk 0 0 50 20 0 0 0 0 []
           (.mk .view { flex := some 1 } [] none none none none none none none) [] none,
         LayoutBox.mk 0 0 100 20 0 0 0 0 []
           (.mk .view { flex := some 2 } [] none none none none none none none) [] none].map
          (fun c =>
            if c.is_absolute then c.width
            else if c.flex > 0 then
              c.width
                + max ((300
                      - (((JsonNode.mk .view { direction := some .row, gap := some 10 }
                          [] none none none none none none none : JsonNode)).style.padding_trbl).2.2.2
                      - (((JsonNode.mk .view { direction := some .row, gap := some 10 }
                          [] none none none none none none none : JsonNode)).style.padding_trbl).2.1)
                    - (flow_outer_widths_sum
                        [LayoutBox.mk 0 0 50 20 0 0 0 0 []
                           (.mk .view { flex := some 1 } [] none none none none none none none) [] none,
                         LayoutBox.mk 0 0 100 20 0 0 0 0 []
                           (.mk .view { flex := some 2 } [] none none none none none none none) [] none]
                      + (((JsonNode.mk .view { direction := some .row, gap := some 10 }
                          [] none none none none none none none : JsonNode)).style.gap.getD 0)
                        * ((flow_count
                            [LayoutBox.mk 0 0 50 20 0 0 0 0 []
                               (.mk .view { flex := some 1 } [] none none none none none none none) [] none,
                             LayoutBox.mk 0 0 100 20 0 0 0 0 []
                               (.mk .view { flex := some 2 } [] none none none none none none none) [] none]
                            - 1 : ℕ) : ℚ))) 0
                  / flow_total_flex
                      [LayoutBox.mk 0 0 50 20 0 0 0 0 []
                         (.mk .view { flex := some 1 } [] none none none none none none none) [] none,
                       LayoutBox.mk 0 0 100 20 0 0 0 0 []
                         (.mk .view { flex := some 2 } [] none none none none none none none) [] none]
                  * c.flex
            else c.width) := by
  have hn : flow_count
      [LayoutBox.mk 0 0 50 20 0 0 0 0 []
         (.mk .view { flex := some 1 } [] none none none none none none none) [] none,
       LayoutBox.mk 0 0 100 20 0 0 0 0 []
         (.mk .view { flex := some 2 } [] none none none none none none none) [] none] ≠ 0 := by
    norm_num [flow_count, LayoutBox.is_absolute, LayoutBox.position, List.filter]
  have hflex : 0 < flow_total_flex
      [LayoutBox.mk 0 0 50 20 0 0 0 0 []
         (.mk .view { flex := some 1 } [] none none none none none none none) [] none,
       LayoutBox.mk 0 0 100 20 0 0 0 0 []
         (.mk .view { flex := some 2 } [] none none none none none none none) [] none] := by
    norm_num [flow_total_flex, LayoutBox.flex, LayoutBox.is_absolute, LayoutBox.position,
      List.filter]
  exact ⟨hn, hflex,
    (C6_flex_distribution (.mk .view { direction := some .row, gap := some 10 } [] none none none none none none none)
      0 0 300 40
      [LayoutBox.mk 0 0 50 20 0 0 0 0 []
         (.mk .view { flex := some 1 } [] none none none none none none none) [] none,
       LayoutBox.mk 0 0 100 20 0 0 0 0 []
         (.mk .view { flex := some 2 } [] none none none none none none none) [] none]
      hn hflex).1 rfl rfl⟩

/-- Every word produced by the whitespace split is nonempty and contains
no whitespace character. -/
theorem splitWhitespaceAux_words (t : List Char) :
    ∀ (cur : List Char), (∀ ch ∈ cur, ¬ch.isWhitespace) →
      ∀ l ∈ splitWhitespaceAux t cur, l ≠ [] ∧ ∀ ch ∈ l, ¬ch.isWhitespace := by
  induction t with
  | nil =>
    intro cur hcur l hl
    rw [splitWhitespaceAux] at hl
    by_cases hc : cur = []
    · simp [hc] at hl
    · rw [if_neg hc] at hl
      have : l = cur.reverse := by simpa using hl
      subst this
      exact ⟨by simpa using hc, fun ch hch => hcur ch (List.mem_reverse.mp hch)⟩
  | cons c rest ih =>
    intro cur hcur l hl
    rw [splitWhitespaceAux] at hl
    by_cases hw : c.isWhitespace
    · rw [if_pos hw] at hl
      by_cases hc : cur = []
      · rw [if_pos hc] at hl
        exact ih [] (by simp) l hl
      · rw [if_neg hc] at hl
        rcases List.mem_cons.mp hl with hl | hl
        · subst hl
          exact ⟨by simpa using hc, fun ch hch => hcur ch (List.mem_reverse.mp hch)⟩
        · exact ih [] (by simp) l hl
    · rw [if_neg hw] at hl
      refine ih (c :: cur) ?_ l hl
      intro ch hch
      rcases List.mem_cons.mp hch with hch | hch
      · subst hch; exact hw
      · exact hcur ch hch

/-- Appending one word to a nonempty word list appends a space and the
word to the join. -/
theorem joinSpace_append_singleton (l : List (List Char)) (w : List Char) (h : l ≠ []) :
    joinSpace (l ++ [w]) = joinSpace l ++ ' ' :: w := by
  induction l with
  | nil => exact absurd rfl h
  | cons a rest ih =>
    cases rest with
    | nil => rfl
    | cons b rest2 =>
      have : joinSpace ((a :: b :: rest2) ++ [w])
          = a ++ ' ' :: joinSpace ((b :: rest2) ++ [w]) := rfl
      rw [this, ih (by simp)]
      show a ++ ' ' :: (joinSpace (b :: rest2) ++ ' ' :: w)
          = (a ++ ' ' :: joinSpace (b :: rest2)) ++ ' ' :: w
      simp

/-- The greedy wrap loop only regroups the words: the committed lines and
the pending line are single-space joins of consecutive word segments whose
concatenation, followed by the remaining words, is the original word
list. -/
theorem wrap_loop_join (metrics : FontMetrics) (size maxW : ℚ) :
    ∀ (ws : List (List Char)) (c : List Char) (ls : List (List Char))
      (segsL : List (List (List Char))) (curSeg : List (List Char)),
      (∀ word ∈ ws, word ≠ []) →
      ls = segsL.map joinSpace →
      c = joinSpace curSeg →
      (c = [] ↔ curSeg = []) →
      ∃ (segs' : List (List (List Char))) (cur' : List (List Char)),
        (wrap_text_loop metrics size maxW ws c ls).1 = segs'.map joinSpace ∧
        (wrap_text_loop metrics size maxW ws c ls).2 = joinSpace cur' ∧
        ((wrap_text_loop metrics size maxW ws c ls).2 = [] ↔ cur' = []) ∧
        segs'.join ++ cur' = segsL.join ++ curSeg ++ ws := by
  intro ws
  induction ws with
  | nil =>
    intro c ls segsL curSeg _ hls hc hiff
    rw [wrap_text_loop]
    exact ⟨segsL, curSeg, hls, hc, hiff, by simp⟩
  | cons w rest ih =>
    intro c ls segsL curSeg hwords hls hc hiff
    have hwne : w ≠ [] := hwords w (List.mem_cons_self w rest)
    have hrest : ∀ word ∈ rest, word ≠ [] := fun v hv => hwords v (List.mem_cons_of_mem w hv)
    rw [wrap_text_loop]
    by_cases hg : measure_text_width
        (if c = [] then w else c ++ ' ' :: w) size metrics > maxW ∧ c ≠ []
    · rw [if_pos hg]
      obtain ⟨segs', cur', h1, h2, h3, h4⟩ :=
        ih w (ls ++ [c]) (segsL ++ [curSeg]) [w] hrest
          (by rw [hls, hc]; simp) rfl (by simp [hwne])
      refine ⟨segs', cur', h1, h2, h3, ?_⟩
      rw [h4]
      simp [hc]
    · rw [if_neg hg]
      by_cases hce : c = []
      · rw [if_pos hce]
        have hcur : curSeg = [] := hiff.mp hce
        obtain ⟨segs', cur', h1, h2, h3, h4⟩ :=
          ih w ls segsL [w] hrest hls rfl (by simp [hwne])
        refine ⟨segs', cur', h1, h2, h3, ?_⟩
        rw [h4, hcur]
        simp
      · rw [if_neg hce]
        have hcur : curSeg ≠ [] := fun hcontra => hce (hiff.mpr hcontra)
        obtain ⟨segs', cur', h1, h2, h3, h4⟩ :=
          ih (c ++ ' ' :: w) ls segsL (curSeg ++ [w]) hrest hls
            (by rw [hc, joinSpace_append_singleton curSeg w hcur])
            (by simp [hce])
        refine ⟨segs', cur', h1, h2, h3, ?_⟩
        rw [h4]
        simp

/-- C10: text measurement normalizes whitespace only when wrapping.  With
a positive resolved width, the produced lines are single-space joins of
consecutive segments of the whitespace-split word list (so runs of
whitespace collapse and leading/trailing whitespace disappears); with no
resolved width, or a non-positive one, the single produced line is the
original text verbatim.  Each split word is nonempty and whitespace-free. -/
theorem C10_whitespace_normalization (b : LayoutBox) (pw ph : ℚ)
    (htext : b.node.node_type = .text) :
    (∀ w, (b.resolve_width pw).or b.style_width = some w → 0 < w →
      ∃ segs : List (List (List Char)),
        segs.join = splitWhitespace (b.node.text.getD []) ∧
        (measure_layout_with_parent b pw ph).lines = segs.map joinSpace) ∧
    ((b.resolve_width pw).or b.style_width = none →
      (measure_layout_with_parent b pw ph).lines = [b.node.text.getD []]) ∧
    (∀ w, (b.resolve_width pw).or b.style_width = some w → ¬(0 < w) →
      (measure_layout_with_parent b pw ph).lines = [b.node.text.getD []]) ∧
    (∀ word ∈ splitWhitespace (b.node.text.getD []),
      word ≠ [] ∧ ∀ ch ∈ word, ¬ch.isWhitespace) := by
  obtain ⟨x, y, bw, bh, mt, mr, mb, ml, cs, nd, ln, tb⟩ := b
  simp only [LayoutBox.node_mk] at htext ⊢
  refine ⟨?_, ?_, ?_, ?_⟩
  · intro w hw hpos
    have hwords : ∀ word ∈ splitWhitespace (nd.text.getD []), word ≠ [] := by
      intro word hword
      exact (splitWhitespaceAux_words (nd.text.getD []) [] (by simp) word hword).1
    have hinv :=
      wrap_loop_join ((LayoutBox.mk x y bw bh mt mr mb ml cs nd ln tb).font_metrics)
        ((LayoutBox.mk x y bw bh mt mr mb ml cs nd ln tb).font_size) w
        (splitWhitespace (nd.text.getD [])) [] [] [] [] hwords rfl rfl (by simp)
    have hlines : (measure_layout_with_parent
          (LayoutBox.mk x y bw bh mt mr mb ml cs nd ln tb) pw ph).lines
        = wrap_text_lines ((LayoutBox.mk x y bw bh mt mr mb ml cs nd ln tb).font_metrics)
            ((LayoutBox.mk x y bw bh mt mr mb ml cs nd ln tb).font_size) w
            (nd.text.getD []) := by
      simp only [measure_layout_with_parent, htext, measure_text, hw]
      rw [if_pos hpos]
      simp [wrap_text]
    rw [hlines, wrap_text_lines]
    rcases hloop : wrap_text_loop ((LayoutBox.mk x y bw bh mt mr mb ml cs nd ln tb).font_metrics)
        ((LayoutBox.mk x y bw bh mt mr mb ml cs nd ln tb).font_size) w
        (splitWhitespace (nd.text.getD [])) [] [] with ⟨lines0, current0⟩
    rw [hloop] at hinv
    obtain ⟨segs', cur', h1, h2, h3, h4⟩ := hinv
    simp only at h1 h2 h3 h4 ⊢
    by_cases hc0 : current0 ≠ []
    · rw [if_pos hc0]
      have hlne : lines0 ++ [current0] ≠ [] := by simp
      rw [if_neg hlne]
      refine ⟨segs' ++ [cur'], ?_, ?_⟩
      · calc (segs' ++ [cur']).join = segs'.join ++ cur' := by simp
          _ = splitWhitespace (nd.text.getD []) := by simpa using h4
      · rw [h1, h2, List.map_append]
        rfl
    · push_neg at hc0
      have hcur : cur' = [] := h3.mp hc0
      have hred : (if current0 ≠ [] then lines0 ++ [current0] else lines0) = lines0 :=
        if_neg (by simp [hc0])
      rw [hred]
      by_cases hle : lines0 = []
      · rw [if_pos hle]
        refine ⟨[[]], ?_, by simp [joinSpace]⟩
        have : segs'.join = splitWhitespace (nd.text.getD []) := by
          rw [hcur] at h4
          simpa using h4
        rw [hle] at h1
        have hsegs : segs' = [] ∨ joinSpace [] = [] ∧ segs' = [[]] ∨ segs'.map joinSpace ≠ [] := by
          rcases segs' with _ | ⟨s, ss⟩
          · exact Or.inl rfl
          · exact Or.inr (Or.inr (by simp))
        rcases hsegs with hs | hs
        · rw [hs] at this
          simp [← this, joinSpace]
        · rcases hs with ⟨_, hs⟩ | hs
          · rw [hs] at this
            simp [← this, joinSpace]
          · exact absurd h1.symm hs
      · rw [if_neg hle]
        refine ⟨segs', ?_, h1⟩
        rw [hcur] at h4
        simpa using h4
  · intro hnone
    simp only [measure_layout_with_parent, htext, measure_text, hnone]
    simp
  · intro w hw hneg
    simp only [measure_layout_with_parent, htext, measure_text, hw]
    rw [if_neg hneg]
    simp
  · intro word hword
    exact splitWhitespaceAux_words (nd.text.getD []) [] (by simp) word hword

/-- C10 witness: a text node of width 80pt whose text has a run of three
spaces; the theorem applies and yields the segment decomposition. -/
theorem C10_whitespace_normalization_witness :
    ((LayoutBox.mk 0 0 0 0 0 0 0 0 []
        (.mk .text { width := some (.pt 80) } [] (some ("Hi   there".toList))
          none none none none none none) [] none).resolve_width 595).or
      (LayoutBox.mk 0 0 0 0 0 0 0 0 []
        (.mk .text { width := some (.pt 80) } [] (some ("Hi   there".toList))
          none none none none none none) [] none).style_width = some 80 ∧
    (0 : ℚ) < 80 ∧
    ∃ segs : List (List (List Char)),
      segs.join = splitWhitespace ((LayoutBox.mk 0 0 0 0 0 0 0 0 []
          (.mk .text { width := some (.pt 80) } [] (some ("Hi   there".toList))
            none none none none none none) [] none).node.text.getD []) ∧
      (measure_layout_with_parent (LayoutBox.mk 0 0 0 0 0 0 0 0 []
          (.mk .text { width := some (.pt 80) } [] (some ("Hi   there".toList))
            none none none none none none) [] none) 595 842).lines
        = segs.map joinSpace := by
  have hw : ((LayoutBox.mk 0 0 0 0 0 0 0 0 []
        (.mk .text { width := some (.pt 80) } [] (some ("Hi   there".toList))
          none none none none none none) [] none).resolve_width 595).or
      (LayoutBox.mk 0 0 0 0 0 0 0 0 []
        (.mk .text { width := some (.pt 80) } [] (some ("Hi   there".toList))
          none none none none none none) [] none).style_width = some 80 := by
    norm_num [LayoutBox.resolve_width, LayoutBox.style_width, Dimension.resolve]
  exact ⟨hw, by norm_num,
    (C10_whitespace_normalization (LayoutBox.mk 0 0 0 0 0 0 0 0 []
        (.mk .text { width := some (.pt 80) } [] (some ("Hi   there".toList))
          none none none none none none) [] none) 595 842 rfl).1 80 hw (by norm_num)⟩

/-- The place-pass line grouping always yields at least one line. -/
theorem wrap_runs_go_ne_nil (gap maxW : ℚ) :
    ∀ (cs : List LayoutBox) (cur : List LayoutBox) (lw : ℚ),
      wrap_runs_go gap maxW cs cur lw ≠ [] := by
  intro cs
  induction cs with
  | nil => intro cur lw; rw [wrap_runs_go]; simp
  | cons c rest ih =>
    intro cur lw
    rw [wrap_runs_go]
    by_cases h0 : lw = 0
    · rw [if_pos h0]; exact ih _ _
    · rw [if_neg h0]
      by_cases hgt : lw + gap + c.outer_width > maxW
      · rw [if_pos hgt]; simp
      · rw [if_neg hgt]; exact ih _ _

/-- An empty line has total width 0. -/
theorem line_total_width_nil (gap : ℚ) : line_total_width [] gap = 0 := by
  simp [line_total_width]

/-- A one-child line has the child's outer width. -/
theorem line_total_width_singleton (c : LayoutBox) (gap : ℚ) :
    line_total_width [c] gap = c.outer_width := by
  simp [line_total_width]

/-- Appending a child to a nonempty line adds a gap and its outer width. -/
theorem line_total_width_append (l : List LayoutBox) (c : LayoutBox) (gap : ℚ)
    (h : l ≠ []) :
    line_total_width (l ++ [c]) gap = line_total_width l gap + gap + c.outer_width := by
  have hlen : 1 ≤ l.length := List.length_pos.mpr h
  simp only [line_total_width, List.map_append, List.sum_append, List.length_append,
    List.map_cons, List.map_nil, List.sum_cons, List.sum_nil, List.length_cons,
    List.length_nil]
  have hc1 : ((l.length + 1 - 1 : ℕ) : ℚ) = (l.length : ℚ) := by
    push_cast
    ring
  have hc2 : ((l.length - 1 : ℕ) : ℚ) = (l.length : ℚ) - 1 := by
    push_cast [hlen]
    ring
  rw [hc1, hc2]
  ring

/-- A one-child line has the child's outer height (when nonnegative). -/
theorem line_max_height_singleton (c : LayoutBox) (h : 0 ≤ c.outer_height) :
    line_max_height [c] = c.outer_height := by
  simp [line_max_height, max_eq_right h]

/-- Appending a child maxes its outer height into the line height. -/
theorem line_max_height_append (l : List LayoutBox) (c : LayoutBox) :
    line_max_height (l ++ [c]) = max (line_max_height l) c.outer_height := by
  simp only [line_max_height, List.map_append, List.map_cons, List.map_nil]
  rw [List.foldl_concat]

/-- Loop invariant tying `measure_wrapping_row` to the place-pass grouping:
from a coherent state, the measure loop's totals are the width maximum and
height sum (plus gaps) of the lines the place-pass grouping produces from
here, provided every remaining child is a flow child of positive outer
width and nonnegative outer height and the gap is nonnegative. -/
theorem measure_go_runs (gap maxW : ℚ) (hgap : 0 ≤ gap) :
    ∀ (cs : List LayoutBox) (cur : List LayoutBox) (lw lh tw th : ℚ),
      (∀ c ∈ cs, c.is_absolute = false ∧ 0 < c.outer_width ∧ 0 ≤ c.outer_height) →
      lw = line_total_width cur.reverse gap →
      lh = line_max_height cur.reverse →
      0 ≤ lw →
      (lw = 0 → cur = []) →
      measure_wrapping_row_go gap maxW cs tw th lw lh
        = (((wrap_runs_go gap maxW cs cur lw).map
              (fun l => line_total_width l gap)).foldl max tw,
           th + ((wrap_runs_go gap maxW cs cur lw).map line_max_height).sum
              + gap * (((wrap_runs_go gap maxW cs cur lw).length - 1 : ℕ) : ℚ)) := by
  intro cs
  induction cs with
  | nil =>
    intro cur lw lh tw th _ hlw hlh _ _
    rw [measure_wrapping_row_go, wrap_runs_go]
    simp [hlw, hlh]
  | cons c rest ih =>
    intro cur lw lh tw th hcs hlw hlh hnn hzero
    obtain ⟨habs, hwpos, hhnn⟩ := hcs c (List.mem_cons_self c rest)
    have hrest : ∀ x ∈ rest, x.is_absolute = false ∧ 0 < x.outer_width ∧ 0 ≤ x.outer_height :=
      fun x hx => hcs x (List.mem_cons_of_mem c hx)
    rw [measure_wrapping_row_go, wrap_runs_go]
    rw [if_neg (by simp [habs])]
    by_cases h0 : lw = 0
    · rw [if_pos h0, if_pos h0]
      have hc0 : cur = [] := hzero h0
      subst hc0
      exact ih [c] c.outer_width c.outer_height tw th hrest
        (by simp [line_total_width_singleton])
        (by simp [line_max_height_singleton c hhnn])
        (le_of_lt hwpos)
        (fun hcontra => absurd hcontra.symm (ne_of_lt hwpos))
    · rw [if_neg h0, if_neg h0]
      have hcur : cur ≠ [] := by
        intro hc
        exact h0 (by simp [hlw, hc, line_total_width_nil])
      by_cases hgt : lw + gap + c.outer_width > maxW
      · rw [if_pos hgt, if_pos hgt]
        rw [ih [c] c.outer_width c.outer_height (max tw lw) (th + lh + gap) hrest
          (by simp [line_total_width_singleton])
          (by simp [line_max_height_singleton c hhnn])
          (le_of_lt hwpos)
          (fun hcontra => absurd hcontra.symm (ne_of_lt hwpos))]
        have hne := wrap_runs_go_ne_nil gap maxW rest [c] c.outer_width
        have hlen : 1 ≤ (wrap_runs_go gap maxW rest [c] c.outer_width).length :=
          List.length_pos.mpr hne
        have hcast2 : (((wrap_runs_go gap maxW rest [c] c.outer_width).length - 1 : ℕ) : ℚ)
            = ((wrap_runs_go gap maxW rest [c] c.outer_width).length : ℚ) - 1 := by
          push_cast [hlen]
          ring
        rw [Prod.mk.injEq]
        constructor
        · simp only [List.map_cons, List.foldl_cons, hlw]
        · simp only [List.map_cons, List.sum_cons, List.length_cons, Nat.add_sub_cancel,
            hlh, hcast2]
          ring
      · rw [if_neg hgt, if_neg hgt]
        have hlwpos : 0 < lw := lt_of_le_of_ne hnn (Ne.symm h0)
        exact ih (c :: cur) (lw + gap + c.outer_width) (max lh c.outer_height) tw th hrest
          (by
            simp only [List.reverse_cons]
            rw [line_total_width_append cur.reverse c gap (by simpa using hcur), ← hlw])
          (by
            simp only [List.reverse_cons]
            rw [line_max_height_append, ← hlh])
          (by linarith)
          (fun hcontra => absurd hcontra (ne_of_gt (by linarith)))

/-- C8 (amended): when NO child of the wrapping row is absolute (and the
gap is nonnegative, every outer width positive and every outer height
nonnegative), the place pass groups the children into lines identically to
the measure pass: the measure pass's (width, height) result is exactly the
maximum line width and the gap-separated sum of line heights of the place
pass's grouping `wrap_runs`.  (The claim as frozen asserts this with
absolute children 'treated the same way in both'; the counterexample shows
`measure_wrapping_row` skips an absolute child while `place_wrapping_row`
inserts it into a line, changing the grouping of the flow children.) -/
theorem C8_wrap_grouping_amended (cs : List LayoutBox) (gap maxW : ℚ)
    (hgap : 0 ≤ gap)
    (habs : ∀ c ∈ cs, c.is_absolute = false)
    (hw : ∀ c ∈ cs, 0 < c.outer_width)
    (hh : ∀ c ∈ cs, 0 ≤ c.outer_height) :
    cs.filter (fun c => !c.is_absolute) = cs ∧
    measure_wrapping_row cs gap maxW
      = (((wrap_runs cs gap maxW).map (fun l => line_total_width l gap)).foldl max 0,
         ((wrap_runs cs gap maxW).map line_max_height).sum
            + gap * (((wrap_runs cs gap maxW).length - 1 : ℕ) : ℚ)) := by
  constructor
  · rw [List.filter_eq_self]
    intro c hc
    simp [habs c hc]
  · rw [measure_wrapping_row, wrap_runs]
    have h := measure_go_runs gap maxW hgap cs [] 0 0 0 0
      (fun c hc => ⟨habs c hc, hw c hc, hh c hc⟩)
      (by simp [line_total_width_nil])
      (by simp [line_max_height])
      le_rfl
      (fun _ => rfl)
    rw [h]
    simp

set_option maxHeartbeats 1000000 in
/-- C8 counterexample to the claim as frozen: a wrapping row of width 130
with an absolute 60-wide child followed by two flow children of width 60.
The place pass groups lines as [[abs, flow1], [flow2]] (the absolute child
fills the first line), the measure pass groups the flow children onto one
line: its height total is 30, not the 50 the place grouping yields. -/
theorem C8_wrap_grouping_counterexample :
    (LayoutBox.mk 0 0 60 10 0 0 0 0 []
        (.mk .view { position := some .absolute } [] none none none none none none none)
        [] none).is_absolute = true ∧
    wrap_runs
        [LayoutBox.mk 0 0 60 10 0 0 0 0 []
           (.mk .view { position := some .absolute } [] none none none none none none none)
           [] none,
         LayoutBox.mk 0 0 60 20 0 0 0 0 []
           (.mk .view {} [] none none none none none none none) [] none,
         LayoutBox.mk 0 0 60 30 0 0 0 0 []
           (.mk .view {} [] none none none none none none none) [] none] 0 130
      = [[LayoutBox.mk 0 0 60 10 0 0 0 0 []
            (.mk .view { position := some .absolute } [] none none none none none none none)
            [] none,
          LayoutBox.mk 0 0 60 20 0 0 0 0 []
            (.mk .view {} [] none none none none none none none) [] none],
         [LayoutBox.mk 0 0 60 30 0 0 0 0 []
            (.mk .view {} [] none none none none none none none) [] none]] ∧
    wrap_runs
        ([LayoutBox.mk 0 0 60 10 0 0 0 0 []
            (.mk .view { position := some .absolute } [] none none none none none none none)
            [] none,
          LayoutBox.mk 0 0 60 20 0 0 0 0 []
            (.mk .view {} [] none none none none none none none) [] none,
          LayoutBox.mk 0 0 60 30 0 0 0 0 []
            (.mk .view {} [] none none none none none none none) [] none].filter
          (fun c => !c.is_absolute)) 0 130
      = [[LayoutBox.mk 0 0 60 20 0 0 0 0 []
            (.mk .view {} [] none none none none none none none) [] none,
          LayoutBox.mk 0 0 60 30 0 0 0 0 []
            (.mk .view {} [] none none none none none none none) [] none]] ∧
    measure_wrapping_row
        [LayoutBox.mk 0 0 60 10 0 0 0 0 []
           (.mk .view { position := some .absolute } [] none none none none none none none)
           [] none,
         LayoutBox.mk 0 0 60 20 0 0 0 0 []
           (.mk .view {} [] none none none none none none none) [] none,
         LayoutBox.mk 0 0 60 30 0 0 0 0 []
           (.mk .view {} [] none none none none none none none) [] none] 0 130 = (120, 30) ∧
    ¬(measure_wrapping_row
        [LayoutBox.mk 0 0 60 10 0 0 0 0 []
           (.mk .view { position := some .absolute } [] none none none none none none none)
           [] none,
         LayoutBox.mk 0 0 60 20 0 0 0 0 []
           (.mk .view {} [] none none none none none none none) [] none,
         LayoutBox.mk 0 0 60 30 0 0 0 0 []
           (.mk .view {} [] none none none none none none none) [] none] 0 130
      = (((wrap_runs
            [LayoutBox.mk 0 0 60 10 0 0 0 0 []
               (.mk .view { position := some .absolute } [] none none none none none none none)
               [] none,
             LayoutBox.mk 0 0 60 20 0 0 0 0 []
               (.mk .view {} [] none none none none none none none) [] none,
             LayoutBox.mk 0 0 60 30 0 0 0 0 []
               (.mk .view {} [] none none none none none none none) [] none] 0 130).map
            (fun l => line_total_width l 0)).foldl max 0,
         ((wrap_runs
            [LayoutBox.mk 0 0 60 10 0 0 0 0 []
               (.mk .view { position := some .absolute } [] none none none none none none none)
               [] none,
             LayoutBox.mk 0 0 60 20 0 0 0 0 []
               (.mk .view {} [] none none none none none none none) [] none,
             LayoutBox.mk 0 0 60 30 0 0 0 0 []
               (.mk .view {} [] none none none none none none none) [] none] 0 130).map
            line_max_height).sum
          + 0 * (((wrap_runs
              [LayoutBox.mk 0 0 60 10 0 0 0 0 []
                 (.mk .view { position := some .absolute } [] none none none none none none none)
                 [] none,
               LayoutBox.mk 0 0 60 20 0 0 0 0 []
                 (.mk .view {} [] none none none none none none none) [] none,
               LayoutBox.mk 0 0 60 30 0 0 0 0 []
                 (.mk .view {} [] none none none none none none none) [] none] 0 130).length
              - 1 : ℕ) : ℚ))) := by
  have hruns : wrap_runs
        [LayoutBox.mk 0 0 60 10 0 0 0 0 []
           (.mk .view { position := some .absolute } [] none none none none none none none)
           [] none,
         LayoutBox.mk 0 0 60 20 0 0 0 0 []
           (.mk .view {} [] none none none none none none none) [] none,
         LayoutBox.mk 0 0 60 30 0 0 0 0 []
           (.mk .view {} [] none none none none none none none) [] none] 0 130
      = [[LayoutBox.mk 0 0 60 10 0 0 0 0 []
            (.mk .view { position := some .absolute } [] none none none none none none none)
            [] none,
          LayoutBox.mk 0 0 60 20 0 0 0 0 []
            (.mk .view {} [] none none none none none none none) [] none],
         [LayoutBox.mk 0 0 60 30 0 0 0 0 []
            (.mk .view {} [] none none none none none none none) [] none]] := by
    norm_num [wrap_runs, wrap_runs_go, LayoutBox.outer_width]
  refine ⟨rfl, hruns, ?_, ?_, ?_⟩
  · norm_num [wrap_runs, wrap_runs_go, LayoutBox.outer_width, LayoutBox.is_absolute,
      LayoutBox.position, List.filter]
  · norm_num [measure_wrapping_row, measure_wrapping_row_go, LayoutBox.outer_width,
      LayoutBox.outer_height, LayoutBox.is_absolute, LayoutBox.position]
  · rw [hruns]
    norm_num [measure_wrapping_row, measure_wrapping_row_go, LayoutBox.outer_width,
      LayoutBox.outer_height, LayoutBox.is_absolute, LayoutBox.position,
      line_total_width, line_max_height, Prod.ext_iff]

/-- C8 witness: two flow children of width 60 in a wrapping row of width
100 — the amended theorem applies and the measure result equals the place
grouping's totals. -/
theorem C8_wrap_grouping_amended_witness :
    (0 : ℚ) ≤ 0 ∧
    (∀ c ∈ [LayoutBox.mk 0 0 60 20 0 0 0 0 []
              (.mk .view {} [] none none none none none none none) [] none,
            LayoutBox.mk 0 0 60 30 0 0 0 0 []
              (.mk .view {} [] none none none none none none none) [] none],
      c.is_absolute = false) ∧
    measure_wrapping_row
        [LayoutBox.mk 0 0 60 20 0 0 0 0 []
           (.mk .view {} [] none none none none none none none) [] none,
         LayoutBox.mk 0 0 60 30 0 0 0 0 []
           (.mk .view {} [] none none none none none none none) [] none] 0 100
      = (((wrap_runs
            [LayoutBox.mk 0 0 60 20 0 0 0 0 []
               (.mk .view {} [] none none none none none none none) [] none,
             LayoutBox.mk 0 0 60 30 0 0 0 0 []
               (.mk .view {} [] none none none none none none none) [] none] 0 100).map
            (fun l => line_total_width l 0)).foldl max 0,
         ((wrap_runs
            [LayoutBox.mk 0 0 60 20 0 0 0 0 []
               (.mk .view {} [] none none none none none none none) [] none,
             LayoutBox.mk 0 0 60 30 0 0 0 0 []
               (.mk .view {} [] none none none none none none none) [] none] 0 100).map
            line_max_height).sum
          + 0 * (((wrap_runs
              [LayoutBox.mk 0 0 60 20 0 0 0 0 []
                 (.mk .view {} [] none none none none none none none) [] none,
               LayoutBox.mk 0 0 60 30 0 0 0 0 []
                 (.mk .view {} [] none none none none none none none) [] none] 0 100).length
              - 1 : ℕ) : ℚ)) := by
  have habs : ∀ c ∈ [LayoutBox.mk 0 0 60 20 0 0 0 0 []
        (.mk .view {} [] none none none none none none none) [] none,
      LayoutBox.mk 0 0 60 30 0 0 0 0 []
        (.mk .view {} [] none none none none none none none) [] none],
      c.is_absolute = false := by
    intro c hc
    rcases List.mem_cons.mp hc with hc | hc
    · subst hc; rfl
    · rcases List.mem_cons.mp hc with hc | hc
      · subst hc; rfl
      · cases hc
  have hw : ∀ c ∈ [LayoutBox.mk 0 0 60 20 0 0 0 0 []
        (.mk .view {} [] none none none none none none none) [] none,
      LayoutBox.mk 0 0 60 30 0 0 0 0 []
        (.mk .view {} [] none none none none none none none) [] none],
      0 < c.outer_width := by
    intro c hc
    rcases List.mem_cons.mp hc with hc | hc
    · subst hc; norm_num [LayoutBox.outer_width]
    · rcases List.mem_cons.mp hc with hc | hc
      · subst hc; norm_num [LayoutBox.outer_width]
      · cases hc
  have hh : ∀ c ∈ [LayoutBox.mk 0 0 60 20 0 0 0 0 []
        (.mk .view {} [] none none none none none none none) [] none,
      LayoutBox.mk 0 0 60 30 0 0 0 0 []
        (.mk .view {} [] none none none none none none none) [] none],
      0 ≤ c.outer_height := by
    intro c hc
    rcases List.mem_cons.mp hc with hc | hc
    · subst hc; norm_num [LayoutBox.outer_height]
    · rcases List.mem_cons.mp hc with hc | hc
      · subst hc; norm_num [LayoutBox.outer_height]
      · cases hc
  exact ⟨le_rfl, habs,
    (C8_wrap_grouping_amended
      [LayoutBox.mk 0 0 60 20 0 0 0 0 []
         (.mk .view {} [] none none none none none none none) [] none,
       LayoutBox.mk 0 0 60 30 0 0 0 0 []
         (.mk .view {} [] none none none none none none none) [] none] 0 100
      le_rfl habs hw hh).2⟩


theorem BoxListWf_mem : ∀ (cs : List LayoutBox), BoxListWf cs → ∀ c ∈ cs, BoxWf c := by
  intro cs
  induction cs with
  | nil => intro _ c hc; cases hc
  | cons c rest ih =>
    intro hwf x hx
    rw [BoxListWf] at hwf
    rcases List.mem_cons.mp hx with hx | hx
    · subst hx; exact hwf.1
    · exact ih hwf.2 x hx

theorem dim_resolve_nonneg (d : Dimension) (hd : dim_wf d) (base : ℚ) :
    0 ≤ d.resolve base := by
  cases d with
  | pt v => exact hd
  | percent p => exact absurd hd (by rw [dim_wf]; simp)

theorem opt_getD_nonneg (o : Option ℚ) (ho : opt_nonneg o) (d : ℚ) (hd : 0 ≤ d) :
    0 ≤ o.getD d := by
  cases o with
  | none => exact hd
  | some v => exact ho v rfl

theorem padding_trbl_nonneg (s : Style) (hs : style_wf s) :
    0 ≤ (s.padding_trbl).1 ∧ 0 ≤ (s.padding_trbl).2.1 ∧
    0 ≤ (s.padding_trbl).2.2.1 ∧ 0 ≤ (s.padding_trbl).2.2.2 := by
  obtain ⟨_, _, _, _, _, _, hp, hpt, hpr, hpb, hpl, _, _, _⟩ := hs
  have hbase : 0 ≤ s.padding.getD 0 := opt_getD_nonneg s.padding hp 0 le_rfl
  exact ⟨opt_getD_nonneg _ hpt _ hbase, opt_getD_nonneg _ hpr _ hbase,
    opt_getD_nonneg _ hpb _ hbase, opt_getD_nonneg _ hpl _ hbase⟩

theorem apply_min_max_w_nonneg (s : Style) (w h pw ph : ℚ)
    (hminw : opt_dim_wf s.min_width) (hmaxw : opt_dim_wf s.max_width) (hw : 0 ≤ w) :
    0 ≤ (apply_min_max s w h pw ph).1 := by
  rcases h1 : s.min_width with _ | d1 <;> rcases h2 : s.max_width with _ | d2 <;>
    simp only [apply_min_max, h1, h2]
  · exact hw
  · exact le_min hw (dim_resolve_nonneg d2 (hmaxw d2 h2) pw)
  · exact le_max_of_le_left hw
  · exact le_min (le_max_of_le_left hw) (dim_resolve_nonneg d2 (hmaxw d2 h2) pw)

theorem apply_min_max_h_nonneg (s : Style) (w h pw ph : ℚ)
    (hminh : opt_dim_wf s.min_height) (hmaxh : opt_dim_wf s.max_height) (hh : 0 ≤ h) :
    0 ≤ (apply_min_max s w h pw ph).2 := by
  rcases h3 : s.min_height with _ | d3 <;> rcases h4 : s.max_height with _ | d4 <;>
    simp only [apply_min_max, h3, h4]
  · exact hh
  · exact le_min hh (dim_resolve_nonneg d4 (hmaxh d4 h4) ph)
  · exact le_max_of_le_left hh
  · exact le_min (le_max_of_le_left hh) (dim_resolve_nonneg d4 (hmaxh d4 h4) ph)

theorem font_size_nonneg (b : LayoutBox) (hs : opt_nonneg b.node.style.font_size)
    (hn : opt_nonneg b.node.font_size) : 0 ≤ b.font_size := by
  rw [LayoutBox.font_size]
  rcases h1 : b.node.style.font_size with _ | v
  · rcases h2 : b.node.font_size with _ | v2
    · simp [Option.or, h1, h2]
    · simpa [Option.or, h1, h2] using hn v2 h2
  · simpa [Option.or, h1] using hs v h1

theorem line_height_multiplier_nonneg (b : LayoutBox)
    (hs : opt_nonneg b.node.style.line_height) : 0 ≤ b.line_height_multiplier := by
  rw [LayoutBox.line_height_multiplier]
  exact opt_getD_nonneg _ hs _ (by norm_num)

theorem string_width_nonneg (m : FontMetrics) (text : List Char) (size : ℚ)
    (hsize : 0 ≤ size) : 0 ≤ m.string_width text size := by
  rw [FontMetrics.string_width]
  exact mul_nonneg (div_nonneg (by positivity) (by positivity)) hsize

theorem wrap_text_lines_length (metrics : FontMetrics) (size maxW : ℚ) (text : List Char) :
    1 ≤ (wrap_text_lines metrics size maxW text).length := by
  rw [wrap_text_lines]
  rcases wrap_text_loop metrics size maxW (splitWhitespace text) [] [] with ⟨lines0, current0⟩
  simp only
  by_cases hc : current0 ≠ []
  · rw [if_pos hc, if_neg (by simp)]
    simp
  · rw [if_neg hc]
    by_cases hl : lines0 = []
    · rw [if_pos hl]; simp
    · rw [if_neg hl]
      exact List.length_pos.mpr hl

theorem measure_column_go_nonneg (gap : ℚ) (hgap : 0 ≤ gap) :
    ∀ (cs : List LayoutBox) (w h0 : ℚ) (fi : ℕ), 0 ≤ w → 0 ≤ h0 →
      (∀ c ∈ cs, 0 ≤ c.outer_width ∧ 0 ≤ c.outer_height) →
      0 ≤ (measure_column_go gap cs w h0 fi).1 ∧ 0 ≤ (measure_column_go gap cs w h0 fi).2 := by
  intro cs
  induction cs with
  | nil => intro w h0 fi hw hh _; exact ⟨hw, hh⟩
  | cons c rest ih =>
    intro w h0 fi hw hh hcs
    obtain ⟨hcw, hch⟩ := hcs c (List.mem_cons_self c rest)
    have hrest := fun x hx => hcs x (List.mem_cons_of_mem c hx)
    rw [measure_column_go]
    by_cases habs : c.is_absolute = true
    · rw [if_pos habs]; exact ih w h0 fi hw hh hrest
    · rw [if_neg habs]
      refine ih _ _ _ (le_max_of_le_left hw) ?_ hrest
      have : (0 : ℚ) ≤ (if fi > 0 then gap else 0) := by
        split
        · exact hgap
        · exact le_rfl
      linarith

theorem measure_row_go_nonneg (gap : ℚ) (hgap : 0 ≤ gap) :
    ∀ (cs : List LayoutBox) (w h0 : ℚ) (fi : ℕ), 0 ≤ w → 0 ≤ h0 →
      (∀ c ∈ cs, 0 ≤ c.outer_width ∧ 0 ≤ c.outer_height) →
      0 ≤ (measure_row_go gap cs w h0 fi).1 ∧ 0 ≤ (measure_row_go gap cs w h0 fi).2 := by
  intro cs
  induction cs with
  | nil => intro w h0 fi hw hh _; exact ⟨hw, hh⟩
  | cons c rest ih =>
    intro w h0 fi hw hh hcs
    obtain ⟨hcw, hch⟩ := hcs c (List.mem_cons_self c rest)
    have hrest := fun x hx => hcs x (List.mem_cons_of_mem c hx)
    rw [measure_row_go]
    by_cases habs : c.is_absolute = true
    · rw [if_pos habs]; exact ih w h0 fi hw hh hrest
    · rw [if_neg habs]
      refine ih _ _ _ ?_ (le_max_of_le_left hh) hrest
      have : (0 : ℚ) ≤ (if fi > 0 then gap else 0) := by
        split
        · exact hgap
        · exact le_rfl
      linarith

theorem measure_wrapping_row_go_nonneg (gap maxW : ℚ) (hgap : 0 ≤ gap) :
    ∀ (cs : List LayoutBox) (tw th lw lh : ℚ), 0 ≤ tw → 0 ≤ th → 0 ≤ lw → 0 ≤ lh →
      (∀ c ∈ cs, 0 ≤ c.outer_width ∧ 0 ≤ c.outer_height) →
      0 ≤ (measure_wrapping_row_go gap maxW cs tw th lw lh).1 ∧
      0 ≤ (measure_wrapping_row_go gap maxW cs tw th lw lh).2 := by
  intro cs
  induction cs with
  | nil =>
    intro tw th lw lh htw hth hlw hlh _
    rw [measure_wrapping_row_go]
    exact ⟨le_max_of_le_left htw, by simp only; linarith⟩
  | cons c rest ih =>
    intro tw th lw lh htw hth hlw hlh hcs
    obtain ⟨hcw, hch⟩ := hcs c (List.mem_cons_self c rest)
    have hrest := fun x hx => hcs x (List.mem_cons_of_mem c hx)
    rw [measure_wrapping_row_go]
    by_cases habs : c.is_absolute = true
    · rw [if_pos habs]; exact ih tw th lw lh htw hth hlw hlh hrest
    · rw [if_neg habs]
      by_cases h0 : lw = 0
      · rw [if_pos h0]; exact ih tw th _ _ htw hth hcw hch hrest
      · rw [if_neg h0]
        by_cases hgt : lw + gap + c.outer_width > maxW
        · rw [if_pos hgt]
          exact ih _ _ _ _ (le_max_of_le_left htw) (by linarith) hcw hch hrest
        · rw [if_neg hgt]
          exact ih tw th _ _ htw hth (by linarith) (le_max_of_le_left hlh) hrest

theorem slice_sum_nonneg (l : List ℚ) (h : ∀ v ∈ l, 0 ≤ v) (s k : ℕ) :
    0 ≤ slice_sum l s k := by
  rw [slice_sum]
  refine List.sum_nonneg ?_
  intro v hv
  exact h v (((List.take_sublist _ _).trans (List.drop_sublist _ _)).mem hv)

theorem declared_col_widths_nonneg (declared : Option (List Dimension)) (num_cols : ℕ)
    (inner : ℚ) (hd : opt_dims_wf declared) :
    ∀ v ∈ declared_col_widths declared num_cols inner, 0 ≤ v := by
  intro v hv
  rcases declared with _ | ds
  · rw [declared_col_widths] at hv
    rw [List.eq_of_mem_replicate hv]
  · rw [declared_col_widths] at hv
    obtain ⟨i, _, hi⟩ := List.mem_map.mp hv
    rcases hgd : ds.get? i with _ | d
    · rw [hgd] at hi
      rw [← hi]
    · rw [hgd] at hi
      rw [← hi]
      exact dim_resolve_nonneg d (hd ds rfl d (List.get?_mem hgd)) inner

theorem compute_col_widths_nonneg (declared : Option (List Dimension)) (num_cols : ℕ)
    (inner col_gap : ℚ) (hd : opt_dims_wf declared) :
    ∀ v ∈ compute_col_widths declared num_cols inner col_gap, 0 ≤ v := by
  intro v hv
  rw [compute_col_widths] at hv
  obtain ⟨w, hwmem, hw⟩ := List.mem_map.mp hv
  by_cases h0 : w = 0
  · rw [if_pos h0] at hw
    rw [← hw]
    split
    · exact div_nonneg (le_max_right _ _) (by positivity)
    · exact le_rfl
  · rw [if_neg h0] at hw
    rw [← hw]
    exact declared_col_widths_nonneg declared num_cols inner hd w hwmem

theorem countLeadingActive_zeros (l : List ℕ) (h : ∀ a ∈ l, a = 0) :
    countLeadingActive l = 0 := by
  cases l with
  | nil => rfl
  | cons a rest =>
    rw [countLeadingActive]
    rw [if_neg (by simp [h a (List.mem_cons_self a rest)])]

theorem set_entries_nonneg (l : List ℚ) (i : ℕ) (v : ℚ) (hl : ∀ x ∈ l, 0 ≤ x)
    (hv : 0 ≤ v) : ∀ x ∈ l.set i v, 0 ≤ x := by
  intro x hx
  rcases List.mem_or_eq_of_mem_set hx with hx | hx
  · exact hl x hx
  · rw [hx]; exact hv

theorem measure_text_frame (b : LayoutBox) (pw : ℚ) :
    (measure_text b pw).node = b.node ∧
    (measure_text b pw).margin_top = b.margin_top ∧
    (measure_text b pw).margin_right = b.margin_right ∧
    (measure_text b pw).margin_bottom = b.margin_bottom ∧
    (measure_text b pw).margin_left = b.margin_left := by
  obtain ⟨x, y, w, h, mt, mr, mb, ml, cs, nd, ln, tb⟩ := b
  rcases hmw : ((LayoutBox.mk x y w h mt mr mb ml cs nd ln tb).resolve_width pw).or
      (LayoutBox.mk x y w h mt mr mb ml cs nd ln tb).style_width with _ | wv <;>
    simp only [measure_text, hmw]
  · simp
  · split
    · simp [wrap_text]
    · simp

theorem measure_image_frame (b : LayoutBox) (pw ph : ℚ) :
    (measure_image b pw ph).node = b.node ∧
    (measure_image b pw ph).margin_top = b.margin_top ∧
    (measure_image b pw ph).margin_right = b.margin_right ∧
    (measure_image b pw ph).margin_bottom = b.margin_bottom ∧
    (measure_image b pw ph).margin_left = b.margin_left := by
  obtain ⟨x, y, w, h, mt, mr, mb, ml, cs, nd, ln, tb⟩ := b
  simp [measure_image]

theorem measure_frame (c : LayoutBox) (pw ph : ℚ) :
    (measure_layout_with_parent c pw ph).node = c.node ∧
    (measure_layout_with_parent c pw ph).margin_top = c.margin_top ∧
    (measure_layout_with_parent c pw ph).margin_right = c.margin_right ∧
    (measure_layout_with_parent c pw ph).margin_bottom = c.margin_bottom ∧
    (measure_layout_with_parent c pw ph).margin_left = c.margin_left := by
  obtain ⟨x, y, w, h, mt, mr, mb, ml, cs, nd, ln, tb⟩ := c
  obtain ⟨nt, st, nch, ntx, nfs, nfw, nfst, ncw, ncsp, nrsp⟩ := nd
  cases nt <;>
    simp only [measure_layout_with_parent, JsonNode.node_type_mk, LayoutBox.node_mk,
      LayoutBox.margin_top_mk, LayoutBox.margin_right_mk, LayoutBox.margin_bottom_mk,
      LayoutBox.margin_left_mk]
  · simp
  · simp
  · simpa using measure_text_frame (LayoutBox.mk x y w h mt mr mb ml cs
      (JsonNode.mk .text st nch ntx nfs nfw nfst ncw ncsp nrsp) ln tb) pw
  · simpa using measure_image_frame (LayoutBox.mk x y w h mt mr mb ml cs
      (JsonNode.mk .image st nch ntx nfs nfw nfst ncw ncsp nrsp) ln tb) pw ph
  · simpa using measure_image_frame (LayoutBox.mk x y w h mt mr mb ml cs
      (JsonNode.mk .svg st nch ntx nfs nfw nfst ncw ncsp nrsp) ln tb) pw ph
  · split
    · simp
    · simp
  · simp
  · simp

theorem resolve_opt_nonneg (o : Option Dimension) (ho : opt_dim_wf o) (base dflt : ℚ)
    (hd : 0 ≤ dflt) : 0 ≤ ((o.map (fun d => d.resolve base)).getD dflt) := by
  rcases o with _ | d
  · exact hd
  · exact dim_resolve_nonneg d (ho d rfl) base

theorem outer_height_set_width (b : LayoutBox) (v : ℚ) :
    (b.set_width v).outer_height = b.outer_height := by
  obtain ⟨x, y, w, h, mt, mr, mb, ml, cs, nd, ln, tb⟩ := b
  rfl

theorem row_span_set_width (b : LayoutBox) (v : ℚ) :
    (b.set_width v).row_span = b.row_span := by
  obtain ⟨x, y, w, h, mt, mr, mb, ml, cs, nd, ln, tb⟩ := b
  rfl

theorem ok_set_width (m : LayoutBox) (v : ℚ) (hv : 0 ≤ v)
    (hm : ∀ bx ∈ all_boxes m, box_measured_ok bx) :
    ∀ bx ∈ all_boxes (m.set_width v), box_measured_ok bx := by
  obtain ⟨x, y, w, h, mt, mr, mb, ml, cs, nd, ln, tb⟩ := m
  intro bx hbx
  rw [LayoutBox.set_width, all_boxes] at hbx
  rcases List.mem_cons.mp hbx with hbx | hbx
  · subst hbx
    have hroot := hm (LayoutBox.mk x y w h mt mr mb ml cs nd ln tb)
      (by rw [all_boxes]; exact List.mem_cons_self _ _)
    rw [box_measured_ok] at hroot ⊢
    simp only [LayoutBox.width_mk, LayoutBox.height_mk, LayoutBox.node_mk,
      LayoutBox.lines_mk] at hroot ⊢
    exact ⟨hv, hroot.2.1, hroot.2.2⟩
  · exact hm bx (by rw [all_boxes]; exact List.mem_cons_of_mem _ hbx)

theorem map_col_span_sum_ones (cells : List LayoutBox)
    (h : ∀ c ∈ cells, c.col_span = 1) :
    (cells.map (fun c => c.col_span)).sum = cells.length := by
  induction cells with
  | nil => rfl
  | cons c rest ih =>
    simp only [List.map_cons, List.sum_cons, List.length_cons,
      h c (List.mem_cons_self c rest),
      ih (fun x hx => h x (List.mem_cons_of_mem c hx))]
    omega

theorem zeros_map_sub (l : List ℕ) (h : ∀ a ∈ l, a = 0) :
    ∀ a ∈ l.map (fun a => a - 1), a = 0 := by
  intro a ha
  obtain ⟨b, hb, hba⟩ := List.mem_map.mp ha
  rw [← hba, h b hb]

theorem zeros_drop (l : List ℕ) (h : ∀ a ∈ l, a = 0) (n : ℕ) :
    ∀ a ∈ l.drop n, a = 0 := fun a ha => h a (List.mem_of_mem_drop ha)

theorem list_getD_nonneg (l : List ℚ) (h : ∀ v ∈ l, 0 ≤ v) (i : ℕ) :
    0 ≤ l.getD i 0 := by
  rw [List.getD_eq_getElem?_getD]
  rcases hg : l[i]? with _ | v
  · simp
  · simp only [Option.getD_some]
    exact h v (List.getElem?_mem hg)

mutual

theorem measure_wf (b : LayoutBox) (pw ph : ℚ) (hwf : BoxWf b) :
    (∀ bx ∈ all_boxes (measure_layout_with_parent b pw ph), box_measured_ok bx) ∧
    0 ≤ (measure_layout_with_parent b pw ph).outer_width ∧
    0 ≤ (measure_layout_with_parent b pw ph).outer_height := by
  obtain ⟨x, y, w, h, mt, mr, mb, ml, cs, nd, ln, tb⟩ := b
  rw [BoxWf] at hwf
  obtain ⟨hw0, hh0, hmt, hmr, hmb, hml, hst, hnfs, hncw, hleaf, htab, hlist⟩ := hwf
  obtain ⟨nt, st, nch, ntx, nfs, nfw, nfst, ncw, ncsp, nrsp⟩ := nd
  simp only [JsonNode.style_mk, JsonNode.font_size_mk, JsonNode.column_widths_mk,
    JsonNode.node_type_mk] at hst hnfs hncw hleaf htab
  obtain ⟨hWopt, hHopt, hminw, hminh, hmaxw, hmaxh, hpadq, hptq, hprq, hpbq, hplq,
    hgapq, hfsq, hlhq⟩ := hst
  cases nt
  case page =>
    have hstw : style_wf st := ⟨hWopt, hHopt, hminw, hminh, hmaxw, hmaxh, hpadq, hptq,
      hprq, hpbq, hplq, hgapq, hfsq, hlhq⟩
    have hpads := padding_trbl_nonneg st hstw
    have hgap : 0 ≤ st.gap.getD 0 := opt_getD_nonneg _ hgapq _ le_rfl
    simp only [measure_layout_with_parent, JsonNode.node_type_mk, JsonNode.style_mk]
    set CPW := (Option.map (fun d => d.resolve pw) st.width).getD pw - st.padding_trbl.2.2.2 -
      st.padding_trbl.2.1 with hCPW
    set CPH := (if (Option.map (fun d => d.resolve ph) st.height).isSome = true ∨ True then
        (Option.map (fun d => d.resolve ph) st.height).getD ph - st.padding_trbl.1 -
          st.padding_trbl.2.2.1
      else 0) with hCPH
    set cs2 := measure_children cs CPW CPH with hcs2
    have hok2 : (∀ bx ∈ all_boxes_list cs2, box_measured_ok bx) ∧
        ∀ c2 ∈ cs2, 0 ≤ c2.outer_width ∧ 0 ≤ c2.outer_height := by
      rw [hcs2]
      exact measure_children_wf cs CPW CPH hlist
    rcases hdir : st.direction.getD Direction.column with _ | _
    · simp only [hdir]
      by_cases hwc : (st.wrap.getD false
          && (Option.map (fun d => d.resolve pw) st.width).isSome) = true
      · rw [if_pos hwc]
        have hc1 : 0 ≤ (measure_wrapping_row cs2 (st.gap.getD 0) CPW).1 ∧ 0 ≤ (measure_wrapping_row cs2 (st.gap.getD 0) CPW).2 := (by
          rw [measure_wrapping_row]
          exact measure_wrapping_row_go_nonneg (st.gap.getD 0) CPW hgap cs2 0 0 0 0
            le_rfl le_rfl le_rfl le_rfl hok2.2)
        have hW1 : 0 ≤ (Option.map (fun d => d.resolve pw) st.width).getD
            ((measure_wrapping_row cs2 (st.gap.getD 0) CPW).1 + st.padding_trbl.2.2.2 + st.padding_trbl.2.1) :=
          resolve_opt_nonneg st.width hWopt pw _
            (by linarith [hc1.1, hpads.2.1, hpads.2.2.2])
        have hH1 : 0 ≤ (Option.map (fun d => d.resolve ph) st.height).getD
            ((measure_wrapping_row cs2 (st.gap.getD 0) CPW).2 + st.padding_trbl.1 + st.padding_trbl.2.2.1) :=
          resolve_opt_nonneg st.height hHopt ph _
            (by linarith [hc1.2, hpads.1, hpads.2.2.1])
        have hW2 := apply_min_max_w_nonneg st
          ((Option.map (fun d => d.resolve pw) st.width).getD
            ((measure_wrapping_row cs2 (st.gap.getD 0) CPW).1 + st.padding_trbl.2.2.2 + st.padding_trbl.2.1))
          ((Option.map (fun d => d.resolve ph) st.height).getD
            ((measure_wrapping_row cs2 (st.gap.getD 0) CPW).2 + st.padding_trbl.1 + st.padding_trbl.2.2.1)) pw ph hminw hmaxw hW1
        have hH2 := apply_min_max_h_nonneg st
          ((Option.map (fun d => d.resolve pw) st.width).getD
            ((measure_wrapping_row cs2 (st.gap.getD 0) CPW).1 + st.padding_trbl.2.2.2 + st.padding_trbl.2.1))
          ((Option.map (fun d => d.resolve ph) st.height).getD
            ((measure_wrapping_row cs2 (st.gap.getD 0) CPW).2 + st.padding_trbl.1 + st.padding_trbl.2.2.1)) pw ph hminh hmaxh hH1
        refine ⟨?_, ?_, ?_⟩
        · intro bx hbx
          rw [all_boxes] at hbx
          rcases List.mem_cons.mp hbx with hbx | hbx
          · subst hbx
            rw [box_measured_ok]
            simp only [LayoutBox.width_mk, LayoutBox.height_mk, LayoutBox.node_mk,
              LayoutBox.lines_mk, JsonNode.node_type_mk]
            exact ⟨hW2, hH2, by intro hcontra; simp at hcontra⟩
          · exact hok2.1 bx hbx
        · rw [LayoutBox.outer_width]
          simp only [LayoutBox.margin_left_mk, LayoutBox.margin_right_mk, LayoutBox.width_mk]
          linarith [hW2]
        · rw [LayoutBox.outer_height]
          simp only [LayoutBox.margin_top_mk, LayoutBox.margin_bottom_mk, LayoutBox.height_mk]
          linarith [hH2]
      · rw [if_neg hwc]
        have hc1 : 0 ≤ (measure_row cs2 (st.gap.getD 0)).1 ∧ 0 ≤ (measure_row cs2 (st.gap.getD 0)).2 := (by
          rw [measure_row]
          exact measure_row_go_nonneg (st.gap.getD 0) hgap cs2 0 0 0 le_rfl le_rfl hok2.2)
        have hW1 : 0 ≤ (Option.map (fun d => d.resolve pw) st.width).getD
            ((measure_row cs2 (st.gap.getD 0)).1 + st.padding_trbl.2.2.2 + st.padding_trbl.2.1) :=
          resolve_opt_nonneg st.width hWopt pw _
            (by linarith [hc1.1, hpads.2.1, hpads.2.2.2])
        have hH1 : 0 ≤ (Option.map (fun d => d.resolve ph) st.height).getD
            ((measure_row cs2 (st.gap.getD 0)).2 + st.padding_trbl.1 + st.padding_trbl.2.2.1) :=
          resolve_opt_nonneg st.height hHopt ph _
            (by linarith [hc1.2, hpads.1, hpads.2.2.1])
        have hW2 := apply_min_max_w_nonneg st
          ((Option.map (fun d => d.resolve pw) st.width).getD
            ((measure_row cs2 (st.gap.getD 0)).1 + st.padding_trbl.2.2.2 + st.padding_trbl.2.1))
          ((Option.map (fun d => d.resolve ph) st.height).getD
            ((measure_row cs2 (st.gap.getD 0)).2 + st.padding_trbl.1 + st.padding_trbl.2.2.1)) pw ph hminw hmaxw hW1
        have hH2 := apply_min_max_h_nonneg st
          ((Option.map (fun d => d.resolve pw) st.width).getD
            ((measure_row cs2 (st.gap.getD 0)).1 + st.padding_trbl.2.2.2 + st.padding_trbl.2.1))
          ((Option.map (fun d => d.resolve ph) st.height).getD
            ((measure_row cs2 (st.gap.getD 0)).2 + st.padding_trbl.1 + st.padding_trbl.2.2.1)) pw ph hminh hmaxh hH1
        refine ⟨?_, ?_, ?_⟩
        · intro bx hbx
          rw [all_boxes] at hbx
          rcases List.mem_cons.mp hbx with hbx | hbx
          · subst hbx
            rw [box_measured_ok]
            simp only [LayoutBox.width_mk, LayoutBox.height_mk, LayoutBox.node_mk,
              LayoutBox.lines_mk, JsonNode.node_type_mk]
            exact ⟨hW2, hH2, by intro hcontra; simp at hcontra⟩
          · exact hok2.1 bx hbx
        · rw [LayoutBox.outer_width]
          simp only [LayoutBox.margin_left_mk, LayoutBox.margin_right_mk, LayoutBox.width_mk]
          linarith [hW2]
        · rw [LayoutBox.outer_height]
          simp only [LayoutBox.margin_top_mk, LayoutBox.margin_bottom_mk, LayoutBox.height_mk]
          linarith [hH2]
    · simp only [hdir]
      have hc1 : 0 ≤ (measure_column cs2 (st.gap.getD 0)).1 ∧ 0 ≤ (measure_column cs2 (st.gap.getD 0)).2 := (by
        rw [measure_column]
        exact measure_column_go_nonneg (st.gap.getD 0) hgap cs2 0 0 0 le_rfl le_rfl hok2.2)
      have hW1 : 0 ≤ (Option.map (fun d => d.resolve pw) st.width).getD
          ((measure_column cs2 (st.gap.getD 0)).1 + st.padding_trbl.2.2.2 + st.padding_trbl.2.1) :=
        resolve_opt_nonneg st.width hWopt pw _
          (by linarith [hc1.1, hpads.2.1, hpads.2.2.2])
      have hH1 : 0 ≤ (Option.map (fun d => d.resolve ph) st.height).getD
          ((measure_column cs2 (st.gap.getD 0)).2 + st.padding_trbl.1 + st.padding_trbl.2.2.1) :=
        resolve_opt_nonneg st.height hHopt ph _
          (by linarith [hc1.2, hpads.1, hpads.2.2.1])
      have hW2 := apply_min_max_w_nonneg st
        ((Option.map (fun d => d.resolve pw) st.width).getD
          ((measure_column cs2 (st.gap.getD 0)).1 + st.padding_trbl.2.2.2 + st.padding_trbl.2.1))
        ((Option.map (fun d => d.resolve ph) st.height).getD
          ((measure_column cs2 (st.gap.getD 0)).2 + st.padding_trbl.1 + st.padding_trbl.2.2.1)) pw ph hminw hmaxw hW1
      have hH2 := apply_min_max_h_nonneg st
        ((Option.map (fun d => d.resolve pw) st.width).getD
          ((measure_column cs2 (st.gap.getD 0)).1 + st.padding_trbl.2.2.2 + st.padding_trbl.2.1))
        ((Option.map (fun d => d.resolve ph) st.height).getD
          ((measure_column cs2 (st.gap.getD 0)).2 + st.padding_trbl.1 + st.padding_trbl.2.2.1)) pw ph hminh hmaxh hH1
      refine ⟨?_, ?_, ?_⟩
      · intro bx hbx
        rw [all_boxes] at hbx
        rcases List.mem_cons.mp hbx with hbx | hbx
        · subst hbx
          rw [box_measured_ok]
          simp only [LayoutBox.width_mk, LayoutBox.height_mk, LayoutBox.node_mk,
            LayoutBox.lines_mk, JsonNode.node_type_mk]
          exact ⟨hW2, hH2, by intro hcontra; simp at hcontra⟩
        · exact hok2.1 bx hbx
      · rw [LayoutBox.outer_width]
        simp only [LayoutBox.margin_left_mk, LayoutBox.margin_right_mk, LayoutBox.width_mk]
        linarith [hW2]
      · rw [LayoutBox.outer_height]
        simp only [LayoutBox.margin_top_mk, LayoutBox.margin_bottom_mk, LayoutBox.height_mk]
        linarith [hH2]
  case view =>
    have hstw : style_wf st := ⟨hWopt, hHopt, hminw, hminh, hmaxw, hmaxh, hpadq, hptq,
      hprq, hpbq, hplq, hgapq, hfsq, hlhq⟩
    have hpads := padding_trbl_nonneg st hstw
    have hgap : 0 ≤ st.gap.getD 0 := opt_getD_nonneg _ hgapq _ le_rfl
    simp only [measure_layout_with_parent, JsonNode.node_type_mk, JsonNode.style_mk]
    set CPW := (Option.map (fun d => d.resolve pw) st.width).getD pw - st.padding_trbl.2.2.2 -
      st.padding_trbl.2.1 with hCPW
    set CPH := (if (Option.map (fun d => d.resolve ph) st.height).isSome = true ∨ NodeType.view = NodeType.page then
        (Option.map (fun d => d.resolve ph) st.height).getD ph - st.padding_trbl.1 -
          st.padding_trbl.2.2.1
      else 0) with hCPH
    set cs2 := measure_children cs CPW CPH with hcs2
    have hok2 : (∀ bx ∈ all_boxes_list cs2, box_measured_ok bx) ∧
        ∀ c2 ∈ cs2, 0 ≤ c2.outer_width ∧ 0 ≤ c2.outer_height := by
      rw [hcs2]
      exact measure_children_wf cs CPW CPH hlist
    rcases hdir : st.direction.getD Direction.column with _ | _
    · simp only [hdir]
      by_cases hwc : (st.wrap.getD false
          && (Option.map (fun d => d.resolve pw) st.width).isSome) = true
      · rw [if_pos hwc]
        have hc1 : 0 ≤ (measure_wrapping_row cs2 (st.gap.getD 0) CPW).1 ∧ 0 ≤ (measure_wrapping_row cs2 (st.gap.getD 0) CPW).2 := (by
          rw [measure_wrapping_row]
          exact measure_wrapping_row_go_nonneg (st.gap.getD 0) CPW hgap cs2 0 0 0 0
            le_rfl le_rfl le_rfl le_rfl hok2.2)
        have hW1 : 0 ≤ (Option.map (fun d => d.resolve pw) st.width).getD
            ((measure_wrapping_row cs2 (st.gap.getD 0) CPW).1 + st.padding_trbl.2.2.2 + st.padding_trbl.2.1) :=
          resolve_opt_nonneg st.width hWopt pw _
            (by linarith [hc1.1, hpads.2.1, hpads.2.2.2])
        have hH1 : 0 ≤ (Option.map (fun d => d.resolve ph) st.height).getD
            ((measure_wrapping_row cs2 (st.gap.getD 0) CPW).2 + st.padding_trbl.1 + st.padding_trbl.2.2.1) :=
          resolve_opt_nonneg st.height hHopt ph _
            (by linarith [hc1.2, hpads.1, hpads.2.2.1])
        have hW2 := apply_min_max_w_nonneg st
          ((Option.map (fun d => d.resolve pw) st.width).getD
            ((measure_wrapping_row cs2 (st.gap.getD 0) CPW).1 + st.padding_trbl.2.2.2 + st.padding_trbl.2.1))
          ((Option.map (fun d => d.resolve ph) st.height).getD
            ((measure_wrapping_row cs2 (st.gap.getD 0) CPW).2 + st.padding_trbl.1 + st.padding_trbl.2.2.1)) pw ph hminw hmaxw hW1
        have hH2 := apply_min_max_h_nonneg st
          ((Option.map (fun d => d.resolve pw) st.width).getD
            ((measure_wrapping_row cs2 (st.gap.getD 0) CPW).1 + st.padding_trbl.2.2.2 + st.padding_trbl.2.1))
          ((Option.map (fun d => d.resolve ph) st.height).getD
            ((measure_wrapping_row cs2 (st.gap.getD 0) CPW).2 + st.padding_trbl.1 + st.padding_trbl.2.2.1)) pw ph hminh hmaxh hH1
        refine ⟨?_, ?_, ?_⟩
        · intro bx hbx
          rw [all_boxes] at hbx
          rcases List.mem_cons.mp hbx with hbx | hbx
          · subst hbx
            rw [box_measured_ok]
            simp only [LayoutBox.width_mk, LayoutBox.height_mk, LayoutBox.node_mk,
              LayoutBox.lines_mk, JsonNode.node_type_mk]
            exact ⟨hW2, hH2, by intro hcontra; simp at hcontra⟩
          · exact hok2.1 bx hbx
        · rw [LayoutBox.outer_width]
          simp only [LayoutBox.margin_left_mk, LayoutBox.margin_right_mk, LayoutBox.width_mk]
          linarith [hW2]
        · rw [LayoutBox.outer_height]
          simp only [LayoutBox.margin_top_mk, LayoutBox.margin_bottom_mk, LayoutBox.height_mk]
          linarith [hH2]
      · rw [if_neg hwc]
        have hc1 : 0 ≤ (measure_row cs2 (st.gap.getD 0)).1 ∧ 0 ≤ (measure_row cs2 (st.gap.getD 0)).2 := (by
          rw [measure_row]
          exact measure_row_go_nonneg (st.gap.getD 0) hgap cs2 0 0 0 le_rfl le_rfl hok2.2)
        have hW1 : 0 ≤ (Option.map (fun d => d.resolve pw) st.width).getD
            ((measure_row cs2 (st.gap.getD 0)).1 + st.padding_trbl.2.2.2 + st.padding_trbl.2.1) :=
          resolve_opt_nonneg st.width hWopt pw _
            (by linarith [hc1.1, hpads.2.1, hpads.2.2.2])
        have hH1 : 0 ≤ (Option.map (fun d => d.resolve ph) st.height).getD
            ((measure_row cs2 (st.gap.getD 0)).2 + st.padding_trbl.1 + st.padding_trbl.2.2.1) :=
          resolve_opt_nonneg st.height hHopt ph _
            (by linarith [hc1.2, hpads.1, hpads.2.2.1])
        have hW2 := apply_min_max_w_nonneg st
          ((Option.map (fun d => d.resolve pw) st.width).getD
            ((measure_row cs2 (st.gap.getD 0)).1 + st.padding_trbl.2.2.2 + st.padding_trbl.2.1))
          ((Option.map (fun d => d.resolve ph) st.height).getD
            ((measure_row cs2 (st.gap.getD 0)).2 + st.padding_trbl.1 + st.padding_trbl.2.2.1)) pw ph hminw hmaxw hW1
        have hH2 := apply_min_max_h_nonneg st
          ((Option.map (fun d => d.resolve pw) st.width).getD
            ((measure_row cs2 (st.gap.getD 0)).1 + st.padding_trbl.2.2.2 + st.padding_trbl.2.1))
          ((Option.map (fun d => d.resolve ph) st.height).getD
            ((measure_row cs2 (st.gap.getD 0)).2 + st.padding_trbl.1 + st.padding_trbl.2.2.1)) pw ph hminh hmaxh hH1
        refine ⟨?_, ?_, ?_⟩
        · intro bx hbx
          rw [all_boxes] at hbx
          rcases List.mem_cons.mp hbx with hbx | hbx
          · subst hbx
            rw [box_measured_ok]
            simp only [LayoutBox.width_mk, LayoutBox.height_mk, LayoutBox.node_mk,
              LayoutBox.lines_mk, JsonNode.node_type_mk]
            exact ⟨hW2, hH2, by intro hcontra; simp at hcontra⟩
          · exact hok2.1 bx hbx
        · rw [LayoutBox.outer_width]
          simp only [LayoutBox.margin_left_mk, LayoutBox.margin_right_mk, LayoutBox.width_mk]
          linarith [hW2]
        · rw [LayoutBox.outer_height]
          simp only [LayoutBox.margin_top_mk, LayoutBox.margin_bottom_mk, LayoutBox.height_mk]
          linarith [hH2]
    · simp only [hdir]
      have hc1 : 0 ≤ (measure_column cs2 (st.gap.getD 0)).1 ∧ 0 ≤ (measure_column cs2 (st.gap.getD 0)).2 := (by
        rw [measure_column]
        exact measure_column_go_nonneg (st.gap.getD 0) hgap cs2 0 0 0 le_rfl le_rfl hok2.2)
      have hW1 : 0 ≤ (Option.map (fun d => d.resolve pw) st.width).getD
          ((measure_column cs2 (st.gap.getD 0)).1 + st.padding_trbl.2.2.2 + st.padding_trbl.2.1) :=
        resolve_opt_nonneg st.width hWopt pw _
          (by linarith [hc1.1, hpads.2.1, hpads.2.2.2])
      have hH1 : 0 ≤ (Option.map (fun d => d.resolve ph) st.height).getD
          ((measure_column cs2 (st.gap.getD 0)).2 + st.padding_trbl.1 + st.padding_trbl.2.2.1) :=
        resolve_opt_nonneg st.height hHopt ph _
          (by linarith [hc1.2, hpads.1, hpads.2.2.1])
      have hW2 := apply_min_max_w_nonneg st
        ((Option.map (fun d => d.resolve pw) st.width).getD
          ((measure_column cs2 (st.gap.getD 0)).1 + st.padding_trbl.2.2.2 + st.padding_trbl.2.1))
        ((Option.map (fun d => d.resolve ph) st.height).getD
          ((measure_column cs2 (st.gap.getD 0)).2 + st.padding_trbl.1 + st.padding_trbl.2.2.1)) pw ph hminw hmaxw hW1
      have hH2 := apply_min_max_h_nonneg st
        ((Option.map (fun d => d.resolve pw) st.width).getD
          ((measure_column cs2 (st.gap.getD 0)).1 + st.padding_trbl.2.2.2 + st.padding_trbl.2.1))
        ((Option.map (fun d => d.resolve ph) st.height).getD
          ((measure_column cs2 (st.gap.getD 0)).2 + st.padding_trbl.1 + st.padding_trbl.2.2.1)) pw ph hminh hmaxh hH1
      refine ⟨?_, ?_, ?_⟩
      · intro bx hbx
        rw [all_boxes] at hbx
        rcases List.mem_cons.mp hbx with hbx | hbx
        · subst hbx
          rw [box_measured_ok]
          simp only [LayoutBox.width_mk, LayoutBox.height_mk, LayoutBox.node_mk,
            LayoutBox.lines_mk, JsonNode.node_type_mk]
          exact ⟨hW2, hH2, by intro hcontra; simp at hcontra⟩
        · exact hok2.1 bx hbx
      · rw [LayoutBox.outer_width]
        simp only [LayoutBox.margin_left_mk, LayoutBox.margin_right_mk, LayoutBox.width_mk]
        linarith [hW2]
      · rw [LayoutBox.outer_height]
        simp only [LayoutBox.margin_top_mk, LayoutBox.margin_bottom_mk, LayoutBox.height_mk]
        linarith [hH2]
  case text =>
    have hcs : cs = [] := hleaf (Or.inl rfl)
    subst hcs
    simp only [measure_layout_with_parent, JsonNode.node_type_mk]
    have hfs : 0 ≤ (LayoutBox.mk x y w h mt mr mb ml []
          (JsonNode.mk NodeType.text st nch ntx nfs nfw nfst ncw ncsp nrsp) ln tb).font_size := by
      apply font_size_nonneg
      · simpa using hfsq
      · simpa using hnfs
    have hlh : 0 ≤ (LayoutBox.mk x y w h mt mr mb ml []
          (JsonNode.mk NodeType.text st nch ntx nfs nfw nfst ncw ncsp nrsp) ln tb).line_height_multiplier := by
      apply line_height_multiplier_nonneg
      simpa using hlhq
    rcases hmw : (((LayoutBox.mk x y w h mt mr mb ml []
          (JsonNode.mk NodeType.text st nch ntx nfs nfw nfst ncw ncsp nrsp) ln tb).resolve_width pw).or
        (LayoutBox.mk x y w h mt mr mb ml []
          (JsonNode.mk NodeType.text st nch ntx nfs nfw nfst ncw ncsp nrsp) ln tb).style_width) with _ | wv <;>
      simp only [measure_text, hmw]
    · refine ⟨?_, ?_, ?_⟩
      · intro bx hbx
        rw [all_boxes] at hbx
        rcases List.mem_cons.mp hbx with hbx | hbx
        · subst hbx
          rw [box_measured_ok]
          simp only [LayoutBox.width_mk, LayoutBox.height_mk, LayoutBox.node_mk,
            LayoutBox.lines_mk, JsonNode.node_type_mk]
          refine ⟨string_width_nonneg _ _ _ hfs, mul_nonneg hfs hlh, ?_⟩
          intro _
          simp
        · cases hbx
      · rw [LayoutBox.outer_width]
        simp only [LayoutBox.margin_left_mk, LayoutBox.margin_right_mk, LayoutBox.width_mk]
        have hsw : 0 ≤ measure_text_width (((LayoutBox.mk x y w h mt mr mb ml []
          (JsonNode.mk NodeType.text st nch ntx nfs nfw nfst ncw ncsp nrsp) ln tb).node.text).getD [])
            ((LayoutBox.mk x y w h mt mr mb ml []
          (JsonNode.mk NodeType.text st nch ntx nfs nfw nfst ncw ncsp nrsp) ln tb).font_size) ((LayoutBox.mk x y w h mt mr mb ml []
          (JsonNode.mk NodeType.text st nch ntx nfs nfw nfst ncw ncsp nrsp) ln tb).font_metrics) :=
          string_width_nonneg _ _ _ hfs
        linarith
      · rw [LayoutBox.outer_height]
        simp only [LayoutBox.margin_top_mk, LayoutBox.margin_bottom_mk, LayoutBox.height_mk]
        have hmh : 0 ≤ measure_line_height ((LayoutBox.mk x y w h mt mr mb ml []
          (JsonNode.mk NodeType.text st nch ntx nfs nfw nfst ncw ncsp nrsp) ln tb).font_size)
            ((LayoutBox.mk x y w h mt mr mb ml []
          (JsonNode.mk NodeType.text st nch ntx nfs nfw nfst ncw ncsp nrsp) ln tb).line_height_multiplier) := mul_nonneg hfs hlh
        linarith
    · by_cases hpos : wv > 0
      · rw [if_pos hpos]
        simp only [wrap_text]
        refine ⟨?_, ?_, ?_⟩
        · intro bx hbx
          rw [all_boxes] at hbx
          rcases List.mem_cons.mp hbx with hbx | hbx
          · subst hbx
            rw [box_measured_ok]
            simp only [LayoutBox.width_mk, LayoutBox.height_mk, LayoutBox.node_mk,
              LayoutBox.lines_mk, JsonNode.node_type_mk]
            refine ⟨le_of_lt hpos, ?_, ?_⟩
            · exact mul_nonneg (mul_nonneg hfs hlh) (by positivity)
            · intro _
              exact wrap_text_lines_length _ _ _ _
          · cases hbx
        · rw [LayoutBox.outer_width]
          simp only [LayoutBox.margin_left_mk, LayoutBox.margin_right_mk, LayoutBox.width_mk]
          linarith [le_of_lt hpos]
        · rw [LayoutBox.outer_height]
          simp only [LayoutBox.margin_top_mk, LayoutBox.margin_bottom_mk, LayoutBox.height_mk]
          have h3 : 0 ≤ measure_line_height ((LayoutBox.mk x y w h mt mr mb ml []
          (JsonNode.mk NodeType.text st nch ntx nfs nfw nfst ncw ncsp nrsp) ln tb).font_size) ((LayoutBox.mk x y w h mt mr mb ml []
          (JsonNode.mk NodeType.text st nch ntx nfs nfw nfst ncw ncsp nrsp) ln tb).line_height_multiplier)
              * ((wrap_text_lines ((LayoutBox.mk x y w h mt mr mb ml []
          (JsonNode.mk NodeType.text st nch ntx nfs nfw nfst ncw ncsp nrsp) ln tb).font_metrics) ((LayoutBox.mk x y w h mt mr mb ml []
          (JsonNode.mk NodeType.text st nch ntx nfs nfw nfst ncw ncsp nrsp) ln tb).font_size) wv
                  (((LayoutBox.mk x y w h mt mr mb ml []
          (JsonNode.mk NodeType.text st nch ntx nfs nfw nfst ncw ncsp nrsp) ln tb).node.text).getD [])).length : ℚ) :=
            mul_nonneg (mul_nonneg hfs hlh) (by positivity)
          linarith
      · rw [if_neg hpos]
        refine ⟨?_, ?_, ?_⟩
        · intro bx hbx
          rw [all_boxes] at hbx
          rcases List.mem_cons.mp hbx with hbx | hbx
          · subst hbx
            rw [box_measured_ok]
            simp only [LayoutBox.width_mk, LayoutBox.height_mk, LayoutBox.node_mk,
              LayoutBox.lines_mk, JsonNode.node_type_mk]
            refine ⟨string_width_nonneg _ _ _ hfs, mul_nonneg hfs hlh, ?_⟩
            intro _
            simp
          · cases hbx
        · rw [LayoutBox.outer_width]
          simp only [LayoutBox.margin_left_mk, LayoutBox.margin_right_mk, LayoutBox.width_mk]
          have hsw : 0 ≤ measure_text_width (((LayoutBox.mk x y w h mt mr mb ml []
          (JsonNode.mk NodeType.text st nch ntx nfs nfw nfst ncw ncsp nrsp) ln tb).node.text).getD [])
              ((LayoutBox.mk x y w h mt mr mb ml []
          (JsonNode.mk NodeType.text st nch ntx nfs nfw nfst ncw ncsp nrsp) ln tb).font_size) ((LayoutBox.mk x y w h mt mr mb ml []
          (JsonNode.mk NodeType.text st nch ntx nfs nfw nfst ncw ncsp nrsp) ln tb).font_metrics) :=
            string_width_nonneg _ _ _ hfs
          linarith
        · rw [LayoutBox.outer_height]
          simp only [LayoutBox.margin_top_mk, LayoutBox.margin_bottom_mk, LayoutBox.height_mk]
          have hmh : 0 ≤ measure_line_height ((LayoutBox.mk x y w h mt mr mb ml []
          (JsonNode.mk NodeType.text st nch ntx nfs nfw nfst ncw ncsp nrsp) ln tb).font_size)
              ((LayoutBox.mk x y w h mt mr mb ml []
          (JsonNode.mk NodeType.text st nch ntx nfs nfw nfst ncw ncsp nrsp) ln tb).line_height_multiplier) := mul_nonneg hfs hlh
          linarith
  case image =>
    have hcs : cs = [] := hleaf (Or.inr (Or.inl rfl))
    subst hcs
    simp only [measure_layout_with_parent, JsonNode.node_type_mk]
    simp only [measure_image]
    refine ⟨?_, ?_, ?_⟩
    · intro bx hbx
      rw [all_boxes] at hbx
      rcases List.mem_cons.mp hbx with hbx | hbx
      · subst hbx
        rw [box_measured_ok]
        simp only [LayoutBox.width_mk, LayoutBox.height_mk, LayoutBox.node_mk,
          LayoutBox.lines_mk, JsonNode.node_type_mk, LayoutBox.resolve_width,
          LayoutBox.resolve_height, JsonNode.style_mk]
        refine ⟨resolve_opt_nonneg st.width hWopt pw 100 (by norm_num),
          resolve_opt_nonneg st.height hHopt ph 100 (by norm_num), ?_⟩
        intro hcontra
        simp at hcontra
      · cases hbx
    · rw [LayoutBox.outer_width]
      simp only [LayoutBox.margin_left_mk, LayoutBox.margin_right_mk, LayoutBox.width_mk,
        LayoutBox.resolve_width, JsonNode.style_mk, LayoutBox.node_mk]
      have := resolve_opt_nonneg st.width hWopt pw 100 (by norm_num)
      linarith
    · rw [LayoutBox.outer_height]
      simp only [LayoutBox.margin_top_mk, LayoutBox.margin_bottom_mk, LayoutBox.height_mk,
        LayoutBox.resolve_height, JsonNode.style_mk, LayoutBox.node_mk]
      have := resolve_opt_nonneg st.height hHopt ph 100 (by norm_num)
      linarith
  case svg =>
    have hcs : cs = [] := hleaf (Or.inr (Or.inr rfl))
    subst hcs
    simp only [measure_layout_with_parent, JsonNode.node_type_mk]
    simp only [measure_image]
    refine ⟨?_, ?_, ?_⟩
    · intro bx hbx
      rw [all_boxes] at hbx
      rcases List.mem_cons.mp hbx with hbx | hbx
      · subst hbx
        rw [box_measured_ok]
        simp only [LayoutBox.width_mk, LayoutBox.height_mk, LayoutBox.node_mk,
          LayoutBox.lines_mk, JsonNode.node_type_mk, LayoutBox.resolve_width,
          LayoutBox.resolve_height, JsonNode.style_mk]
        refine ⟨resolve_opt_nonneg st.width hWopt pw 100 (by norm_num),
          resolve_opt_nonneg st.height hHopt ph 100 (by norm_num), ?_⟩
        intro hcontra
        simp at hcontra
      · cases hbx
    · rw [LayoutBox.outer_width]
      simp only [LayoutBox.margin_left_mk, LayoutBox.margin_right_mk, LayoutBox.width_mk,
        LayoutBox.resolve_width, JsonNode.style_mk, LayoutBox.node_mk]
      have := resolve_opt_nonneg st.width hWopt pw 100 (by norm_num)
      linarith
    · rw [LayoutBox.outer_height]
      simp only [LayoutBox.margin_top_mk, LayoutBox.margin_bottom_mk, LayoutBox.height_mk,
        LayoutBox.resolve_height, JsonNode.style_mk, LayoutBox.node_mk]
      have := resolve_opt_nonneg st.height hHopt ph 100 (by norm_num)
      linarith
  case table =>
    obtain ⟨hne, hnum, hrows⟩ := htab rfl
    have hstw : style_wf st := ⟨hWopt, hHopt, hminw, hminh, hmaxw, hmaxh, hpadq, hptq,
      hprq, hpbq, hplq, hgapq, hfsq, hlhq⟩
    have hpads := padding_trbl_nonneg st hstw
    have hgap : 0 ≤ st.gap.getD 0 := opt_getD_nonneg _ hgapq _ le_rfl
    simp only [measure_layout_with_parent, JsonNode.node_type_mk, JsonNode.style_mk,
      JsonNode.column_widths_mk]
    rw [if_neg (by
      simp only [List.length_eq_zero]
      intro hcontra
      rcases hcontra with hcontra | hcontra
      · exact hnum hcontra
      · exact hne hcontra)]
    set CW := compute_col_widths ncw (table_num_cols cs)
      (max ((Option.map (fun d => d.resolve pw) st.width).getD pw) 0 - st.padding_trbl.2.2.2 -
        st.padding_trbl.2.1) (st.gap.getD 0) with hCW
    have hcwn : ∀ v ∈ CW, 0 ≤ v := by
      rw [hCW]
      exact compute_col_widths_nonneg ncw _ _ _ hncw
    have hrowhyp : ∀ r ∈ cs, BoxWf r ∧ r.node.node_type = NodeType.row ∧
        (∀ cell ∈ r.children, cell.col_span = 1 ∧ cell.row_span = 1) ∧
        r.children.length ≤ table_num_cols cs := by
      intro r hr
      refine ⟨BoxListWf_mem cs hlist r hr, (hrows r hr).1, (hrows r hr).2, ?_⟩
      have hsum : ((r.children.map (fun c => c.col_span)).sum) = r.children.length :=
        map_col_span_sum_ones _ (fun c hc => ((hrows r hr).2 c hc).1)
      have hmem : (r.children.map (fun c => c.col_span)).sum
          ∈ cs.map (fun rr => (rr.children.map (fun c => c.col_span)).sum) :=
        List.mem_map_of_mem _ hr
      rw [table_num_cols, ← hsum]
      exact foldl_max_ge_mem _ _ hmem 0
    have hrf := measure_table_rows_wf cs CW (st.gap.getD 0) ph (table_num_cols cs) cs.length 0
      (List.replicate cs.length 0) (List.replicate (table_num_cols cs) 0) hrowhyp hcwn hgap
      (fun v hv => by rw [List.eq_of_mem_replicate hv])
      (fun a ha => List.eq_of_mem_replicate ha)
    have hW1 : 0 ≤ (Option.map (fun d => d.resolve pw) st.width).getD
        (st.padding_trbl.2.2.2 + (CW.sum + st.gap.getD 0 * ((table_num_cols cs - 1 : ℕ) : ℚ))
          + st.padding_trbl.2.1) := by
      refine resolve_opt_nonneg st.width hWopt pw _ ?_
      have hsum : 0 ≤ CW.sum := List.sum_nonneg hcwn
      have : 0 ≤ st.gap.getD 0 * ((table_num_cols cs - 1 : ℕ) : ℚ) := by positivity
      linarith [hpads.2.1, hpads.2.2.2]
    have hH1 : 0 ≤ (Option.map (fun d => d.resolve ph) st.height).getD
        (st.padding_trbl.1 + ((measure_table_rows cs CW (st.gap.getD 0) ph (table_num_cols cs)
            cs.length 0 (List.replicate cs.length 0)
            (List.replicate (table_num_cols cs) 0)).2.sum
          + st.gap.getD 0 * ((cs.length - 1 : ℕ) : ℚ)) + st.padding_trbl.2.2.1) := by
      refine resolve_opt_nonneg st.height hHopt ph _ ?_
      have hsum : 0 ≤ (measure_table_rows cs CW (st.gap.getD 0) ph (table_num_cols cs)
          cs.length 0 (List.replicate cs.length 0)
          (List.replicate (table_num_cols cs) 0)).2.sum := List.sum_nonneg hrf.2
      have : 0 ≤ st.gap.getD 0 * ((cs.length - 1 : ℕ) : ℚ) := by positivity
      linarith [hpads.1, hpads.2.2.1]
    have hW2 := apply_min_max_w_nonneg st
      ((Option.map (fun d => d.resolve pw) st.width).getD
        (st.padding_trbl.2.2.2 + (CW.sum + st.gap.getD 0 * ((table_num_cols cs - 1 : ℕ) : ℚ))
          + st.padding_trbl.2.1))
      ((Option.map (fun d => d.resolve ph) st.height).getD
        (st.padding_trbl.1 + ((measure_table_rows cs CW (st.gap.getD 0) ph (table_num_cols cs)
            cs.length 0 (List.replicate cs.length 0)
            (List.replicate (table_num_cols cs) 0)).2.sum
          + st.gap.getD 0 * ((cs.length - 1 : ℕ) : ℚ)) + st.padding_trbl.2.2.1))
      pw ph hminw hmaxw hW1
    have hH2 := apply_min_max_h_nonneg st
      ((Option.map (fun d => d.resolve pw) st.width).getD
        (st.padding_trbl.2.2.2 + (CW.sum + st.gap.getD 0 * ((table_num_cols cs - 1 : ℕ) : ℚ))
          + st.padding_trbl.2.1))
      ((Option.map (fun d => d.resolve ph) st.height).getD
        (st.padding_trbl.1 + ((measure_table_rows cs CW (st.gap.getD 0) ph (table_num_cols cs)
            cs.length 0 (List.replicate cs.length 0)
            (List.replicate (table_num_cols cs) 0)).2.sum
          + st.gap.getD 0 * ((cs.length - 1 : ℕ) : ℚ)) + st.padding_trbl.2.2.1))
      pw ph hminh hmaxh hH1
    refine ⟨?_, ?_, ?_⟩
    · intro bx hbx
      rw [all_boxes] at hbx
      rcases List.mem_cons.mp hbx with hbx | hbx
      · subst hbx
        rw [box_measured_ok]
        simp only [LayoutBox.width_mk, LayoutBox.height_mk, LayoutBox.node_mk,
          LayoutBox.lines_mk, JsonNode.node_type_mk]
        exact ⟨hW2, hH2, by intro hcontra; simp at hcontra⟩
      · exact hrf.1 bx hbx
    · rw [LayoutBox.outer_width]
      simp only [LayoutBox.margin_left_mk, LayoutBox.margin_right_mk, LayoutBox.width_mk]
      linarith [hW2]
    · rw [LayoutBox.outer_height]
      simp only [LayoutBox.margin_top_mk, LayoutBox.margin_bottom_mk, LayoutBox.height_mk]
      linarith [hH2]
  case row =>
    have hstw : style_wf st := ⟨hWopt, hHopt, hminw, hminh, hmaxw, hmaxh, hpadq, hptq,
      hprq, hpbq, hplq, hgapq, hfsq, hlhq⟩
    have hpads := padding_trbl_nonneg st hstw
    have hgap : 0 ≤ st.gap.getD 0 := opt_getD_nonneg _ hgapq _ le_rfl
    simp only [measure_layout_with_parent, JsonNode.node_type_mk, JsonNode.style_mk]
    set CPW := (Option.map (fun d => d.resolve pw) st.width).getD pw - st.padding_trbl.2.2.2 -
      st.padding_trbl.2.1 with hCPW
    set CPH := (if (Option.map (fun d => d.resolve ph) st.height).isSome = true ∨ NodeType.row = NodeType.page then
        (Option.map (fun d => d.resolve ph) st.height).getD ph - st.padding_trbl.1 -
          st.padding_trbl.2.2.1
      else 0) with hCPH
    set cs2 := measure_children cs CPW CPH with hcs2
    have hok2 : (∀ bx ∈ all_boxes_list cs2, box_measured_ok bx) ∧
        ∀ c2 ∈ cs2, 0 ≤ c2.outer_width ∧ 0 ≤ c2.outer_height := by
      rw [hcs2]
      exact measure_children_wf cs CPW CPH hlist
    rcases hdir : st.direction.getD Direction.column with _ | _
    · simp only [hdir]
      by_cases hwc : (st.wrap.getD false
          && (Option.map (fun d => d.resolve pw) st.width).isSome) = true
      · rw [if_pos hwc]
        have hc1 : 0 ≤ (measure_wrapping_row cs2 (st.gap.getD 0) CPW).1 ∧ 0 ≤ (measure_wrapping_row cs2 (st.gap.getD 0) CPW).2 := (by
          rw [measure_wrapping_row]
          exact measure_wrapping_row_go_nonneg (st.gap.getD 0) CPW hgap cs2 0 0 0 0
            le_rfl le_rfl le_rfl le_rfl hok2.2)
        have hW1 : 0 ≤ (Option.map (fun d => d.resolve pw) st.width).getD
            ((measure_wrapping_row cs2 (st.gap.getD 0) CPW).1 + st.padding_trbl.2.2.2 + st.padding_trbl.2.1) :=
          resolve_opt_nonneg st.width hWopt pw _
            (by linarith [hc1.1, hpads.2.1, hpads.2.2.2])
        have hH1 : 0 ≤ (Option.map (fun d => d.resolve ph) st.height).getD
            ((measure_wrapping_row cs2 (st.gap.getD 0) CPW).2 + st.padding_trbl.1 + st.padding_trbl.2.2.1) :=
          resolve_opt_nonneg st.height hHopt ph _
            (by linarith [hc1.2, hpads.1, hpads.2.2.1])
        have hW2 := apply_min_max_w_nonneg st
          ((Option.map (fun d => d.resolve pw) st.width).getD
            ((measure_wrapping_row cs2 (st.gap.getD 0) CPW).1 + st.padding_trbl.2.2.2 + st.padding_trbl.2.1))
          ((Option.map (fun d => d.resolve ph) st.height).getD
            ((measure_wrapping_row cs2 (st.gap.getD 0) CPW).2 + st.padding_trbl.1 + st.padding_trbl.2.2.1)) pw ph hminw hmaxw hW1
        have hH2 := apply_min_max_h_nonneg st
          ((Option.map (fun d => d.resolve pw) st.width).getD
            ((measure_wrapping_row cs2 (st.gap.getD 0) CPW).1 + st.padding_trbl.2.2.2 + st.padding_trbl.2.1))
          ((Option.map (fun d => d.resolve ph) st.height).getD
            ((measure_wrapping_row cs2 (st.gap.getD 0) CPW).2 + st.padding_trbl.1 + st.padding_trbl.2.2.1)) pw ph hminh hmaxh hH1
        refine ⟨?_, ?_, ?_⟩
        · intro bx hbx
          rw [all_boxes] at hbx
          rcases List.mem_cons.mp hbx with hbx | hbx
          · subst hbx
            rw [box_measured_ok]
            simp only [LayoutBox.width_mk, LayoutBox.height_mk, LayoutBox.node_mk,
              LayoutBox.lines_mk, JsonNode.node_type_mk]
            exact ⟨hW2, hH2, by intro hcontra; simp at hcontra⟩
          · exact hok2.1 bx hbx
        · rw [LayoutBox.outer_width]
          simp only [LayoutBox.margin_left_mk, LayoutBox.margin_right_mk, LayoutBox.width_mk]
          linarith [hW2]
        · rw [LayoutBox.outer_height]
          simp only [LayoutBox.margin_top_mk, LayoutBox.margin_bottom_mk, LayoutBox.height_mk]
          linarith [hH2]
      · rw [if_neg hwc]
        have hc1 : 0 ≤ (measure_row cs2 (st.gap.getD 0)).1 ∧ 0 ≤ (measure_row cs2 (st.gap.getD 0)).2 := (by
          rw [measure_row]
          exact measure_row_go_nonneg (st.gap.getD 0) hgap cs2 0 0 0 le_rfl le_rfl hok2.2)
        have hW1 : 0 ≤ (Option.map (fun d => d.resolve pw) st.width).getD
            ((measure_row cs2 (st.gap.getD 0)).1 + st.padding_trbl.2.2.2 + st.padding_trbl.2.1) :=
          resolve_opt_nonneg st.width hWopt pw _
            (by linarith [hc1.1, hpads.2.1, hpads.2.2.2])
        have hH1 : 0 ≤ (Option.map (fun d => d.resolve ph) st.height).getD
            ((measure_row cs2 (st.gap.getD 0)).2 + st.padding_trbl.1 + st.padding_trbl.2.2.1) :=
          resolve_opt_nonneg st.height hHopt ph _
            (by linarith [hc1.2, hpads.1, hpads.2.2.1])
        have hW2 := apply_min_max_w_nonneg st
          ((Option.map (fun d => d.resolve pw) st.width).getD
            ((measure_row cs2 (st.gap.getD 0)).1 + st.padding_trbl.2.2.2 + st.padding_trbl.2.1))
          ((Option.map (fun d => d.resolve ph) st.height).getD
            ((measure_row cs2 (st.gap.getD 0)).2 + st.padding_trbl.1 + st.padding_trbl.2.2.1)) pw ph hminw hmaxw hW1
        have hH2 := apply_min_max_h_nonneg st
          ((Option.map (fun d => d.resolve pw) st.width).getD
            ((measure_row cs2 (st.gap.getD 0)).1 + st.padding_trbl.2.2.2 + st.padding_trbl.2.1))
          ((Option.map (fun d => d.resolve ph) st.height).getD
            ((measure_row cs2 (st.gap.getD 0)).2 + st.padding_trbl.1 + st.padding_trbl.2.2.1)) pw ph hminh hmaxh hH1
        refine ⟨?_, ?_, ?_⟩
        · intro bx hbx
          rw [all_boxes] at hbx
          rcases List.mem_cons.mp hbx with hbx | hbx
          · subst hbx
            rw [box_measured_ok]
            simp only [LayoutBox.width_mk, LayoutBox.height_mk, LayoutBox.node_mk,
              LayoutBox.lines_mk, JsonNode.node_type_mk]
            exact ⟨hW2, hH2, by intro hcontra; simp at hcontra⟩
          · exact hok2.1 bx hbx
        · rw [LayoutBox.outer_width]
          simp only [LayoutBox.margin_left_mk, LayoutBox.margin_right_mk, LayoutBox.width_mk]
          linarith [hW2]
        · rw [LayoutBox.outer_height]
          simp only [LayoutBox.margin_top_mk, LayoutBox.margin_bottom_mk, LayoutBox.height_mk]
          linarith [hH2]
    · simp only [hdir]
      have hc1 : 0 ≤ (measure_column cs2 (st.gap.getD 0)).1 ∧ 0 ≤ (measure_column cs2 (st.gap.getD 0)).2 := (by
        rw [measure_column]
        exact measure_column_go_nonneg (st.gap.getD 0) hgap cs2 0 0 0 le_rfl le_rfl hok2.2)
      have hW1 : 0 ≤ (Option.map (fun d => d.resolve pw) st.width).getD
          ((measure_column cs2 (st.gap.getD 0)).1 + st.padding_trbl.2.2.2 + st.padding_trbl.2.1) :=
        resolve_opt_nonneg st.width hWopt pw _
          (by linarith [hc1.1, hpads.2.1, hpads.2.2.2])
      have hH1 : 0 ≤ (Option.map (fun d => d.resolve ph) st.height).getD
          ((measure_column cs2 (st.gap.getD 0)).2 + st.padding_trbl.1 + st.padding_trbl.2.2.1) :=
        resolve_opt_nonneg st.height hHopt ph _
          (by linarith [hc1.2, hpads.1, hpads.2.2.1])
      have hW2 := apply_min_max_w_nonneg st
        ((Option.map (fun d => d.resolve pw) st.width).getD
          ((measure_column cs2 (st.gap.getD 0)).1 + st.padding_trbl.2.2.2 + st.padding_trbl.2.1))
        ((Option.map (fun d => d.resolve ph) st.height).getD
          ((measure_column cs2 (st.gap.getD 0)).2 + st.padding_trbl.1 + st.padding_trbl.2.2.1)) pw ph hminw hmaxw hW1
      have hH2 := apply_min_max_h_nonneg st
        ((Option.map (fun d => d.resolve pw) st.width).getD
          ((measure_column cs2 (st.gap.getD 0)).1 + st.padding_trbl.2.2.2 + st.padding_trbl.2.1))
        ((Option.map (fun d => d.resolve ph) st.height).getD
          ((measure_column cs2 (st.gap.getD 0)).2 + st.padding_trbl.1 + st.padding_trbl.2.2.1)) pw ph hminh hmaxh hH1
      refine ⟨?_, ?_, ?_⟩
      · intro bx hbx
        rw [all_boxes] at hbx
        rcases List.mem_cons.mp hbx with hbx | hbx
        · subst hbx
          rw [box_measured_ok]
          simp only [LayoutBox.width_mk, LayoutBox.height_mk, LayoutBox.node_mk,
            LayoutBox.lines_mk, JsonNode.node_type_mk]
          exact ⟨hW2, hH2, by intro hcontra; simp at hcontra⟩
        · exact hok2.1 bx hbx
      · rw [LayoutBox.outer_width]
        simp only [LayoutBox.margin_left_mk, LayoutBox.margin_right_mk, LayoutBox.width_mk]
        linarith [hW2]
      · rw [LayoutBox.outer_height]
        simp only [LayoutBox.margin_top_mk, LayoutBox.margin_bottom_mk, LayoutBox.height_mk]
        linarith [hH2]
  case cell =>
    have hstw : style_wf st := ⟨hWopt, hHopt, hminw, hminh, hmaxw, hmaxh, hpadq, hptq,
      hprq, hpbq, hplq, hgapq, hfsq, hlhq⟩
    have hpads := padding_trbl_nonneg st hstw
    have hgap : 0 ≤ st.gap.getD 0 := opt_getD_nonneg _ hgapq _ le_rfl
    simp only [measure_layout_with_parent, JsonNode.node_type_mk, JsonNode.style_mk]
    set CPW := (Option.map (fun d => d.resolve pw) st.width).getD pw - st.padding_trbl.2.2.2 -
      st.padding_trbl.2.1 with hCPW
    set CPH := (if (Option.map (fun d => d.resolve ph) st.height).isSome = true ∨ NodeType.cell = NodeType.page then
        (Option.map (fun d => d.resolve ph) st.height).getD ph - st.padding_trbl.1 -
          st.padding_trbl.2.2.1
      else 0) with hCPH
    set cs2 := measure_children cs CPW CPH with hcs2
    have hok2 : (∀ bx ∈ all_boxes_list cs2, box_measured_ok bx) ∧
        ∀ c2 ∈ cs2, 0 ≤ c2.outer_width ∧ 0 ≤ c2.outer_height := by
      rw [hcs2]
      exact measure_children_wf cs CPW CPH hlist
    rcases hdir : st.direction.getD Direction.column with _ | _
    · simp only [hdir]
      by_cases hwc : (st.wrap.getD false
          && (Option.map (fun d => d.resolve pw) st.width).isSome) = true
      · rw [if_pos hwc]
        have hc1 : 0 ≤ (measure_wrapping_row cs2 (st.gap.getD 0) CPW).1 ∧ 0 ≤ (measure_wrapping_row cs2 (st.gap.getD 0) CPW).2 := (by
          rw [measure_wrapping_row]
          exact measure_wrapping_row_go_nonneg (st.gap.getD 0) CPW hgap cs2 0 0 0 0
            le_rfl le_rfl le_rfl le_rfl hok2.2)
        have hW1 : 0 ≤ (Option.map (fun d => d.resolve pw) st.width).getD
            ((measure_wrapping_row cs2 (st.gap.getD 0) CPW).1 + st.padding_trbl.2.2.2 + st.padding_trbl.2.1) :=
          resolve_opt_nonneg st.width hWopt pw _
            (by linarith [hc1.1, hpads.2.1, hpads.2.2.2])
        have hH1 : 0 ≤ (Option.map (fun d => d.resolve ph) st.height).getD
            ((measure_wrapping_row cs2 (st.gap.getD 0) CPW).2 + st.padding_trbl.1 + st.padding_trbl.2.2.1) :=
          resolve_opt_nonneg st.height hHopt ph _
            (by linarith [hc1.2, hpads.1, hpads.2.2.1])
        have hW2 := apply_min_max_w_nonneg st
          ((Option.map (fun d => d.resolve pw) st.width).getD
            ((measure_wrapping_row cs2 (st.gap.getD 0) CPW).1 + st.padding_trbl.2.2.2 + st.padding_trbl.2.1))
          ((Option.map (fun d => d.resolve ph) st.height).getD
            ((measure_wrapping_row cs2 (st.gap.getD 0) CPW).2 + st.padding_trbl.1 + st.padding_trbl.2.2.1)) pw ph hminw hmaxw hW1
        have hH2 := apply_min_max_h_nonneg st
          ((Option.map (fun d => d.resolve pw) st.width).getD
            ((measure_wrapping_row cs2 (st.gap.getD 0) CPW).1 + st.padding_trbl.2.2.2 + st.padding_trbl.2.1))
          ((Option.map (fun d => d.resolve ph) st.height).getD
            ((measure_wrapping_row cs2 (st.gap.getD 0) CPW).2 + st.padding_trbl.1 + st.padding_trbl.2.2.1)) pw ph hminh hmaxh hH1
        refine ⟨?_, ?_, ?_⟩
        · intro bx hbx
          rw [all_boxes] at hbx
          rcases List.mem_cons.mp hbx with hbx | hbx
          · subst hbx
            rw [box_measured_ok]
            simp only [LayoutBox.width_mk, LayoutBox.height_mk, LayoutBox.node_mk,
              LayoutBox.lines_mk, JsonNode.node_type_mk]
            exact ⟨hW2, hH2, by intro hcontra; simp at hcontra⟩
          · exact hok2.1 bx hbx
        · rw [LayoutBox.outer_width]
          simp only [LayoutBox.margin_left_mk, LayoutBox.margin_right_mk, LayoutBox.width_mk]
          linarith [hW2]
        · rw [LayoutBox.outer_height]
          simp only [LayoutBox.margin_top_mk, LayoutBox.margin_bottom_mk, LayoutBox.height_mk]
          linarith [hH2]
      · rw [if_neg hwc]
        have hc1 : 0 ≤ (measure_row cs2 (st.gap.getD 0)).1 ∧ 0 ≤ (measure_row cs2 (st.gap.getD 0)).2 := (by
          rw [measure_row]
          exact measure_row_go_nonneg (st.gap.getD 0) hgap cs2 0 0 0 le_rfl le_rfl hok2.2)
        have hW1 : 0 ≤ (Option.map (fun d => d.resolve pw) st.width).getD
            ((measure_row cs2 (st.gap.getD 0)).1 + st.padding_trbl.2.2.2 + st.padding_trbl.2.1) :=
          resolve_opt_nonneg st.width hWopt pw _
            (by linarith [hc1.1, hpads.2.1, hpads.2.2.2])
        have hH1 : 0 ≤ (Option.map (fun d => d.resolve ph) st.height).getD
            ((measure_row cs2 (st.gap.getD 0)).2 + st.padding_trbl.1 + st.padding_trbl.2.2.1) :=
          resolve_opt_nonneg st.height hHopt ph _
            (by linarith [hc1.2, hpads.1, hpads.2.2.1])
        have hW2 := apply_min_max_w_nonneg st
          ((Option.map (fun d => d.resolve pw) st.width).getD
            ((measure_row cs2 (st.gap.getD 0)).1 + st.padding_trbl.2.2.2 + st.padding_trbl.2.1))
          ((Option.map (fun d => d.resolve ph) st.height).getD
            ((measure_row cs2 (st.gap.getD 0)).2 + st.padding_trbl.1 + st.padding_trbl.2.2.1)) pw ph hminw hmaxw hW1
        have hH2 := apply_min_max_h_nonneg st
          ((Option.map (fun d => d.resolve pw) st.width).getD
            ((measure_row cs2 (st.gap.getD 0)).1 + st.padding_trbl.2.2.2 + st.padding_trbl.2.1))
          ((Option.map (fun d => d.resolve ph) st.height).getD
            ((measure_row cs2 (st.gap.getD 0)).2 + st.padding_trbl.1 + st.padding_trbl.2.2.1)) pw ph hminh hmaxh hH1
        refine ⟨?_, ?_, ?_⟩
        · intro bx hbx
          rw [all_boxes] at hbx
          rcases List.mem_cons.mp hbx with hbx | hbx
          · subst hbx
            rw [box_measured_ok]
            simp only [LayoutBox.width_mk, LayoutBox.height_mk, LayoutBox.node_mk,
              LayoutBox.lines_mk, JsonNode.node_type_mk]
            exact ⟨hW2, hH2, by intro hcontra; simp at hcontra⟩
          · exact hok2.1 bx hbx
        · rw [LayoutBox.outer_width]
          simp only [LayoutBox.margin_left_mk, LayoutBox.margin_right_mk, LayoutBox.width_mk]
          linarith [hW2]
        · rw [LayoutBox.outer_height]
          simp only [LayoutBox.margin_top_mk, LayoutBox.margin_bottom_mk, LayoutBox.height_mk]
          linarith [hH2]
    · simp only [hdir]
      have hc1 : 0 ≤ (measure_column cs2 (st.gap.getD 0)).1 ∧ 0 ≤ (measure_column cs2 (st.gap.getD 0)).2 := (by
        rw [measure_column]
        exact measure_column_go_nonneg (st.gap.getD 0) hgap cs2 0 0 0 le_rfl le_rfl hok2.2)
      have hW1 : 0 ≤ (Option.map (fun d => d.resolve pw) st.width).getD
          ((measure_column cs2 (st.gap.getD 0)).1 + st.padding_trbl.2.2.2 + st.padding_trbl.2.1) :=
        resolve_opt_nonneg st.width hWopt pw _
          (by linarith [hc1.1, hpads.2.1, hpads.2.2.2])
      have hH1 : 0 ≤ (Option.map (fun d => d.resolve ph) st.height).getD
          ((measure_column cs2 (st.gap.getD 0)).2 + st.padding_trbl.1 + st.padding_trbl.2.2.1) :=
        resolve_opt_nonneg st.height hHopt ph _
          (by linarith [hc1.2, hpads.1, hpads.2.2.1])
      have hW2 := apply_min_max_w_nonneg st
        ((Option.map (fun d => d.resolve pw) st.width).getD
          ((measure_column cs2 (st.gap.getD 0)).1 + st.padding_trbl.2.2.2 + st.padding_trbl.2.1))
        ((Option.map (fun d => d.resolve ph) st.height).getD
          ((measure_column cs2 (st.gap.getD 0)).2 + st.padding_trbl.1 + st.padding_trbl.2.2.1)) pw ph hminw hmaxw hW1
      have hH2 := apply_min_max_h_nonneg st
        ((Option.map (fun d => d.resolve pw) st.width).getD
          ((measure_column cs2 (st.gap.getD 0)).1 + st.padding_trbl.2.2.2 + st.padding_trbl.2.1))
        ((Option.map (fun d => d.resolve ph) st.height).getD
          ((measure_column cs2 (st.gap.getD 0)).2 + st.padding_trbl.1 + st.padding_trbl.2.2.1)) pw ph hminh hmaxh hH1
      refine ⟨?_, ?_, ?_⟩
      · intro bx hbx
        rw [all_boxes] at hbx
        rcases List.mem_cons.mp hbx with hbx | hbx
        · subst hbx
          rw [box_measured_ok]
          simp only [LayoutBox.width_mk, LayoutBox.height_mk, LayoutBox.node_mk,
            LayoutBox.lines_mk, JsonNode.node_type_mk]
          exact ⟨hW2, hH2, by intro hcontra; simp at hcontra⟩
        · exact hok2.1 bx hbx
      · rw [LayoutBox.outer_width]
        simp only [LayoutBox.margin_left_mk, LayoutBox.margin_right_mk, LayoutBox.width_mk]
        linarith [hW2]
      · rw [LayoutBox.outer_height]
        simp only [LayoutBox.margin_top_mk, LayoutBox.margin_bottom_mk, LayoutBox.height_mk]
        linarith [hH2]

theorem measure_children_wf (cs : List LayoutBox) (pw ph : ℚ) (hwf : BoxListWf cs) :
    (∀ bx ∈ all_boxes_list (measure_children cs pw ph), box_measured_ok bx) ∧
    ∀ c2 ∈ measure_children cs pw ph, 0 ≤ c2.outer_width ∧ 0 ≤ c2.outer_height := by
  match cs with
  | [] =>
    rw [measure_children]
    exact ⟨(by intro bx hbx; cases hbx), (by intro c2 hc2; cases hc2)⟩
  | c :: rest =>
    rw [BoxListWf] at hwf
    obtain ⟨hc, hrest⟩ := hwf
    have hm := measure_wf c pw ph hc
    have hms := measure_children_wf rest pw ph hrest
    rw [measure_children]
    constructor
    · intro bx hbx
      rw [all_boxes_list] at hbx
      rcases List.mem_append.mp hbx with hbx | hbx
      · exact hm.1 bx hbx
      · exact hms.1 bx hbx
    · intro c2 hc2
      rcases List.mem_cons.mp hc2 with hc2 | hc2
      · subst hc2
        exact ⟨hm.2.1, hm.2.2⟩
      · exact hms.2 c2 hc2

theorem measure_table_rows_wf (rows : List LayoutBox) (col_widths : List ℚ)
    (col_gap ph : ℚ) (num_cols row_count row_idx : ℕ) (row_heights : List ℚ)
    (active : List ℕ)
    (hrows : ∀ r ∈ rows, BoxWf r ∧ r.node.node_type = NodeType.row ∧
      (∀ cell ∈ r.children, cell.col_span = 1 ∧ cell.row_span = 1) ∧
      r.children.length ≤ num_cols)
    (hcw : ∀ v ∈ col_widths, 0 ≤ v) (hgap : 0 ≤ col_gap)
    (hrh : ∀ v ∈ row_heights, 0 ≤ v) (hact : ∀ a ∈ active, a = 0) :
    (∀ bx ∈ all_boxes_list (measure_table_rows rows col_widths col_gap ph num_cols row_count
        row_idx row_heights active).1, box_measured_ok bx) ∧
    (∀ v ∈ (measure_table_rows rows col_widths col_gap ph num_cols row_count
        row_idx row_heights active).2, 0 ≤ v) := by
  match rows with
  | [] =>
    rw [measure_table_rows]
    exact ⟨(by intro bx hbx; cases hbx), hrh⟩
  | (LayoutBox.mk rx ry rw2 rh2 rmt rmr rmb rml rcells rnd rln rtb) :: rest =>
    obtain ⟨hrwf, hrnt, hrspans, hrlen⟩ :=
      hrows _ (List.mem_cons_self _ rest)
    have hrestrows : ∀ r ∈ rest, BoxWf r ∧ r.node.node_type = NodeType.row ∧
        (∀ cell ∈ r.children, cell.col_span = 1 ∧ cell.row_span = 1) ∧
        r.children.length ≤ num_cols :=
      fun r hr => hrows r (List.mem_cons_of_mem _ hr)
    rw [BoxWf] at hrwf
    obtain ⟨hrw0, hrh0, hrmt, hrmr, hrmb, hrml, _, _, _, _, _, hrlist⟩ := hrwf
    simp only [LayoutBox.children_mk] at hrspans hrlen
    simp only [LayoutBox.node_mk] at hrnt
    have hcellhyp : ∀ cell ∈ rcells, BoxWf cell ∧ cell.col_span = 1 ∧ cell.row_span = 1 :=
      fun cell hc => ⟨BoxListWf_mem rcells hrlist cell hc, (hrspans cell hc).1,
        (hrspans cell hc).2⟩
    have hc0 : countLeadingActive active = 0 := countLeadingActive_zeros _ hact
    have hcf := measure_table_cells_wf rcells col_widths col_gap ph num_cols row_count
      row_idx (countLeadingActive active) row_heights active hcellhyp
      (by rw [hc0]; simpa using hrlen) hcw hgap hrh hact
    have hactzero := hcf.2.2
    have hrf := measure_table_rows_wf rest col_widths col_gap ph num_cols row_count
      (row_idx + 1)
      (measure_table_cells rcells col_widths col_gap ph num_cols row_count row_idx
        (countLeadingActive active) row_heights active).2.1
      ((measure_table_cells rcells col_widths col_gap ph num_cols row_count row_idx
        (countLeadingActive active) row_heights active).2.2.map (fun a => a - 1))
      hrestrows hcw hgap hcf.2.1 (zeros_map_sub _ hactzero)
    rw [measure_table_rows]
    constructor
    · intro bx hbx
      simp only [all_boxes_list] at hbx
      rcases List.mem_append.mp hbx with hbx | hbx
      · rw [all_boxes] at hbx
        rcases List.mem_cons.mp hbx with hbx | hbx
        · subst hbx
          rw [box_measured_ok]
          simp only [LayoutBox.width_mk, LayoutBox.height_mk, LayoutBox.node_mk,
            LayoutBox.lines_mk]
          refine ⟨hrw0, hrh0, ?_⟩
          intro hcontra
          rw [hrnt] at hcontra
          simp at hcontra
        · exact hcf.1 bx hbx
      · exact hrf.1 bx hbx
    · exact hrf.2

theorem measure_table_cells_wf (cells : List LayoutBox) (col_widths : List ℚ)
    (col_gap ph : ℚ) (num_cols row_count row_idx col_idx : ℕ)
    (row_heights : List ℚ) (active : List ℕ)
    (hcells : ∀ cell ∈ cells, BoxWf cell ∧ cell.col_span = 1 ∧ cell.row_span = 1)
    (hlen : col_idx + cells.length ≤ num_cols)
    (hcw : ∀ v ∈ col_widths, 0 ≤ v) (hgap : 0 ≤ col_gap)
    (hrh : ∀ v ∈ row_heights, 0 ≤ v) (hact : ∀ a ∈ active, a = 0) :
    (∀ bx ∈ all_boxes_list (measure_table_cells cells col_widths col_gap ph num_cols
        row_count row_idx col_idx row_heights active).1, box_measured_ok bx) ∧
    (∀ v ∈ (measure_table_cells cells col_widths col_gap ph num_cols
        row_count row_idx col_idx row_heights active).2.1, 0 ≤ v) ∧
    (∀ a ∈ (measure_table_cells cells col_widths col_gap ph num_cols
        row_count row_idx col_idx row_heights active).2.2, a = 0) := by
  match cells with
  | [] =>
    rw [measure_table_cells]
    exact ⟨(by intro bx hbx; cases hbx), hrh, hact⟩
  | cell :: rest =>
    obtain ⟨hcwf, hcspan, hrspan⟩ := hcells cell (List.mem_cons_self cell rest)
    have hrest : ∀ c ∈ rest, BoxWf c ∧ c.col_span = 1 ∧ c.row_span = 1 :=
      fun c hc => hcells c (List.mem_cons_of_mem cell hc)
    have hdrop0 : countLeadingActive (List.drop col_idx active) = 0 :=
      countLeadingActive_zeros _ (zeros_drop active hact col_idx)
    have hlt : ¬(col_idx + countLeadingActive (List.drop col_idx active) ≥ num_cols) := by
      simp only [List.length_cons] at hlen
      omega
    have hswnn : 0 ≤ slice_sum col_widths (col_idx + countLeadingActive (List.drop col_idx active)) (max (min cell.col_span (num_cols - (col_idx + countLeadingActive (List.drop col_idx active)))) 1)
        + col_gap * (((max (min cell.col_span (num_cols - (col_idx + countLeadingActive (List.drop col_idx active)))) 1) - 1 : ℕ) : ℚ) := by
      have h1 := slice_sum_nonneg col_widths hcw (col_idx + countLeadingActive (List.drop col_idx active)) (max (min cell.col_span (num_cols - (col_idx + countLeadingActive (List.drop col_idx active)))) 1)
      have h2 : (0 : ℚ) ≤ col_gap * (((max (min cell.col_span (num_cols - (col_idx + countLeadingActive (List.drop col_idx active)))) 1) - 1 : ℕ) : ℚ) := by
        positivity
      linarith
    have hmw := measure_wf cell (slice_sum col_widths (col_idx + countLeadingActive (List.drop col_idx active)) (max (min cell.col_span (num_cols - (col_idx + countLeadingActive (List.drop col_idx active)))) 1) + col_gap * (((max (min cell.col_span (num_cols - (col_idx + countLeadingActive (List.drop col_idx active)))) 1) - 1 : ℕ) : ℚ)) ph hcwf
    have hrs2 : ((measure_layout_with_parent cell (slice_sum col_widths (col_idx + countLeadingActive (List.drop col_idx active)) (max (min cell.col_span (num_cols - (col_idx + countLeadingActive (List.drop col_idx active)))) 1) + col_gap * (((max (min cell.col_span (num_cols - (col_idx + countLeadingActive (List.drop col_idx active)))) 1) - 1 : ℕ) : ℚ)) ph).set_width (slice_sum col_widths (col_idx + countLeadingActive (List.drop col_idx active)) (max (min cell.col_span (num_cols - (col_idx + countLeadingActive (List.drop col_idx active)))) 1) + col_gap * (((max (min cell.col_span (num_cols - (col_idx + countLeadingActive (List.drop col_idx active)))) 1) - 1 : ℕ) : ℚ))).row_span = 1 := by
      rw [row_span_set_width]
      show max ((measure_layout_with_parent cell (slice_sum col_widths (col_idx + countLeadingActive (List.drop col_idx active)) (max (min cell.col_span (num_cols - (col_idx + countLeadingActive (List.drop col_idx active)))) 1) + col_gap * (((max (min cell.col_span (num_cols - (col_idx + countLeadingActive (List.drop col_idx active)))) 1) - 1 : ℕ) : ℚ)) ph).node.row_span_field.getD 1) 1 = 1
      rw [(measure_frame cell (slice_sum col_widths (col_idx + countLeadingActive (List.drop col_idx active)) (max (min cell.col_span (num_cols - (col_idx + countLeadingActive (List.drop col_idx active)))) 1) + col_gap * (((max (min cell.col_span (num_cols - (col_idx + countLeadingActive (List.drop col_idx active)))) 1) - 1 : ℕ) : ℚ)) ph).1]
      exact hrspan
    have hngt : ¬ (((measure_layout_with_parent cell (slice_sum col_widths (col_idx + countLeadingActive (List.drop col_idx active)) (max (min cell.col_span (num_cols - (col_idx + countLeadingActive (List.drop col_idx active)))) 1) + col_gap * (((max (min cell.col_span (num_cols - (col_idx + countLeadingActive (List.drop col_idx active)))) 1) - 1 : ℕ) : ℚ)) ph).set_width (slice_sum col_widths (col_idx + countLeadingActive (List.drop col_idx active)) (max (min cell.col_span (num_cols - (col_idx + countLeadingActive (List.drop col_idx active)))) 1) + col_gap * (((max (min cell.col_span (num_cols - (col_idx + countLeadingActive (List.drop col_idx active)))) 1) - 1 : ℕ) : ℚ))).row_span > 1) := by
      rw [hrs2]
      omega
    have hch : 0 ≤ ((measure_layout_with_parent cell (slice_sum col_widths (col_idx + countLeadingActive (List.drop col_idx active)) (max (min cell.col_span (num_cols - (col_idx + countLeadingActive (List.drop col_idx active)))) 1) + col_gap * (((max (min cell.col_span (num_cols - (col_idx + countLeadingActive (List.drop col_idx active)))) 1) - 1 : ℕ) : ℚ)) ph).set_width (slice_sum col_widths (col_idx + countLeadingActive (List.drop col_idx active)) (max (min cell.col_span (num_cols - (col_idx + countLeadingActive (List.drop col_idx active)))) 1) + col_gap * (((max (min cell.col_span (num_cols - (col_idx + countLeadingActive (List.drop col_idx active)))) 1) - 1 : ℕ) : ℚ))).outer_height := by
      rw [outer_height_set_width]
      exact hmw.2.2
    have hrh1 : ∀ v ∈ (List.set row_heights row_idx (max (row_heights.getD row_idx 0) ((measure_layout_with_parent cell (slice_sum col_widths (col_idx + countLeadingActive (List.drop col_idx active)) (max (min cell.col_span (num_cols - (col_idx + countLeadingActive (List.drop col_idx active)))) 1) + col_gap * (((max (min cell.col_span (num_cols - (col_idx + countLeadingActive (List.drop col_idx active)))) 1) - 1 : ℕ) : ℚ)) ph).set_width (slice_sum col_widths (col_idx + countLeadingActive (List.drop col_idx active)) (max (min cell.col_span (num_cols - (col_idx + countLeadingActive (List.drop col_idx active)))) 1) + col_gap * (((max (min cell.col_span (num_cols - (col_idx + countLeadingActive (List.drop col_idx active)))) 1) - 1 : ℕ) : ℚ))).outer_height)), 0 ≤ v :=
      set_entries_nonneg row_heights row_idx _ hrh
        (le_max_of_le_left (list_getD_nonneg row_heights hrh row_idx))
    have hlen2 : ((col_idx + countLeadingActive (List.drop col_idx active)) + (max (min cell.col_span (num_cols - (col_idx + countLeadingActive (List.drop col_idx active)))) 1)) + rest.length ≤ num_cols := by
      simp only [List.length_cons] at hlen
      omega
    have hih := measure_table_cells_wf rest col_widths col_gap ph num_cols row_count row_idx
      ((col_idx + countLeadingActive (List.drop col_idx active)) + (max (min cell.col_span (num_cols - (col_idx + countLeadingActive (List.drop col_idx active)))) 1)) (List.set row_heights row_idx (max (row_heights.getD row_idx 0) ((measure_layout_with_parent cell (slice_sum col_widths (col_idx + countLeadingActive (List.drop col_idx active)) (max (min cell.col_span (num_cols - (col_idx + countLeadingActive (List.drop col_idx active)))) 1) + col_gap * (((max (min cell.col_span (num_cols - (col_idx + countLeadingActive (List.drop col_idx active)))) 1) - 1 : ℕ) : ℚ)) ph).set_width (slice_sum col_widths (col_idx + countLeadingActive (List.drop col_idx active)) (max (min cell.col_span (num_cols - (col_idx + countLeadingActive (List.drop col_idx active)))) 1) + col_gap * (((max (min cell.col_span (num_cols - (col_idx + countLeadingActive (List.drop col_idx active)))) 1) - 1 : ℕ) : ℚ))).outer_height)) active hrest hlen2 hcw hgap hrh1 hact
    have hq1 : (measure_table_cells (cell :: rest) col_widths col_gap ph num_cols
        row_count row_idx col_idx row_heights active).1 = ((measure_layout_with_parent cell (slice_sum col_widths (col_idx + countLeadingActive (List.drop col_idx active)) (max (min cell.col_span (num_cols - (col_idx + countLeadingActive (List.drop col_idx active)))) 1) + col_gap * (((max (min cell.col_span (num_cols - (col_idx + countLeadingActive (List.drop col_idx active)))) 1) - 1 : ℕ) : ℚ)) ph).set_width (slice_sum col_widths (col_idx + countLeadingActive (List.drop col_idx active)) (max (min cell.col_span (num_cols - (col_idx + countLeadingActive (List.drop col_idx active)))) 1) + col_gap * (((max (min cell.col_span (num_cols - (col_idx + countLeadingActive (List.drop col_idx active)))) 1) - 1 : ℕ) : ℚ))) :: (measure_table_cells rest col_widths col_gap ph num_cols row_count row_idx ((col_idx + countLeadingActive (List.drop col_idx active)) + (max (min cell.col_span (num_cols - (col_idx + countLeadingActive (List.drop col_idx active)))) 1)) (List.set row_heights row_idx (max (row_heights.getD row_idx 0) ((measure_layout_with_parent cell (slice_sum col_widths (col_idx + countLeadingActive (List.drop col_idx active)) (max (min cell.col_span (num_cols - (col_idx + countLeadingActive (List.drop col_idx active)))) 1) + col_gap * (((max (min cell.col_span (num_cols - (col_idx + countLeadingActive (List.drop col_idx active)))) 1) - 1 : ℕ) : ℚ)) ph).set_width (slice_sum col_widths (col_idx + countLeadingActive (List.drop col_idx active)) (max (min cell.col_span (num_cols - (col_idx + countLeadingActive (List.drop col_idx active)))) 1) + col_gap * (((max (min cell.col_span (num_cols - (col_idx + countLeadingActive (List.drop col_idx active)))) 1) - 1 : ℕ) : ℚ))).outer_height)) active).1 := by
      rw [measure_table_cells, if_neg hlt]
      simp only []
      rw [if_pos hrs2, if_neg hngt]
    have hq2 : (measure_table_cells (cell :: rest) col_widths col_gap ph num_cols
        row_count row_idx col_idx row_heights active).2.1 = (measure_table_cells rest col_widths col_gap ph num_cols row_count row_idx ((col_idx + countLeadingActive (List.drop col_idx active)) + (max (min cell.col_span (num_cols - (col_idx + countLeadingActive (List.drop col_idx active)))) 1)) (List.set row_heights row_idx (max (row_heights.getD row_idx 0) ((measure_layout_with_parent cell (slice_sum col_widths (col_idx + countLeadingActive (List.drop col_idx active)) (max (min cell.col_span (num_cols - (col_idx + countLeadingActive (List.drop col_idx active)))) 1) + col_gap * (((max (min cell.col_span (num_cols - (col_idx + countLeadingActive (List.drop col_idx active)))) 1) - 1 : ℕ) : ℚ)) ph).set_width (slice_sum col_widths (col_idx + countLeadingActive (List.drop col_idx active)) (max (min cell.col_span (num_cols - (col_idx + countLeadingActive (List.drop col_idx active)))) 1) + col_gap * (((max (min cell.col_span (num_cols - (col_idx + countLeadingActive (List.drop col_idx active)))) 1) - 1 : ℕ) : ℚ))).outer_height)) active).2.1 := by
      rw [measure_table_cells, if_neg hlt]
      simp only []
      rw [if_pos hrs2, if_neg hngt]
    have hq3 : (measure_table_cells (cell :: rest) col_widths col_gap ph num_cols
        row_count row_idx col_idx row_heights active).2.2 = (measure_table_cells rest col_widths col_gap ph num_cols row_count row_idx ((col_idx + countLeadingActive (List.drop col_idx active)) + (max (min cell.col_span (num_cols - (col_idx + countLeadingActive (List.drop col_idx active)))) 1)) (List.set row_heights row_idx (max (row_heights.getD row_idx 0) ((measure_layout_with_parent cell (slice_sum col_widths (col_idx + countLeadingActive (List.drop col_idx active)) (max (min cell.col_span (num_cols - (col_idx + countLeadingActive (List.drop col_idx active)))) 1) + col_gap * (((max (min cell.col_span (num_cols - (col_idx + countLeadingActive (List.drop col_idx active)))) 1) - 1 : ℕ) : ℚ)) ph).set_width (slice_sum col_widths (col_idx + countLeadingActive (List.drop col_idx active)) (max (min cell.col_span (num_cols - (col_idx + countLeadingActive (List.drop col_idx active)))) 1) + col_gap * (((max (min cell.col_span (num_cols - (col_idx + countLeadingActive (List.drop col_idx active)))) 1) - 1 : ℕ) : ℚ))).outer_height)) active).2.2 := by
      rw [measure_table_cells, if_neg hlt]
      simp only []
      rw [if_pos hrs2, if_neg hngt]
    refine ⟨?_, ?_, ?_⟩
    · intro bx hbx
      rw [hq1, all_boxes_list] at hbx
      rcases List.mem_append.mp hbx with hbx | hbx
      · exact ok_set_width _ _ hswnn hmw.1 bx hbx
      · exact hih.1 bx hbx
    · intro v hv
      rw [hq2] at hv
      exact hih.2.1 v hv
    · intro a ha
      rw [hq3] at ha
      exact hih.2.2 a ha

end

/-- C9 (amended): the measure-pass invariants hold for well-formed input
trees — nonnegative initial sizes, margins and style values, fixed (non
percentage) dimensions, childless text/image/svg leaves, and nondegenerate
tables of rows with span-1 cells.  Every box of the measured tree then has
`width ≥ 0` and `height ≥ 0`, and every text box has at least one line.
As frozen the claim is false: an explicit negative fixed width is copied
through unclamped (see the counterexample). -/
theorem C9_measure_invariants_amended (b : LayoutBox) (pw ph : ℚ) (hwf : BoxWf b) :
    ∀ bx ∈ all_boxes (measure_layout_with_parent b pw ph),
      0 ≤ bx.width ∧ 0 ≤ bx.height ∧
      (bx.node.node_type = NodeType.text → 1 ≤ bx.lines.length) := by
  intro bx hbx
  have h := (measure_wf b pw ph hwf).1 bx hbx
  rw [box_measured_ok] at h
  exact h

/-- C9 counterexample to the claim as frozen: measuring a childless view
whose style width is the fixed value −10 against the nonnegative parent
dimensions 595 × 842 yields a box of width −10 < 0 — `measure_container`
(`layout_box.rs` lines 336-344) copies an explicit width through without
clamping. -/
theorem C9_measure_counterexample :
    (0 : ℚ) ≤ 595 ∧ (0 : ℚ) ≤ 842 ∧
    (measure_layout_with_parent (LayoutBox.mk 0 0 0 0 0 0 0 0 []
        (.mk .view { width := some (.pt (-10)) } [] none none none none none none none)
        [] none) 595 842).width < 0 := by
  norm_num [measure_layout_with_parent, measure_children, measure_column, measure_column_go,
    apply_min_max, Dimension.resolve, Style.padding_trbl]

/-- C9 witness: the amended theorem applied to a concrete well-formed view
of fixed width 10. -/
theorem C9_measure_invariants_amended_witness :
    BoxWf (LayoutBox.mk 0 0 0 0 0 0 0 0 []
        (.mk .view { width := some (.pt 10) } [] none none none none none none none)
        [] none) ∧
    ∀ bx ∈ all_boxes (measure_layout_with_parent (LayoutBox.mk 0 0 0 0 0 0 0 0 []
        (.mk .view { width := some (.pt 10) } [] none none none none none none none)
        [] none) 595 842),
      0 ≤ bx.width ∧ 0 ≤ bx.height ∧
      (bx.node.node_type = NodeType.text → 1 ≤ bx.lines.length) := by
  have hwf : BoxWf (LayoutBox.mk 0 0 0 0 0 0 0 0 []
      (.mk .view { width := some (.pt 10) } [] none none none none none none none)
      [] none) := by
    rw [BoxWf, BoxListWf]
    norm_num [style_wf, opt_dim_wf, opt_nonneg, opt_dims_wf, dim_wf,
      JsonNode.style_mk, JsonNode.font_size_mk, JsonNode.column_widths_mk,
      JsonNode.node_type_mk]
    exact ⟨⟨fun d hd => (by cases hd), fun v hv => (by cases hv)⟩,
      fun v hv => (by cases hv), fun ds hds => (by cases hds),
      fun hcontra => (by cases hcontra)⟩
  exact ⟨hwf, C9_measure_invariants_amended _ 595 842 hwf⟩
end Inkwell
